import Mathlib

/-!
The tk9 Ruby/Tcl/Tk bridge, `ext/tk/tcltkbridge.c`.

A shallow embedding of the C extension that embeds a Tcl/Tk interpreter in a
Ruby process, and theorems about it.

Modelling conventions.

* A Ruby object of class `TclTkIp` is a number (`VALUE`); the C struct behind it
  is `tcltk_interp`, stored in `World.objs`.
* C pointers (`Tcl_Interp *`, `Tcl_ThreadId`) are natural numbers, `0` is `NULL`.
* Ruby strings, C strings and Tcl string objects are all Lean strings. The
  conversions between them are the identity, except `StringValueCStr` on the
  text a command procedure hands to `Tcl_SetResult`, which raises for a NUL
  byte.
* The Tcl/Tk runtime and the Ruby closures are not part of the extension. Their
  state is an abstract value `World.ext : ε`, their behaviour a record `Env ε`
  of transition functions, and every theorem holds for every `Env`. Every call
  that leaves the extension is appended to `World.trace`.
* A command that the foreign side runs while a bridge function waits for it is
  a separate step of the model. The deletion callbacks that `Tcl_DeleteInterp`
  runs before it returns are part of the call: the foreign side names the
  handles that are notified.
* A null pointer that is dereferenced ends the process: `Res.crashed`.
* A Ruby exception is a class plus a message; `Res.raise` is `rb_raise` /
  `rb_exc_raise` unwinding out of the C function.
-/

set_option linter.unusedVariables false

namespace TkBridge

/-! ## Ruby values and exceptions -/

/-- Ruby classes that matter to the bridge: the built-in exception classes, the
classes defined in `Init_tcltklib`, and classes derived from them. -/
inductive RClass where
  | Exception
  | SystemExit
  | SignalException
  | Interrupt
  | StandardError
  | RuntimeError
  | ArgumentError
  | TypeError
  | RangeError
  | TclError
  | TkCallbackBreak
  | TkCallbackContinue
  | TkCallbackReturn
  | user (name : String) (super : RClass)
  deriving DecidableEq, Repr

/-- The class itself followed by its superclasses. `TclError` is defined under
`rb_eRuntimeError`, the three `TkCallback*` classes under `rb_eStandardError`
(`Init_tcltklib`). -/
def RClass.ancestors : RClass → List RClass
  | .Exception => [.Exception]
  | .SystemExit => [.SystemExit, .Exception]
  | .SignalException => [.SignalException, .Exception]
  | .Interrupt => [.Interrupt, .SignalException, .Exception]
  | .StandardError => [.StandardError, .Exception]
  | .RuntimeError => [.RuntimeError, .StandardError, .Exception]
  | .ArgumentError => [.ArgumentError, .StandardError, .Exception]
  | .TypeError => [.TypeError, .StandardError, .Exception]
  | .RangeError => [.RangeError, .StandardError, .Exception]
  | .TclError => [.TclError, .RuntimeError, .StandardError, .Exception]
  | .TkCallbackBreak => [.TkCallbackBreak, .StandardError, .Exception]
  | .TkCallbackContinue => [.TkCallbackContinue, .StandardError, .Exception]
  | .TkCallbackReturn => [.TkCallbackReturn, .StandardError, .Exception]
  | .user n s => .user n s :: s.ancestors

/-- A raised Ruby exception object. -/
structure RException where
  klass : RClass
  message : String
  deriving DecidableEq, Repr

/-- `rb_obj_is_kind_of(exc, klass)`. -/
def rb_obj_is_kind_of (e : RException) (c : RClass) : Bool :=
  e.klass.ancestors.contains c

/-- Ruby values crossing the C boundary. -/
inductive RValue where
  | nil
  | bool (b : Bool)
  | int (i : Int)
  | str (s : String)
  | sym (s : String)
  deriving DecidableEq, Repr

/-- `NIL_P`. -/
def NIL_P : RValue → Bool
  | .nil => true
  | _ => false

/-- `RTEST`: everything but `nil` and `false` is true. -/
def RTEST : RValue → Bool
  | .nil => false
  | .bool false => false
  | _ => true

/-- `rb_String`: the textual form of a value (`to_s`). -/
def rb_String : RValue → String
  | .nil => ""
  | .bool true => "true"
  | .bool false => "false"
  | .int i => toString i
  | .str s => s
  | .sym s => s

/-- What running a piece of Ruby code produces: a value, or a raised exception. -/
inductive Outcome where
  | value (v : RValue)
  | raised (e : RException)
  deriving DecidableEq, Repr

/-! ## Tcl constants (`tcl.h`) -/

def TCL_OK : Int := 0
def TCL_ERROR : Int := 1
def TCL_RETURN : Int := 2
def TCL_BREAK : Int := 3
def TCL_CONTINUE : Int := 4

/-- `TCL_ALL_EVENTS` is `~TCL_DONT_WAIT`, with `TCL_DONT_WAIT = 1<<1`. -/
def TCL_ALL_EVENTS : Int := -3

def DEFAULT_TIMER_INTERVAL_MS : Int := 5

/-! ## Data model -/

abbrev Ptr := Nat
abbrev ThreadId := Nat
abbrev VALUE := Nat
abbrev ProcId := Nat
abbrev QueueId := Nat

/-- The three kinds of queued command (the `:type` key of the command hash,
with the payload stored under `:script`, `:args` or `:proc`). -/
inductive CmdKind where
  | eval (script : String)
  | invoke (args : List RValue)
  | proc (p : ProcId)
  deriving DecidableEq, Repr

/-- A command hash in `thread_queue`; `queue` is the `:queue` key, present when
the caller waits for the result. -/
structure Cmd where
  kind : CmdKind
  queue : Option QueueId
  deriving DecidableEq, Repr

/-- The struct `tcltk_interp`. -/
structure tcltk_interp where
  interp : Ptr
  deleted : Bool
  callbacks : List (String × ProcId)
  thread_queue : List Cmd
  next_id : Nat
  timer_interval_ms : Int
  main_thread_id : ThreadId
  deriving DecidableEq, Repr

/-- Calls that leave the extension, as recorded in the trace. -/
inductive FCall where
  | Tcl_FindExecutable
  | Tcl_CreateInterp
  | Tcl_InitStubs (p : Ptr)
  | Tk_InitStubs (p : Ptr)
  | Tcl_Init (p : Ptr)
  | Tk_Init (p : Ptr)
  | Tcl_GetStringResult (p : Ptr)
  | Tcl_Eval (p : Ptr) (script : String)
  | Tcl_EvalObjv (p : Ptr) (words : List String)
  | Tcl_DeleteInterp (p : Ptr)
  | Tcl_CreateObjCommand (p : Ptr) (name : String) (clientData : VALUE)
  | Tcl_CallWhenDeleted (p : Ptr) (clientData : VALUE)
  | Tcl_GetCurrentThread
  | Tcl_SetResult (p : Ptr) (text : String)
  | Tcl_GetVar (p : Ptr) (name : String)
  | Tcl_SetVar (p : Ptr) (name : String) (value : String)
  | Tcl_DoOneEvent (flags : Int)
  | Tcl_IsSafe (p : Ptr)
  | Tcl_CreateSlave (p : Ptr) (name : String) (safe : Bool)
  | Tcl_CreateTimerHandler (ms : Int) (clientData : Option VALUE)
  | Tk_GetNumMainWindows
  | Tcl_ThreadQueueEvent (thread : ThreadId) (clientData : VALUE)
  | Tcl_ThreadAlert (thread : ThreadId)
  | Tcl_ListObjGetElements (p : Ptr) (list : String)
  | rb_proc_call (p : ProcId) (args : List String)
  | rb_eval_string (code : String)
  | rb_thread_call_without_gvl
  | rb_thread_check_ints
  deriving DecidableEq, Repr

/-- A response published on a result queue: `[result, exception]`. -/
structure Response where
  result : RValue
  exception : Option RException
  deriving DecidableEq, Repr

/-- The process: the foreign side, the trace of calls into it, the Ruby objects
of class `TclTkIp`, the `Thread::Queue` objects and the C globals. -/
structure World (ε : Type) where
  ext : ε
  trace : List FCall
  objs : VALUE → tcltk_interp
  n_objs : Nat
  queues : QueueId → List Response
  n_queues : Nat
  live_instances : List VALUE
  tcl_stubs_initialized : Bool
  g_thread_timer_ms : Int
  rbtk_callback_depth : Int

/-- How a call into Tcl ends: with a completion code, or unwound by a Ruby
exception that a nested command re-raised. -/
inductive TclOutcome where
  | code (c : Int)
  | unwound (e : RException)
  deriving DecidableEq, Repr

/-- The foreign side: the Tcl/Tk runtime and the Ruby closures. -/
structure Env (ε : Type) where
  tclStubsPtr : ε → Bool
  dlsym : String → ε → Bool
  Tcl_FindExecutable : ε → Unit × ε
  Tcl_CreateInterp : ε → Ptr × ε
  Tcl_InitStubs : Ptr → ε → Option String × ε
  Tk_InitStubs : Ptr → ε → Option String × ε
  Tcl_Init : Ptr → ε → Int × ε
  Tk_Init : Ptr → ε → Int × ε
  Tcl_GetStringResult : Ptr → ε → String × ε
  Tcl_Eval : Ptr → String → ε → TclOutcome × ε
  Tcl_EvalObjv : Ptr → List String → ε → TclOutcome × ε
  Tcl_DeleteInterp : Ptr → ε → List VALUE × ε
  Tcl_CreateObjCommand : Ptr → String → VALUE → ε → Unit × ε
  Tcl_CallWhenDeleted : Ptr → VALUE → ε → Unit × ε
  Tcl_SetResult : Ptr → String → ε → Unit × ε
  Tcl_GetVar : Ptr → String → ε → Option String × ε
  Tcl_SetVar : Ptr → String → String → ε → Option String × ε
  Tcl_DoOneEvent : Int → ε → TclOutcome × ε
  Tcl_IsSafe : Ptr → ε → Int × ε
  Tcl_CreateSlave : Ptr → String → Bool → ε → Ptr × ε
  Tcl_CreateTimerHandler : Int → Option VALUE → ε → Unit × ε
  Tk_GetNumMainWindows : ε → Int × ε
  Tcl_ThreadQueueEvent : ThreadId → VALUE → ε → Unit × ε
  Tcl_ThreadAlert : ThreadId → ε → Unit × ε
  Tcl_ListObjGetElements : Ptr → String → ε → (Int × List String) × ε
  rb_proc_call : ProcId → List String → ε → Outcome × ε
  rb_eval_string : String → ε → Outcome × ε
  rb_thread_call_without_gvl : ε → Unit × ε
  rb_thread_check_ints : ε → Option RException × ε

/-! ## The execution monad -/

/-- How a C function ends: it returns, it raises a Ruby exception, the calling
thread is suspended in `Queue#pop`, the fuel of a loop ran out, or the process
died on a null pointer. -/
inductive Res (σ : Type) (α : Type) where
  | ok (a : α) (s : σ)
  | raise (e : RException) (s : σ)
  | blocked (q : QueueId) (s : σ)
  | out_of_fuel (s : σ)
  | crashed (s : σ)

/-- The state after the function ended. -/
def Res.state {σ α : Type} : Res σ α → σ
  | .ok _ s => s
  | .raise _ s => s
  | .blocked _ s => s
  | .out_of_fuel s => s
  | .crashed s => s

/-- A C function of the extension: a transition of the world. -/
def M (ε : Type) (α : Type) : Type := World ε → Res (World ε) α

def M.pure {ε α : Type} (a : α) : M ε α := fun w => .ok a w

def M.bind {ε α β : Type} (m : M ε α) (f : α → M ε β) : M ε β := fun w =>
  match m w with
  | .ok a w1 => f a w1
  | .raise e w1 => .raise e w1
  | .blocked q w1 => .blocked q w1
  | .out_of_fuel w1 => .out_of_fuel w1
  | .crashed w1 => .crashed w1

instance {ε : Type} : Monad (M ε) where
  pure := M.pure
  bind := M.bind

/-- `rb_raise(klass, message)`. -/
def rb_raise {ε α : Type} (klass : RClass) (message : String) : M ε α :=
  fun w => .raise ⟨klass, message⟩ w

/-- `rb_exc_raise(exc)`. -/
def rb_exc_raise {ε α : Type} (e : RException) : M ε α := fun w => .raise e w

/-- Read the world. -/
def getW {ε : Type} : M ε (World ε) := fun w => .ok w w

/-- Update the world. -/
def modifyW {ε : Type} (f : World ε → World ε) : M ε Unit := fun w => .ok () (f w)

/-- A call that leaves the extension: logged, and answered by the foreign side. -/
def foreign {ε α : Type} (label : FCall) (f : ε → α × ε) : M ε α := fun w =>
  .ok (f w.ext).1 { w with ext := (f w.ext).2, trace := w.trace ++ [label] }

/-- A call into Tcl that may be unwound by a Ruby exception. -/
def foreign_code {ε : Type} (label : FCall) (f : ε → TclOutcome × ε) : M ε Int := fun w =>
  match (f w.ext).1 with
  | .code c => .ok c { w with ext := (f w.ext).2, trace := w.trace ++ [label] }
  | .unwound e => .raise e { w with ext := (f w.ext).2, trace := w.trace ++ [label] }

/-- `rb_protect(func, arg, &state)`: a raised exception is caught and handed
back (`state != 0`, `rb_errinfo()`), otherwise the value is (`state == 0`). -/
def rb_protect {ε α : Type} (m : M ε α) : M ε (Except RException α) := fun w =>
  match m w with
  | .ok a w1 => .ok (.ok a) w1
  | .raise e w1 => .ok (.error e) w1
  | .blocked q w1 => .blocked q w1
  | .out_of_fuel w1 => .out_of_fuel w1
  | .crashed w1 => .crashed w1

/-- The struct behind a `TclTkIp` object (`TypedData_Get_Struct`). -/
def get_struct {ε : Type} (self : VALUE) : M ε tcltk_interp := fun w => .ok (w.objs self) w

/-- Write the struct behind a `TclTkIp` object. -/
def World.store {ε : Type} (w : World ε) (self : VALUE) (t : tcltk_interp) : World ε :=
  { w with objs := fun v => if v = self then t else w.objs v }

/-- Update the struct behind a `TclTkIp` object in place. -/
def set_struct {ε : Type} (self : VALUE) (f : tcltk_interp → tcltk_interp) : M ε Unit :=
  modifyW fun w => w.store self (f (w.objs self))

/-! ## Memory management and lifecycle -/

section
variable {ε : Type} (E : Env ε)

/-- `interp_deleted_callback`: run by Tcl when it deletes the interpreter. -/
def interp_deleted_callback (clientData : VALUE) : M ε Unit :=
  set_struct clientData fun tip => { tip with deleted := true, interp := 0 }

/-- The deletion callbacks of the handles in the list, run one after the
other. -/
def run_deleted_callbacks : List VALUE → M ε Unit
  | [] => pure ()
  | clientData :: rest => do
    interp_deleted_callback clientData
    run_deleted_callbacks rest

/-- `Tcl_DeleteInterp(interp)` on the interpreter of a handle. Before it
returns, Tcl runs the callbacks registered with `Tcl_CallWhenDeleted` on the
interpreters it destroys: `interp_deleted_callback` for every handle the
foreign side names (the handle of the interpreter, those of its children; none
when the interpreter is in use and its destruction is put off). -/
def Tcl_DeleteInterp (p : Ptr) : M ε Unit := do
  let notified ← foreign (.Tcl_DeleteInterp p) (E.Tcl_DeleteInterp p)
  run_deleted_callbacks notified

/-- `interp_free`: the finalizer run when the Ruby object is reclaimed. -/
def interp_free (self : VALUE) : M ε Unit := do
  let tip ← get_struct self
  if tip.interp ≠ 0 && !tip.deleted then
    Tcl_DeleteInterp E tip.interp
  else
    pure ()

/-- `interp_alloc`: a new `TclTkIp` object with its zeroed struct. -/
def interp_alloc : M ε VALUE := fun w =>
  .ok w.n_objs
    { (w.store w.n_objs
        { interp := 0
          deleted := false
          callbacks := []
          thread_queue := []
          next_id := 1
          timer_interval_ms := DEFAULT_TIMER_INTERVAL_MS
          main_thread_id := 0 }) with n_objs := w.n_objs + 1 }

/-- `get_interp`: the struct of a handle, or the deleted-interpreter error. -/
def get_interp (self : VALUE) : M ε tcltk_interp := do
  let tip ← get_struct self
  if tip.deleted || tip.interp == 0 then
    rb_raise .TclError "interpreter has been deleted"
  else
    pure tip

/-- `interp_deleted_p`: `Interp#deleted?`. -/
def interp_deleted_p (self : VALUE) : M ε RValue := do
  let tip ← get_struct self
  pure (.bool (tip.deleted || tip.interp == 0))

/-- `interp_delete`: `Interp#delete`. -/
def interp_delete (self : VALUE) : M ε RValue := do
  let tip ← get_struct self
  if tip.interp ≠ 0 && !tip.deleted then do
    Tcl_DeleteInterp E tip.interp
    set_struct self fun t => { t with deleted := true }
    modifyW fun w => { w with live_instances := w.live_instances.filter (· ≠ self) }
    pure .nil
  else
    pure .nil


/-! ## Argument conversion (Ruby C API) -/

/-- `NUM2INT`: a Ruby Integer that fits a C `int`; anything else raises. -/
def NUM2INT (v : RValue) : M ε Int :=
  match v with
  | .int i =>
    if -2147483648 ≤ i ∧ i ≤ 2147483647 then pure i
    else rb_raise .RangeError ("integer " ++ toString i ++ " too big to convert to int")
  | _ => rb_raise .TypeError "no implicit conversion into Integer"

/-- `StringValue`: a Ruby String; anything else raises. -/
def StringValue (v : RValue) : M ε String :=
  match v with
  | .str s => pure s
  | _ => rb_raise .TypeError "no implicit conversion into String"

/-- The string has a NUL byte in it. -/
def contains_nul (s : String) : Bool := s.data.contains (Char.ofNat 0)

/-- `StringValueCStr` on a Ruby String: the C string behind it. A string that
contains a NUL byte has none, and `ArgumentError` is raised. -/
def StringValueCStr (s : String) : M ε String :=
  if contains_nul s then
    rb_raise .ArgumentError "string contains null byte"
  else
    pure s

/-- `rb_hash_aref` on a hash with string keys: the value of the first entry
with that key, `none` (`Qnil`) when there is none. -/
def rb_hash_aref {β : Type} (h : List (String × β)) (key : String) : Option β :=
  (h.find? fun kv => kv.1 == key).map Prod.snd

/-- `rb_hash_aset`: replace the value of an existing key in place, or append a
new entry. -/
def rb_hash_aset {β : Type} (h : List (String × β)) (key : String) (v : β) : List (String × β) :=
  if h.any (fun kv => kv.1 == key) then
    h.map fun kv => if kv.1 == key then (key, v) else kv
  else
    h ++ [(key, v)]

/-- `rb_hash_delete`: drop the entry with that key, if any. -/
def rb_hash_delete {β : Type} (h : List (String × β)) (key : String) : List (String × β) :=
  h.filter fun kv => !(kv.1 == key)

/-! ## `Interp#initialize` -/

/-- `find_executable_bootstrap`: through the stubs table when it is there,
otherwise through `dlsym`. -/
def find_executable_bootstrap : M ε Unit := do
  let w ← getW
  if E.tclStubsPtr w.ext then
    foreign .Tcl_FindExecutable E.Tcl_FindExecutable
  else if E.dlsym "Tcl_FindExecutable" w.ext then
    foreign .Tcl_FindExecutable E.Tcl_FindExecutable
  else
    pure ()

/-- `create_interp_bootstrap`: `NULL` when neither the stubs table nor `dlsym`
gives `Tcl_CreateInterp`. -/
def create_interp_bootstrap : M ε Ptr := do
  let w ← getW
  if E.tclStubsPtr w.ext then
    foreign .Tcl_CreateInterp E.Tcl_CreateInterp
  else if E.dlsym "Tcl_CreateInterp" w.ext then
    foreign .Tcl_CreateInterp E.Tcl_CreateInterp
  else
    pure 0

/-- A Tcl function called as the macro `(tclStubsPtr->f)(...)` of `tclDecls.h`
at a point where the stubs table may still be unset. The table is set by a
successful `Tcl_InitStubs`; Tcl 9.0 sets it beforehand, Tcl 8.6 does not. The
macro dereferences `tclStubsPtr`: when it is `NULL` the process dies and the
function is never called. -/
def stub_call {α : Type} (label : FCall) (f : ε → α × ε) : M ε α := fun w =>
  if E.tclStubsPtr w.ext then foreign label f w else .crashed w

/-- The cleanup shared by the four failing initialisation steps: read the
message, delete the interpreter, null the pointer, raise. `Tcl_GetStringResult`
and `Tcl_DeleteInterp` are stub macros, and the first use of the cleanup
follows a failed `Tcl_InitStubs`, which has set no table. The interpreter is
the one this call created and `Tcl_CallWhenDeleted` (step 9) has not run, so
deleting it runs no deletion callback of the extension. -/
def init_failed {α : Type} (self : VALUE) (p : Ptr) (what : String) : M ε α := do
  let err ← stub_call E (.Tcl_GetStringResult p) (E.Tcl_GetStringResult p)
  let _ ← stub_call E (.Tcl_DeleteInterp p) (E.Tcl_DeleteInterp p)
  set_struct self fun t => { t with interp := 0 }
  rb_raise .TclError (what ++ " failed: " ++ err)

/-- The options block of `interp_initialize`: `thread_timer_ms`, when given
and not `nil`, must be an integer `>= 0` and is stored. `opts` is `none` when
the argument is absent or not a hash. -/
def initialize_options (self : VALUE) (opts : Option (List (String × RValue))) : M ε Unit :=
  match opts with
  | some h =>
    match rb_hash_aref h "thread_timer_ms" with
    | some val =>
      if !NIL_P val then do
        let ms ← NUM2INT val
        if ms < 0 then
          rb_raise .ArgumentError ("thread_timer_ms must be >= 0 (got " ++ toString ms ++ ")")
        else
          set_struct self fun t => { t with timer_interval_ms := ms }
      else
        pure ()
    | none => pure ()
  | none => pure ()

/-- Steps 1 to 11 of `interp_initialize`: create the interpreter, initialise
Tcl and Tk, register the commands and the deletion callback, track the
instance, record the owning thread. -/
def initialize_runtime (self : VALUE) (cur : ThreadId) : M ε VALUE := do
  let w ← getW
  (if !w.tcl_stubs_initialized then find_executable_bootstrap E else pure ())
  let p ← create_interp_bootstrap E
  set_struct self fun t => { t with interp := p }
  if p == 0 then
    rb_raise .TclError "failed to create Tcl interpreter"
  else do
    let tcl_version ← foreign (.Tcl_InitStubs p) (E.Tcl_InitStubs p)
    if tcl_version.isNone then
      init_failed E self p "Tcl_InitStubs"
    else do
      let argv := "set argc 0; set argv \x7b\x7d; set argv0 tcltkbridge"
      let _ ← foreign (.Tcl_Eval p argv) (E.Tcl_Eval p argv)
      let rc ← foreign (.Tcl_Init p) (E.Tcl_Init p)
      if rc ≠ TCL_OK then
        init_failed E self p "Tcl_Init"
      else do
        let rc ← foreign (.Tk_Init p) (E.Tk_Init p)
        if rc ≠ TCL_OK then
          init_failed E self p "Tk_Init"
        else do
          let tk_version ← foreign (.Tk_InitStubs p) (E.Tk_InitStubs p)
          if tk_version.isNone then
            init_failed E self p "Tk_InitStubs"
          else do
            modifyW fun w => { w with tcl_stubs_initialized := true }
            foreign (.Tcl_CreateObjCommand p "ruby_callback" self)
              (E.Tcl_CreateObjCommand p "ruby_callback" self)
            foreign (.Tcl_CreateObjCommand p "ruby" self) (E.Tcl_CreateObjCommand p "ruby" self)
            foreign (.Tcl_CreateObjCommand p "ruby_eval" self)
              (E.Tcl_CreateObjCommand p "ruby_eval" self)
            foreign (.Tcl_CallWhenDeleted p self) (E.Tcl_CallWhenDeleted p self)
            modifyW fun w => { w with live_instances := w.live_instances ++ [self] }
            let tid ← foreign .Tcl_GetCurrentThread fun x => (cur, x)
            set_struct self fun t => { t with main_thread_id := tid }
            pure self

/-- `interp_initialize`: `Interp#initialize(name = nil, opts = {})`, called by
thread `cur`: the options block, then steps 1 to 11. -/
def interp_initialize (self : VALUE) (name : RValue) (opts : Option (List (String × RValue)))
    (cur : ThreadId) : M ε VALUE := do
  initialize_options self opts
  initialize_runtime E self cur

/-! ## Commands that Tcl runs: `ruby_callback`, `ruby`, `ruby_eval` -/

/-- `callback_invoke`: `rb_proc_call(proc, args)`; an exception raised by the
closure unwinds. -/
def callback_invoke (proc : ProcId) (args : List String) : M ε RValue := do
  let r ← foreign (.rb_proc_call proc args) (E.rb_proc_call proc args)
  match r with
  | .value v => pure v
  | .raised e => rb_exc_raise e

/-- `ruby_callback_proc`: the Tcl command `ruby_callback id ?args?`, with the
words of the command in `objv`. Returns the Tcl completion code. The message of
the exception and the text of the value go through `StringValueCStr` outside
`rb_protect`, so the `ArgumentError` of a NUL byte unwinds out of the command. -/
def ruby_callback_proc (clientData : VALUE) (interp : Ptr) (objv : List String) : M ε Int := do
  let tip ← get_struct clientData
  if objv.length < 2 then
    foreign (.Tcl_SetResult interp "wrong # args: should be \"ruby_callback id ?args?\"")
      (E.Tcl_SetResult interp "wrong # args: should be \"ruby_callback id ?args?\"")
    pure TCL_ERROR
  else
    let id_str := objv.getD 1 ""
    match rb_hash_aref tip.callbacks id_str with
    | none =>
      foreign (.Tcl_SetResult interp ("unknown callback id: " ++ id_str))
        (E.Tcl_SetResult interp ("unknown callback id: " ++ id_str))
      pure TCL_ERROR
    | some proc =>
      let args := objv.drop 2
      modifyW fun w => { w with rbtk_callback_depth := w.rbtk_callback_depth + 1 }
      let result ← rb_protect (callback_invoke E proc args)
      modifyW fun w => { w with rbtk_callback_depth := w.rbtk_callback_depth - 1 }
      match result with
      | .error errinfo =>
        if rb_obj_is_kind_of errinfo .SystemExit || rb_obj_is_kind_of errinfo .Interrupt then
          rb_exc_raise errinfo
        else if rb_obj_is_kind_of errinfo .TkCallbackBreak then
          pure TCL_BREAK
        else if rb_obj_is_kind_of errinfo .TkCallbackContinue then
          pure TCL_CONTINUE
        else if rb_obj_is_kind_of errinfo .TkCallbackReturn then
          pure TCL_RETURN
        else
          let msg ← StringValueCStr errinfo.message
          foreign (.Tcl_SetResult interp msg) (E.Tcl_SetResult interp msg)
          pure TCL_ERROR
      | .ok result =>
        (if !NIL_P result then do
          let str ← StringValueCStr (rb_String result)
          foreign (.Tcl_SetResult interp str) (E.Tcl_SetResult interp str)
         else pure ())
        pure TCL_OK

/-- `eval_ruby_string`: `rb_eval_string(code)`. -/
def eval_ruby_string (code : String) : M ε RValue := do
  let r ← foreign (.rb_eval_string code) (E.rb_eval_string code)
  match r with
  | .value v => pure v
  | .raised e => rb_exc_raise e

/-- `ruby_eval_proc`: the Tcl commands `ruby code` and `ruby_eval code`. -/
def ruby_eval_proc (clientData : VALUE) (interp : Ptr) (objv : List String) : M ε Int := do
  if objv.length ≠ 2 then
    foreign (.Tcl_SetResult interp "wrong # args: should be \"ruby code\"")
      (E.Tcl_SetResult interp "wrong # args: should be \"ruby code\"")
    pure TCL_ERROR
  else
    let code := objv.getD 1 ""
    let result ← rb_protect (eval_ruby_string E code)
    match result with
    | .error errinfo =>
      if rb_obj_is_kind_of errinfo .SystemExit || rb_obj_is_kind_of errinfo .Interrupt then
        rb_exc_raise errinfo
      else
        let msg ← StringValueCStr errinfo.message
        foreign (.Tcl_SetResult interp msg) (E.Tcl_SetResult interp msg)
        pure TCL_ERROR
    | .ok result =>
      (if !NIL_P result then do
        let str ← StringValueCStr (rb_String result)
        foreign (.Tcl_SetResult interp str) (E.Tcl_SetResult interp str)
       else pure ())
      pure TCL_OK

/-! ## The callback registry -/

/-- `interp_register_callback`: `Interp#register_callback(proc)`. The counter
is an `unsigned long`, 64 bits wide. -/
def interp_register_callback (self : VALUE) (proc : ProcId) : M ε RValue := do
  let tip ← get_interp self
  let id_str := "cb" ++ toString tip.next_id
  set_struct self fun t =>
    { t with next_id := (t.next_id + 1) % 2 ^ 64,
             callbacks := rb_hash_aset t.callbacks id_str proc }
  pure (.str id_str)

/-- `interp_unregister_callback`: `Interp#unregister_callback(id)`. A key that
is not a string equals no key of the hash. -/
def interp_unregister_callback (self : VALUE) (id : RValue) : M ε RValue := do
  let _ ← get_interp self
  (match id with
   | .str s => set_struct self fun t => { t with callbacks := rb_hash_delete t.callbacks s }
   | _ => pure ())
  pure .nil


/-! ## Cross-thread command queue -/

/-- `Tcl_GetCurrentThread()` on the calling thread `cur`. -/
def Tcl_GetCurrentThread (cur : ThreadId) : M ε ThreadId :=
  foreign .Tcl_GetCurrentThread fun x => (cur, x)

/-- `Tcl_GetStringResult(interp)`. -/
def Tcl_GetStringResult (p : Ptr) : M ε String :=
  foreign (.Tcl_GetStringResult p) (E.Tcl_GetStringResult p)

/-- `Thread::Queue.new`. -/
def Queue_new : M ε QueueId := fun w =>
  .ok w.n_queues
    { w with queues := (fun q => if q = w.n_queues then [] else w.queues q),
             n_queues := w.n_queues + 1 }

/-- `Queue#push`. -/
def Queue_push (q : QueueId) (r : Response) : M ε Unit :=
  modifyW fun w => { w with queues := fun k => if k = q then w.queues q ++ [r] else w.queues k }

/-- `Queue#pop`: takes the oldest response; the thread is suspended while the
queue is empty. -/
def Queue_pop (q : QueueId) : M ε Response := fun w =>
  match w.queues q with
  | [] => .blocked q w
  | r :: rest => .ok r { w with queues := fun k => if k = q then rest else w.queues k }

/-- The words of an invoke: `nil` becomes the empty string, anything else goes
through `StringValue`. -/
def invoke_words : List RValue → M ε (List String)
  | [] => pure []
  | arg :: rest => do
    let s ← (if NIL_P arg then pure "" else StringValue arg)
    let ss ← invoke_words rest
    pure (s :: ss)

/-- `execute_queued_eval`. -/
def execute_queued_eval (tip : VALUE) (script : String) : M ε RValue := do
  let t ← get_struct tip
  let result ← foreign_code (.Tcl_Eval t.interp script) (E.Tcl_Eval t.interp script)
  let t ← get_struct tip
  let text ← Tcl_GetStringResult E t.interp
  if result ≠ TCL_OK then
    rb_raise .TclError text
  else
    pure (.str text)

/-- `execute_queued_invoke`. -/
def execute_queued_invoke (tip : VALUE) (argv_ary : List RValue) : M ε RValue := do
  let objv ← invoke_words argv_ary
  let t ← get_struct tip
  let result ← foreign_code (.Tcl_EvalObjv t.interp objv) (E.Tcl_EvalObjv t.interp objv)
  let t ← get_struct tip
  let text ← Tcl_GetStringResult E t.interp
  if result ≠ TCL_OK then
    rb_raise .TclError text
  else
    pure (.str text)

/-- `execute_queued_proc`: `rb_proc_call(proc, [])`. -/
def execute_queued_proc (proc : ProcId) : M ε RValue :=
  callback_invoke E proc []

/-- `ruby_thread_event_handler`: the Tcl event posted by `queue_command_internal`,
for the handle `tip`. Returns 1 (event handled). -/
def ruby_thread_event_handler (tip : VALUE) : M ε Int := do
  let t ← get_struct tip
  match t.thread_queue with
  | [] => pure 1
  | cmd :: rest =>
    set_struct tip fun t => { t with thread_queue := rest }
    let result ← rb_protect
      (match cmd.kind with
       | .eval script => execute_queued_eval E tip script
       | .invoke args => execute_queued_invoke E tip args
       | .proc proc => execute_queued_proc E proc)
    match result with
    | .error exception =>
      if rb_obj_is_kind_of exception .SystemExit || rb_obj_is_kind_of exception .Interrupt then
        rb_exc_raise exception
      else do
        (match cmd.queue with
         | some queue => Queue_push queue ⟨.nil, some exception⟩
         | none => pure ())
        pure 1
    | .ok result =>
      (match cmd.queue with
       | some queue => Queue_push queue ⟨result, none⟩
       | none => pure ())
      pure 1

/-- The tail of `queue_command_internal` after the command is posted: wait for
the response, re-raise its exception or return its result. -/
def queue_command_wait (result_queue : QueueId) : M ε RValue := do
  let response ← Queue_pop result_queue
  match response.exception with
  | some exception => rb_exc_raise exception
  | none => pure response.result

/-- `queue_command_internal`, called by thread `cur`. -/
def queue_command_internal (tip : VALUE) (kind : CmdKind) (wait_for_result : Bool)
    (cur : ThreadId) : M ε RValue := do
  let result_queue ← (if wait_for_result then some <$> Queue_new else pure none)
  set_struct tip fun t => { t with thread_queue := t.thread_queue ++ [⟨kind, result_queue⟩] }
  let current_thread ← Tcl_GetCurrentThread cur
  let t ← get_struct tip
  foreign (.Tcl_ThreadQueueEvent t.main_thread_id tip) (E.Tcl_ThreadQueueEvent t.main_thread_id tip)
  (if current_thread ≠ t.main_thread_id then
    foreign (.Tcl_ThreadAlert t.main_thread_id) (E.Tcl_ThreadAlert t.main_thread_id)
   else pure ())
  match result_queue with
  | none => pure .nil
  | some q => queue_command_wait q

/-- `interp_queue_for_main`: `Interp#queue_for_main(proc)`. -/
def interp_queue_for_main (self : VALUE) (proc : ProcId) (cur : ThreadId) : M ε RValue := do
  let tip ← get_struct self
  if tip.deleted || tip.interp == 0 then
    rb_raise .TclError "interpreter has been deleted"
  else
    queue_command_internal E self (.proc proc) false cur

/-- `interp_on_main_thread_p`: `Interp#on_main_thread?`. -/
def interp_on_main_thread_p (self : VALUE) (cur : ThreadId) : M ε RValue := do
  let tip ← get_interp self
  let current ← Tcl_GetCurrentThread cur
  pure (.bool (current == tip.main_thread_id))

/-! ## Evaluation and variables -/

/-- `interp_tcl_eval`: `Interp#tcl_eval(script)`. -/
def interp_tcl_eval (self : VALUE) (script : RValue) (cur : ThreadId) : M ε RValue := do
  let tip ← get_interp self
  let current ← Tcl_GetCurrentThread cur
  let script ← StringValue script
  if current ≠ tip.main_thread_id then
    queue_command_internal E self (.eval script) true cur
  else
    let result ← foreign_code (.Tcl_Eval tip.interp script) (E.Tcl_Eval tip.interp script)
    let t ← get_struct self
    let text ← Tcl_GetStringResult E t.interp
    if result ≠ TCL_OK then
      rb_raise .TclError text
    else
      pure (.str text)

/-- `interp_tcl_invoke`: `Interp#tcl_invoke(*args)`. -/
def interp_tcl_invoke (argv : List RValue) (self : VALUE) (cur : ThreadId) : M ε RValue := do
  let tip ← get_interp self
  let current ← Tcl_GetCurrentThread cur
  if argv.length = 0 then
    rb_raise .ArgumentError "wrong number of arguments (given 0, expected 1+)"
  else if current ≠ tip.main_thread_id then
    queue_command_internal E self (.invoke argv) true cur
  else
    let objv ← invoke_words argv
    let result ← foreign_code (.Tcl_EvalObjv tip.interp objv) (E.Tcl_EvalObjv tip.interp objv)
    let t ← get_struct self
    let text ← Tcl_GetStringResult E t.interp
    if result ≠ TCL_OK then
      rb_raise .TclError text
    else
      pure (.str text)

/-- `interp_tcl_get_var`: `Interp#tcl_get_var(name)`. -/
def interp_tcl_get_var (self : VALUE) (name : RValue) : M ε RValue := do
  let tip ← get_interp self
  let name_cstr ← StringValue name
  let value ← foreign (.Tcl_GetVar tip.interp name_cstr) (E.Tcl_GetVar tip.interp name_cstr)
  match value with
  | none => pure .nil
  | some v => pure (.str v)

/-- `interp_tcl_set_var`: `Interp#tcl_set_var(name, value)`. -/
def interp_tcl_set_var (self : VALUE) (name : RValue) (value : RValue) : M ε RValue := do
  let tip ← get_interp self
  let name_cstr ← StringValue name
  let value_cstr ← (if NIL_P value then pure "" else StringValue value)
  let result ← foreign (.Tcl_SetVar tip.interp name_cstr value_cstr)
    (E.Tcl_SetVar tip.interp name_cstr value_cstr)
  if result.isNone then
    rb_raise .TclError ("failed to set variable \x27" ++ name_cstr ++ "\x27")
  else
    pure value

/-- `interp_do_one_event`: `Interp#do_one_event(flags = ALL_EVENTS)`. -/
def interp_do_one_event (argv : List RValue) (self : VALUE) : M ε RValue := do
  let flags ← (match argv with
    | [] => pure TCL_ALL_EVENTS
    | a :: _ => NUM2INT a)
  let result ← foreign_code (.Tcl_DoOneEvent flags) (E.Tcl_DoOneEvent flags)
  pure (.bool (result ≠ 0))

/-- `interp_safe_p`: `Interp#safe?`. -/
def interp_safe_p (self : VALUE) : M ε RValue := do
  let tip ← get_interp self
  let r ← foreign (.Tcl_IsSafe tip.interp) (E.Tcl_IsSafe tip.interp)
  pure (.bool (r ≠ 0))

/-- `interp_tcl_version`: `Interp#tcl_version`. -/
def interp_tcl_version (self : VALUE) : M ε RValue := do
  let tip ← get_interp self
  let version ← foreign (.Tcl_GetVar tip.interp "tcl_patchLevel") (E.Tcl_GetVar tip.interp "tcl_patchLevel")
  match version with
  | none => pure .nil
  | some v => pure (.str v)

/-- `interp_tk_version`: `Interp#tk_version`. -/
def interp_tk_version (self : VALUE) : M ε RValue := do
  let tip ← get_interp self
  let version ← foreign (.Tcl_GetVar tip.interp "tk_patchLevel") (E.Tcl_GetVar tip.interp "tk_patchLevel")
  match version with
  | none => pure .nil
  | some v => pure (.str v)


/-! ## Event loops and timers -/

/-- `rb_thread_check_ints()`: raises the pending interrupt, if there is one. -/
def rb_thread_check_ints : M ε Unit := do
  let pending ← foreign .rb_thread_check_ints E.rb_thread_check_ints
  match pending with
  | some e => rb_exc_raise e
  | none => pure ()

/-- `keepalive_timer_proc`: the recurring timer of `Interp#mainloop`. -/
def keepalive_timer_proc (clientData : VALUE) : M ε Unit := do
  let tip ← get_struct clientData
  if !tip.deleted && tip.timer_interval_ms > 0 then
    foreign (.Tcl_CreateTimerHandler tip.timer_interval_ms (some clientData))
      (E.Tcl_CreateTimerHandler tip.timer_interval_ms (some clientData))
  else
    pure ()

/-- The `while` loop of `interp_mainloop`; `fuel` bounds the number of
iterations. -/
def interp_mainloop_loop (self : VALUE) : Nat → M ε Unit
  | 0 => do
    let n ← foreign .Tk_GetNumMainWindows E.Tk_GetNumMainWindows
    if n > 0 then (fun w => .out_of_fuel w) else pure ()
  | fuel + 1 => do
    let n ← foreign .Tk_GetNumMainWindows E.Tk_GetNumMainWindows
    if n > 0 then
      let _ ← foreign_code (.Tcl_DoOneEvent TCL_ALL_EVENTS) (E.Tcl_DoOneEvent TCL_ALL_EVENTS)
      let tip ← get_struct self
      (if tip.timer_interval_ms > 0 then
        foreign .rb_thread_call_without_gvl E.rb_thread_call_without_gvl
       else pure ())
      rb_thread_check_ints E
      interp_mainloop_loop self fuel
    else
      pure ()

/-- `interp_mainloop`: `Interp#mainloop`. -/
def interp_mainloop (self : VALUE) (fuel : Nat) : M ε RValue := do
  let tip ← get_interp self
  (if tip.timer_interval_ms > 0 then
    foreign (.Tcl_CreateTimerHandler tip.timer_interval_ms (some self))
      (E.Tcl_CreateTimerHandler tip.timer_interval_ms (some self))
   else pure ())
  interp_mainloop_loop E self fuel
  pure .nil

/-- `global_keepalive_timer_proc`. -/
def global_keepalive_timer_proc : M ε Unit := do
  let w ← getW
  if w.g_thread_timer_ms > 0 then
    foreign (.Tcl_CreateTimerHandler w.g_thread_timer_ms none)
      (E.Tcl_CreateTimerHandler w.g_thread_timer_ms none)
  else
    pure ()

/-- The `for (;;)` loop of `lib_mainloop`; `fuel` bounds the number of
iterations. -/
def lib_mainloop_loop (check_root : Bool) : Nat → M ε Unit
  | 0 => do
    let stop ← (if check_root then
        (do let n ← foreign .Tk_GetNumMainWindows E.Tk_GetNumMainWindows
            pure (decide (n ≤ 0)))
      else pure false)
    if stop then pure () else (fun w => .out_of_fuel w)
  | fuel + 1 => do
    let stop ← (if check_root then
        (do let n ← foreign .Tk_GetNumMainWindows E.Tk_GetNumMainWindows
            pure (decide (n ≤ 0)))
      else pure false)
    if stop then
      pure ()
    else
      let _ ← foreign_code (.Tcl_DoOneEvent TCL_ALL_EVENTS) (E.Tcl_DoOneEvent TCL_ALL_EVENTS)
      let w ← getW
      (if w.g_thread_timer_ms > 0 then
        foreign .rb_thread_call_without_gvl E.rb_thread_call_without_gvl
       else pure ())
      rb_thread_check_ints E
      lib_mainloop_loop check_root fuel

/-- `lib_mainloop`: `TclTkLib.mainloop(check_root = true)`. -/
def lib_mainloop (argv : List RValue) (fuel : Nat) : M ε RValue := do
  let check_root := match argv with
    | [] => true
    | a :: _ => if a ≠ .nil then RTEST a else true
  let w ← getW
  (if w.g_thread_timer_ms > 0 then
    foreign (.Tcl_CreateTimerHandler w.g_thread_timer_ms none)
      (E.Tcl_CreateTimerHandler w.g_thread_timer_ms none)
   else pure ())
  lib_mainloop_loop E check_root fuel
  pure .nil

/-- `lib_get_thread_timer_ms`. -/
def lib_get_thread_timer_ms : M ε RValue := do
  let w ← getW
  pure (.int w.g_thread_timer_ms)

/-- `lib_set_thread_timer_ms`. -/
def lib_set_thread_timer_ms (val : RValue) : M ε RValue := do
  let ms ← NUM2INT val
  if ms < 0 then
    rb_raise .ArgumentError ("thread_timer_ms must be >= 0 (got " ++ toString ms ++ ")")
  else
    modifyW fun w => { w with g_thread_timer_ms := ms }
    pure val

/-- `lib_do_one_event`: `TclTkLib.do_one_event(flags = ALL_EVENTS)`. -/
def lib_do_one_event (argv : List RValue) : M ε RValue := do
  let flags ← (match argv with
    | [] => pure TCL_ALL_EVENTS
    | a :: _ => NUM2INT a)
  let result ← foreign_code (.Tcl_DoOneEvent flags) (E.Tcl_DoOneEvent flags)
  pure (.bool (result ≠ 0))

/-- `interp_get_thread_timer_ms`: `Interp#thread_timer_ms`. -/
def interp_get_thread_timer_ms (self : VALUE) : M ε RValue := do
  let tip ← get_interp self
  pure (.int tip.timer_interval_ms)

/-- `interp_set_thread_timer_ms`: `Interp#thread_timer_ms=`. -/
def interp_set_thread_timer_ms (self : VALUE) (val : RValue) : M ε RValue := do
  let _ ← get_interp self
  let ms ← NUM2INT val
  if ms < 0 then
    rb_raise .ArgumentError ("thread_timer_ms must be >= 0 (got " ++ toString ms ++ ")")
  else
    set_struct self fun t => { t with timer_interval_ms := ms }
    pure val

/-! ## Lists, child interpreters, instance tracking -/

/-- `interp_tcl_split_list`: `Interp#tcl_split_list(str)`. -/
def interp_tcl_split_list (self : VALUE) (list_str : RValue) : M ε (List String) := do
  let tip ← get_interp self
  if NIL_P list_str then
    pure []
  else
    let s ← StringValue list_str
    if s.utf8ByteSize = 0 then
      pure []
    else
      let r ← foreign (.Tcl_ListObjGetElements tip.interp s) (E.Tcl_ListObjGetElements tip.interp s)
      if r.1 ≠ TCL_OK then
        let text ← Tcl_GetStringResult E tip.interp
        rb_raise .TclError ("invalid Tcl list: " ++ text)
      else
        pure r.2

/-- `interp_create_slave`: `Interp#create_slave(name, safe = false)`, called by
thread `cur`. Returns the new `TclTkIp` object. -/
def interp_create_slave (self : VALUE) (name : RValue) (safemode : RValue)
    (cur : ThreadId) : M ε VALUE := do
  let master ← get_interp self
  let name ← StringValue name
  let safe := RTEST safemode
  let slave_interp ← foreign (.Tcl_CreateSlave master.interp name safe)
    (E.Tcl_CreateSlave master.interp name safe)
  if slave_interp == 0 then
    rb_raise .TclError "failed to create slave interpreter"
  else
    let w ← getW
    let new_ip := w.n_objs
    let tid ← Tcl_GetCurrentThread cur
    modifyW fun w =>
      { (w.store new_ip
          { interp := slave_interp
            deleted := false
            callbacks := []
            thread_queue := []
            next_id := 1
            timer_interval_ms := DEFAULT_TIMER_INTERVAL_MS
            main_thread_id := tid }) with n_objs := w.n_objs + 1 }
    foreign (.Tcl_CreateObjCommand slave_interp "ruby_callback" new_ip)
      (E.Tcl_CreateObjCommand slave_interp "ruby_callback" new_ip)
    foreign (.Tcl_CreateObjCommand slave_interp "ruby" new_ip)
      (E.Tcl_CreateObjCommand slave_interp "ruby" new_ip)
    foreign (.Tcl_CreateObjCommand slave_interp "ruby_eval" new_ip)
      (E.Tcl_CreateObjCommand slave_interp "ruby_eval" new_ip)
    foreign (.Tcl_CallWhenDeleted slave_interp new_ip) (E.Tcl_CallWhenDeleted slave_interp new_ip)
    modifyW fun w => { w with live_instances := w.live_instances ++ [new_ip] }
    pure new_ip

/-- `tcltkip_instance_count`: `TclTkIp.instance_count`. -/
def tcltkip_instance_count : M ε Nat := do
  let w ← getW
  pure w.live_instances.length

/-- `tcltkip_instances`: `TclTkIp.instances`. -/
def tcltkip_instances : M ε (List VALUE) := do
  let w ← getW
  pure w.live_instances

/-- `lib_in_callback_p`: `TclTkLib.in_callback?`. -/
def lib_in_callback_p : M ε RValue := do
  let w ← getW
  pure (.bool (w.rbtk_callback_depth > 0))

/-- The process right after `Init_tcltklib`. -/
def World.init (x : ε) : World ε :=
  { ext := x
    trace := []
    objs := fun _ =>
      { interp := 0, deleted := false, callbacks := [], thread_queue := [], next_id := 1,
        timer_interval_ms := DEFAULT_TIMER_INTERVAL_MS, main_thread_id := 0 }
    n_objs := 0
    queues := fun _ => []
    n_queues := 0
    live_instances := []
    tcl_stubs_initialized := false
    g_thread_timer_ms := DEFAULT_TIMER_INTERVAL_MS
    rbtk_callback_depth := 0 }


/-- A foreign side for concrete runs: Tcl hands out interpreter pointers 1, 2,
3, ... and every Tcl call succeeds; every piece of Ruby code ends with `host`. -/
def stubEnv (host : Outcome) : Env Nat :=
  { tclStubsPtr := fun _ => true
    dlsym := fun _ _ => true
    Tcl_FindExecutable := fun x => ((), x)
    Tcl_CreateInterp := fun x => (x + 1, x + 1)
    Tcl_InitStubs := fun _ x => (some "9.0", x)
    Tk_InitStubs := fun _ x => (some "9.0", x)
    Tcl_Init := fun _ x => (TCL_OK, x)
    Tk_Init := fun _ x => (TCL_OK, x)
    Tcl_GetStringResult := fun _ x => ("", x)
    Tcl_Eval := fun _ _ x => (.code TCL_OK, x)
    Tcl_EvalObjv := fun _ _ x => (.code TCL_OK, x)
    Tcl_DeleteInterp := fun _ x => ([], x)
    Tcl_CreateObjCommand := fun _ _ _ x => ((), x)
    Tcl_CallWhenDeleted := fun _ _ x => ((), x)
    Tcl_SetResult := fun _ _ x => ((), x)
    Tcl_GetVar := fun _ _ x => (none, x)
    Tcl_SetVar := fun _ _ v x => (some v, x)
    Tcl_DoOneEvent := fun _ x => (.code 0, x)
    Tcl_IsSafe := fun _ x => (0, x)
    Tcl_CreateSlave := fun _ _ _ x => (x + 1, x + 1)
    Tcl_CreateTimerHandler := fun _ _ x => ((), x)
    Tk_GetNumMainWindows := fun x => (0, x)
    Tcl_ThreadQueueEvent := fun _ _ x => ((), x)
    Tcl_ThreadAlert := fun _ x => ((), x)
    Tcl_ListObjGetElements := fun _ _ x => ((TCL_OK, []), x)
    rb_proc_call := fun _ _ x => (host, x)
    rb_eval_string := fun _ x => (host, x)
    rb_thread_call_without_gvl := fun x => ((), x)
    rb_thread_check_ints := fun x => (none, x) }


/-- The value a function returned, if it returned. -/
def Res.value? {σ α : Type} : Res σ α → Option α
  | .ok a _ => some a
  | _ => none

/-- The exception a function raised, if it raised. -/
def Res.error? {σ α : Type} : Res σ α → Option RException
  | .raise e _ => some e
  | _ => none

/-- A process with one freshly allocated handle, object 0. -/
def demo_alloc : World Nat := (interp_alloc (World.init 0)).state

/-- Handle 0 initialised by thread 1. -/
def demo_live : World Nat :=
  ( interp_initialize (stubEnv (.value .nil)) 0 .nil none 1 demo_alloc).state

/-- A foreign side like `stubEnv`, on which `Tcl_DeleteInterp` destroys the
interpreter at once and runs the deletion callback of handle 0. -/
def notifyEnv : Env Nat :=
  { stubEnv (.value .nil) with Tcl_DeleteInterp := fun _ x => ([0], x) }

/-- Handle 0 deleted by `Interp#delete`. -/
def demo_deleted : World Nat := (interp_delete notifyEnv 0 demo_live).state

/-- The world after Tcl has run the deletion callbacks of the handles in the
list. -/
def World.notified (w : World ε) : List VALUE → World ε
  | [] => w
  | v :: vs => World.notified (w.store v { w.objs v with deleted := true, interp := 0 }) vs

/-- The world after `Tcl_DeleteInterp(p)`: the call is made and the deletion
callbacks it names have run. -/
def World.after_delete (w : World ε) (p : Ptr) : World ε :=
  ({ w with ext := (E.Tcl_DeleteInterp p w.ext).2,
            trace := w.trace ++ [.Tcl_DeleteInterp p] } : World ε).notified
    (E.Tcl_DeleteInterp p w.ext).1

/-- Handle 0, live, with one registered closure: id `cb1`, closure 11. -/
def demo_registered : World Nat := (interp_register_callback 0 11 demo_live).state

/-- Running `m` changes neither the foreign pointer nor the deleted flag of any
handle. -/
structure KeepsFlags {α : Type} (m : M ε α) : Prop where
  keep : ∀ w v, ((m w).state.objs v).interp = (w.objs v).interp ∧
    ((m w).state.objs v).deleted = (w.objs v).deleted

/-! ## Sequences of registry calls -/

/-- A call on the callback registry of one handle. -/
inductive RegOp where
  | register (proc : ProcId)
  | unregister (id : RValue)

/-- How many of the calls are `register_callback`. -/
def registrations : List RegOp → Nat
  | [] => 0
  | .register _ :: ops => registrations ops + 1
  | .unregister _ :: ops => registrations ops

/-- Make the registry calls on `self` one after the other: the values that the
`register_callback` calls returned, in order, and the final state. -/
def run_reg_ops (self : VALUE) : List RegOp → World ε → List RValue × World ε
  | [], w => ([], w)
  | .register proc :: ops, w =>
    match interp_register_callback self proc w with
    | .ok id w1 => (id :: (run_reg_ops self ops w1).1, (run_reg_ops self ops w1).2)
    | r => run_reg_ops self ops r.state
  | .unregister id :: ops, w =>
    run_reg_ops self ops (interp_unregister_callback self id w).state

/-- The handle is live, its counter is `c`, and every key of its registry is
`cb<j>` for some `j < c`. -/
def RegistryBelow (w : World ε) (self : VALUE) (c : Nat) : Prop :=
  (w.objs self).deleted = false ∧ (w.objs self).interp ≠ 0 ∧ (w.objs self).next_id = c ∧
  ∀ k ∈ (w.objs self).callbacks.map Prod.fst, ∃ j, j < c ∧ k = "cb" ++ toString j

/-! ## The queue, command by command -/

/-- Everything in the process that the extension owns: all of the world but the
foreign side and the trace of calls into it. -/
def World.bridge (w : World ε) :
    (VALUE → tcltk_interp) × Nat × (QueueId → List Response) × Nat × List VALUE × Bool × Int × Int :=
  (w.objs, w.n_objs, w.queues, w.n_queues, w.live_instances, w.tcl_stubs_initialized,
    w.g_thread_timer_ms, w.rbtk_callback_depth)

/-- Running `m` changes nothing that the extension owns: it only calls out. -/
structure ForeignOnly {α : Type} (m : M ε α) : Prop where
  keep : ∀ w, (m w).state.bridge = w.bridge

/-- Running `m` ends with a value or an exception: the thread is never left
suspended and no loop runs out of fuel. -/
structure Returns {α : Type} (m : M ε α) : Prop where
  ret : ∀ w, (∃ a w2, m w = .ok a w2) ∨ (∃ e w2, m w = .raise e w2)

/-- The dispatch on the `:type` of a queued command in
`ruby_thread_event_handler`. -/
def execute_queued (tip : VALUE) (kind : CmdKind) : M ε RValue :=
  match kind with
  | .eval script => execute_queued_eval E tip script
  | .invoke args => execute_queued_invoke E tip args
  | .proc proc => execute_queued_proc E proc

/-- What `ruby_thread_event_handler` does with the command it has taken off the
queue: the protected execution, the re-raise of a fatal exception, the push of
the response when the command has a result queue. -/
def run_queued_command (tip : VALUE) (cmd : Cmd) : M ε Int := do
  let result ← rb_protect (execute_queued E tip cmd.kind)
  match result with
  | .error exception =>
    if rb_obj_is_kind_of exception .SystemExit || rb_obj_is_kind_of exception .Interrupt then
      rb_exc_raise exception
    else do
      (match cmd.queue with
       | some queue => Queue_push queue ⟨.nil, some exception⟩
       | none => pure ())
      pure 1
  | .ok result =>
    (match cmd.queue with
     | some queue => Queue_push queue ⟨result, none⟩
     | none => pure ())
    pure 1

/-- The world after a response is pushed to the result queue of a command, if
it has one. -/
def World.publish (w : World ε) (queue : Option QueueId) (r : Response) : World ε :=
  match queue with
  | some q => { w with queues := fun k => if k = q then w.queues q ++ [r] else w.queues k }
  | none => w

/-- The value or the exception a function ended with; `none` while the thread
is suspended or the fuel is out. -/
def Res.outcome {σ α : Type} : Res σ α → Option (Except RException α)
  | .ok a _ => some (.ok a)
  | .raise e _ => some (.error e)
  | _ => none

/-- The foreign side once `queue_command_internal`, called by thread `cur` for
a handle owned by thread `main`, has posted its event: `Tcl_ThreadQueueEvent`,
and `Tcl_ThreadAlert` when the caller is another thread. -/
def posted_ext (main : ThreadId) (tip : VALUE) (cur : ThreadId) (x : ε) : ε :=
  if cur ≠ main then (E.Tcl_ThreadAlert main (E.Tcl_ThreadQueueEvent main tip x).2).2
  else (E.Tcl_ThreadQueueEvent main tip x).2

/-- The foreign calls `queue_command_internal` makes to post its event. -/
def posted_calls (main : ThreadId) (tip : VALUE) (cur : ThreadId) : List FCall :=
  if cur ≠ main then
    [.Tcl_GetCurrentThread, .Tcl_ThreadQueueEvent main tip, .Tcl_ThreadAlert main]
  else
    [.Tcl_GetCurrentThread, .Tcl_ThreadQueueEvent main tip]

/-- The words `invoke_words` hands to Tcl, as a function of the arguments
alone. -/
def words_of : List RValue → Except RException (List String)
  | [] => .ok []
  | arg :: rest =>
    match (if NIL_P arg then some "" else match arg with | .str s => some s | _ => none) with
    | none => .error ⟨.TypeError, "no implicit conversion into String"⟩
    | some s =>
      match words_of rest with
      | .error e => .error e
      | .ok ss => .ok (s :: ss)

/-- The world after the calling thread has asked `Tcl_GetCurrentThread` which
thread it is. -/
def World.asked (w : World ε) : World ε := { w with trace := w.trace ++ [.Tcl_GetCurrentThread] }

/-- A call made by a thread other than the owner, followed to its end: the call
`m` runs until the caller is suspended on its result queue, the owning thread
then processes the posted event (one run of `ruby_thread_event_handler` for the
handle `tip`), and the caller resumes after `Queue#pop`. When the handler is
unwound by a fatal exception the owning thread carries it and the caller stays
suspended. -/
def served (tip : VALUE) (m : M ε RValue) : M ε RValue := fun w =>
  match m w with
  | .blocked q w1 =>
    match ruby_thread_event_handler E tip w1 with
    | .ok _ w2 => queue_command_wait q w2
    | .raise _ w2 => .blocked q w2
    | .blocked q2 w2 => .blocked q2 w2
    | .out_of_fuel w2 => .out_of_fuel w2
    | .crashed w2 => .crashed w2
  | r => r

/-- A foreign side like `stubEnv`, except that evaluating the script `exit` is
unwound by `SystemExit`, as when a script runs a callback that calls `exit`. -/
def exitEnv : Env Nat :=
  { stubEnv (.value .nil) with
    Tcl_Eval := fun _ s x =>
      if s = "exit" then (.unwound ⟨.SystemExit, "exit"⟩, x) else (.code TCL_OK, x) }

/-! ## Schedules of queue steps -/

/-- A step on the queue of one handle: a thread submits a command with
`queue_command_internal`, or the owning thread runs the posted event. -/
inductive QStep where
  | enqueue (kind : CmdKind) (wait : Bool) (cur : ThreadId)
  | run

/-- What a schedule did: the commands its enqueue steps added to the queue, the
commands its handler runs took from the queue, and the world it ended in. -/
structure QLog (ε : Type) where
  enqueued : List Cmd
  executed : List Cmd
  final : World ε

/-- Run a schedule on the queue of handle `tip`. An enqueue step logs what the
call added behind the commands that were queued; a handler run logs the command
`rb_ary_shift` hands it, if there is one. -/
def run_schedule (tip : VALUE) : List QStep → World ε → QLog ε
  | [], w => ⟨[], [], w⟩
  | .enqueue kind wait cur :: steps, w =>
    let w1 := (queue_command_internal E tip kind wait cur w).state
    let r := run_schedule tip steps w1
    ⟨(w1.objs tip).thread_queue.drop (w.objs tip).thread_queue.length ++ r.enqueued,
      r.executed, r.final⟩
  | .run :: steps, w =>
    let r := run_schedule tip steps (ruby_thread_event_handler E tip w).state
    ⟨r.enqueued, (w.objs tip).thread_queue.take 1 ++ r.executed, r.final⟩

/-! ## Timer intervals -/

/-- Every timer interval is non-negative: the global one and that of every
handle. -/
def TimersNonneg (w : World ε) : Prop :=
  0 ≤ w.g_thread_timer_ms ∧ ∀ v, 0 ≤ (w.objs v).timer_interval_ms

/-- Running `m` keeps every timer interval non-negative. -/
structure KeepsTimers {α : Type} (m : M ε α) : Prop where
  keep : ∀ w, TimersNonneg w → TimersNonneg (m w).state

/-! ## One iteration of the main loops -/

/-- The body of the `while` loop of `interp_mainloop`: one event, the yield
when the interval of the handle is positive, the interrupt check. -/
def interp_mainloop_iteration (self : VALUE) : M ε Unit := do
  let _ ← foreign_code (.Tcl_DoOneEvent TCL_ALL_EVENTS) (E.Tcl_DoOneEvent TCL_ALL_EVENTS)
  let tip ← get_struct self
  (if tip.timer_interval_ms > 0 then
    foreign .rb_thread_call_without_gvl E.rb_thread_call_without_gvl
   else pure ())
  rb_thread_check_ints E

/-- The body of the `for` loop of `lib_mainloop` after the exit test: one
event, the yield when the global interval is positive, the interrupt check. -/
def lib_mainloop_iteration : M ε Unit := do
  let _ ← foreign_code (.Tcl_DoOneEvent TCL_ALL_EVENTS) (E.Tcl_DoOneEvent TCL_ALL_EVENTS)
  let w ← getW
  (if w.g_thread_timer_ms > 0 then
    foreign .rb_thread_call_without_gvl E.rb_thread_call_without_gvl
   else pure ())
  rb_thread_check_ints E

/-- The foreign calls of one iteration that runs to its end: the event, the
yield if the interval is positive, the interrupt check. -/
def iteration_calls (interval : Int) : List FCall :=
  [.Tcl_DoOneEvent TCL_ALL_EVENTS]
    ++ (if interval > 0 then [.rb_thread_call_without_gvl] else [])
    ++ [.rb_thread_check_ints]

/-- The foreign calls of `k` iterations of a loop that tests the number of
main windows before each of them. -/
def tested_iterations (interval : Int) : Nat → List FCall
  | 0 => []
  | k + 1 => .Tk_GetNumMainWindows :: (iteration_calls interval ++ tested_iterations interval k)

/-! ## Callback depth -/

/-- Running `m` leaves the callback depth as it was, however `m` ends. -/
structure KeepsDepth {α : Type} (m : M ε α) : Prop where
  keep : ∀ w, (m w).state.rbtk_callback_depth = w.rbtk_callback_depth

/-- When `m` returns or raises, the callback depth is what it was before. -/
structure Balanced {α : Type} (m : M ε α) : Prop where
  keep : ∀ w w1, (∀ a, m w = .ok a w1 → w1.rbtk_callback_depth = w.rbtk_callback_depth) ∧
    (∀ e, m w = .raise e w1 → w1.rbtk_callback_depth = w.rbtk_callback_depth)

/-- What `ruby_callback_proc` does with the outcome of the protected call of
the closure: the translation into a Tcl completion code. The conversions with
`StringValueCStr` run here, after `rb_protect` has returned. -/
def callback_result (interp : Ptr) (result : Except RException RValue) : M ε Int :=
  match result with
  | .error errinfo =>
    if rb_obj_is_kind_of errinfo .SystemExit || rb_obj_is_kind_of errinfo .Interrupt then
      rb_exc_raise errinfo
    else if rb_obj_is_kind_of errinfo .TkCallbackBreak then
      pure TCL_BREAK
    else if rb_obj_is_kind_of errinfo .TkCallbackContinue then
      pure TCL_CONTINUE
    else if rb_obj_is_kind_of errinfo .TkCallbackReturn then
      pure TCL_RETURN
    else do
      let msg ← StringValueCStr errinfo.message
      foreign (.Tcl_SetResult interp msg) (E.Tcl_SetResult interp msg)
      pure TCL_ERROR
  | .ok result => do
    (if !NIL_P result then do
      let str ← StringValueCStr (rb_String result)
      foreign (.Tcl_SetResult interp str) (E.Tcl_SetResult interp str)
     else pure ())
    pure TCL_OK

/-- The code of `ruby_callback_proc` with the call of the closure left open:
`body proc args` stands for what `rb_proc_call(proc, args)` does, which may
enter the bridge again when the closure runs a Tcl command (a nested
dispatch). With `callback_invoke` for `body` this is `ruby_callback_proc`. -/
def ruby_callback_proc_around (body : ProcId → List String → M ε RValue)
    (clientData : VALUE) (interp : Ptr) (objv : List String) : M ε Int := do
  let tip ← get_struct clientData
  if objv.length < 2 then
    foreign (.Tcl_SetResult interp "wrong # args: should be \"ruby_callback id ?args?\"")
      (E.Tcl_SetResult interp "wrong # args: should be \"ruby_callback id ?args?\"")
    pure TCL_ERROR
  else
    let id_str := objv.getD 1 ""
    match rb_hash_aref tip.callbacks id_str with
    | none =>
      foreign (.Tcl_SetResult interp ("unknown callback id: " ++ id_str))
        (E.Tcl_SetResult interp ("unknown callback id: " ++ id_str))
      pure TCL_ERROR
    | some proc =>
      let args := objv.drop 2
      modifyW fun w => { w with rbtk_callback_depth := w.rbtk_callback_depth + 1 }
      let result ← rb_protect (body proc args)
      modifyW fun w => { w with rbtk_callback_depth := w.rbtk_callback_depth - 1 }
      callback_result E interp result

/-- A closure that, `n` levels deep, runs a Tcl command that dispatches the
callback `inner` before it is called itself. -/
def nested_callback (clientData : VALUE) (interp : Ptr) (inner : List String) :
    Nat → ProcId → List String → M ε RValue
  | 0, proc, args => callback_invoke E proc args
  | n + 1, proc, args => do
    let _ ← ruby_callback_proc_around E (nested_callback clientData interp inner n) clientData
      interp inner
    callback_invoke E proc args

/-! ## Interpreters deleted -/

/-- The interpreters that the calls of a trace deleted, in order. -/
def deletions (tr : List FCall) : List Ptr :=
  tr.filterMap fun c =>
    match c with
    | .Tcl_DeleteInterp p => some p
    | _ => none

/-- The interpreters on which the calls of a trace ran `Tcl_InitStubs`. -/
def stub_inits (tr : List FCall) : List Ptr :=
  tr.filterMap fun c =>
    match c with
    | .Tcl_InitStubs p => some p
    | _ => none

/-- A foreign side like `stubEnv` for a Tcl 8.6 whose `Tcl_InitStubs` fails (a
version mismatch, say): the stubs table is unset and stays so, and `dlsym`
finds the bootstrap functions. -/
def tcl86Env : Env Nat :=
  { stubEnv (.value .nil) with
    tclStubsPtr := fun _ => false
    Tcl_InitStubs := fun _ x => (none, x) }

/-- A foreign side like `stubEnv` on which every closure returns the string
`a\0b`, and on which `Tcl_EvalObjv` of a command whose first word is
`ruby_callback` runs the command procedure that the bridge registered under
that name, for handle 0 with the registry of `demo_registered`: the evaluation
ends with the code the procedure returned, or is unwound by the exception the
procedure raised. -/
def nulEnv : Env Nat :=
  { stubEnv (.value (.str "a\x00b")) with
    Tcl_EvalObjv := fun p words x =>
      if words.head? = some "ruby_callback" then
        match ruby_callback_proc (stubEnv (.value (.str "a\x00b"))) 0 p words
            { demo_registered with ext := x } with
        | .ok c w1 => (.code c, w1.ext)
        | .raise e w1 => (.unwound e, w1.ext)
        | .blocked _ w1 => (.code TCL_ERROR, w1.ext)
        | .out_of_fuel w1 => (.code TCL_ERROR, w1.ext)
        | .crashed w1 => (.code TCL_ERROR, w1.ext)
      else (.code TCL_OK, x) }

/-- The code of `interp_tcl_eval` with the call of `Tcl_Eval` left open:
`body interp script` stands for what `Tcl_Eval(interp, script)` does, which may
enter the bridge again when the script runs one of its commands (closures
that register callbacks or queue commands). With the foreign call for `body`
this is `interp_tcl_eval`. -/
def interp_tcl_eval_around (body : Ptr → String → M ε Int) (self : VALUE) (script : RValue)
    (cur : ThreadId) : M ε RValue := do
  let tip ← get_interp self
  let current ← Tcl_GetCurrentThread cur
  let script ← StringValue script
  if current ≠ tip.main_thread_id then
    queue_command_internal E self (.eval script) true cur
  else
    let result ← body tip.interp script
    let t ← get_struct self
    let text ← Tcl_GetStringResult E t.interp
    if result ≠ TCL_OK then
      rb_raise .TclError text
    else
      pure (.str text)

/-- The code of `interp_tcl_invoke` with the call of `Tcl_EvalObjv` left open,
as in `interp_tcl_eval_around`. -/
def interp_tcl_invoke_around (body : Ptr → List String → M ε Int) (argv : List RValue)
    (self : VALUE) (cur : ThreadId) : M ε RValue := do
  let tip ← get_interp self
  let current ← Tcl_GetCurrentThread cur
  if argv.length = 0 then
    rb_raise .ArgumentError "wrong number of arguments (given 0, expected 1+)"
  else if current ≠ tip.main_thread_id then
    queue_command_internal E self (.invoke argv) true cur
  else
    let objv ← invoke_words argv
    let result ← body tip.interp objv
    let t ← get_struct self
    let text ← Tcl_GetStringResult E t.interp
    if result ≠ TCL_OK then
      rb_raise .TclError text
    else
      pure (.str text)

/-- Thread 2 has queued closure 11 on the live handle 0 with `queue_for_main`. -/
def demo_queued : World Nat :=
  (interp_queue_for_main (stubEnv (.value .nil)) 0 11 2 demo_live).state

/-- The code of `ruby_thread_event_handler` with the execution of the command
left open: `body tip kind` stands for what the dispatch on the `:type` of the
command does, which may look at the queue, submit commands, or process events
and so run the handler again. With `execute_queued` for `body` this is
`ruby_thread_event_handler`. -/
def ruby_thread_event_handler_around (body : VALUE → CmdKind → M ε RValue) (tip : VALUE) :
    M ε Int := do
  let t ← get_struct tip
  match t.thread_queue with
  | [] => pure 1
  | cmd :: rest =>
    set_struct tip fun t => { t with thread_queue := rest }
    let result ← rb_protect (body tip cmd.kind)
    match result with
    | .error exception =>
      if rb_obj_is_kind_of exception .SystemExit || rb_obj_is_kind_of exception .Interrupt then
        rb_exc_raise exception
      else do
        (match cmd.queue with
         | some queue => Queue_push queue ⟨.nil, some exception⟩
         | none => pure ())
        pure 1
    | .ok result =>
      (match cmd.queue with
       | some queue => Queue_push queue ⟨result, none⟩
       | none => pure ())
      pure 1

/-- The execution of a queued command that first processes the pending event of
the handle, as when the command runs `update`: a handler run nested in the
execution, then the command itself. -/
def execute_after_events (tip : VALUE) (kind : CmdKind) : M ε RValue := do
  let _ ← ruby_thread_event_handler E tip
  execute_queued E tip kind

/-- The foreign calls of a loop that tested the number of main windows before
each of its iterations and ran them with the intervals `ivs`, in order. -/
def tested_run : List Int → List FCall
  | [] => []
  | i :: rest => .Tk_GetNumMainWindows :: (iteration_calls i ++ tested_run rest)

/-- The world once a main loop has created its keep-alive timer, which it does
when the interval is positive (`Tcl_CreateTimerHandler(ms, proc, clientData)`). -/
def World.armed (w : World ε) (ms : Int) (clientData : Option VALUE) : World ε :=
  if ms > 0 then
    { w with ext := (E.Tcl_CreateTimerHandler ms clientData w.ext).2,
             trace := w.trace ++ [.Tcl_CreateTimerHandler ms clientData] }
  else w

/-- The body of the loop of `interp_mainloop` with the processing of the event
left open: `event` stands for `Tcl_DoOneEvent(TCL_ALL_EVENTS)`, which may run
handlers and callbacks of the bridge that change the interval. With the foreign
call for `event` this is `interp_mainloop_iteration`. -/
def interp_mainloop_iteration_around (event : M ε Int) (self : VALUE) : M ε Unit := do
  let _ ← event
  let tip ← get_struct self
  (if tip.timer_interval_ms > 0 then
    foreign .rb_thread_call_without_gvl E.rb_thread_call_without_gvl
   else pure ())
  rb_thread_check_ints E

/-- The body of the loop of `lib_mainloop` with the processing of the event
left open, as in `interp_mainloop_iteration_around`. -/
def lib_mainloop_iteration_around (event : M ε Int) : M ε Unit := do
  let _ ← event
  let w ← getW
  (if w.g_thread_timer_ms > 0 then
    foreign .rb_thread_call_without_gvl E.rb_thread_call_without_gvl
   else pure ())
  rb_thread_check_ints E

/-- A foreign side like `stubEnv` whose state is the number of main windows:
`Tk_GetNumMainWindows` reports it and every event closes a window. -/
def windowEnv : Env Nat :=
  { stubEnv (.value .nil) with
    Tk_GetNumMainWindows := fun x => ((x : Int), x)
    Tcl_DoOneEvent := fun _ x => (.code 1, x - 1) }

/-! ## Stepping lemmas -/

section
variable {α β : Type}

@[simp] theorem bind_apply (m : M ε α) (f : α → M ε β) (w : World ε) :
    (m >>= f) w = match m w with
      | .ok a w1 => f a w1
      | .raise e w1 => .raise e w1
      | .blocked q w1 => .blocked q w1
      | .out_of_fuel w1 => .out_of_fuel w1
      | .crashed w1 => .crashed w1 := rfl

@[simp] theorem pure_apply (a : α) (w : World ε) : (pure a : M ε α) w = .ok a w := rfl

@[simp] theorem map_apply (g : α → β) (m : M ε α) (w : World ε) :
    (g <$> m) w = match m w with
      | .ok a w1 => .ok (g a) w1
      | .raise e w1 => .raise e w1
      | .blocked q w1 => .blocked q w1
      | .out_of_fuel w1 => .out_of_fuel w1
      | .crashed w1 => .crashed w1 := by
  show M.bind m _ w = _
  unfold M.bind
  cases m w <;> rfl

@[simp] theorem get_struct_apply (self : VALUE) (w : World ε) :
    get_struct self w = .ok (w.objs self) w := rfl

@[simp] theorem getW_apply (w : World ε) : getW w = .ok w w := rfl

@[simp] theorem modifyW_apply (f : World ε → World ε) (w : World ε) :
    modifyW f w = .ok () (f w) := rfl

@[simp] theorem set_struct_apply (self : VALUE) (f : tcltk_interp → tcltk_interp) (w : World ε) :
    set_struct self f w = .ok () (w.store self (f (w.objs self))) := rfl

@[simp] theorem foreign_apply (l : FCall) (f : ε → α × ε) (w : World ε) :
    foreign l f w = .ok (f w.ext).1 { w with ext := (f w.ext).2, trace := w.trace ++ [l] } := rfl

@[simp] theorem rb_raise_apply (c : RClass) (msg : String) (w : World ε) :
    (rb_raise c msg : M ε α) w = .raise ⟨c, msg⟩ w := rfl

@[simp] theorem rb_exc_raise_apply (e : RException) (w : World ε) :
    (rb_exc_raise e : M ε α) w = .raise e w := rfl

@[simp] theorem rb_protect_apply (m : M ε α) (w : World ε) :
    rb_protect m w = match m w with
      | .ok a w1 => .ok (.ok a) w1
      | .raise e w1 => .ok (.error e) w1
      | .blocked q w1 => .blocked q w1
      | .out_of_fuel w1 => .out_of_fuel w1
      | .crashed w1 => .crashed w1 := rfl

@[simp] theorem store_objs_same (w : World ε) (self : VALUE) (t : tcltk_interp) :
    (w.store self t).objs self = t := by simp [World.store]

theorem store_objs_other (w : World ε) (self v : VALUE) (t : tcltk_interp) (h : v ≠ self) :
    (w.store self t).objs v = w.objs v := by simp [World.store, h]

theorem store_self (w : World ε) (self : VALUE) : w.store self (w.objs self) = w := by
  have h : (fun v => if v = self then w.objs self else w.objs v) = w.objs := by
    funext v
    by_cases hv : v = self <;> simp [hv]
  simp [World.store, h]

end

/-! ## The callback hash -/

theorem rb_hash_aref_nil {β : Type} (k : String) :
    rb_hash_aref ([] : List (String × β)) k = none := rfl

theorem rb_hash_aref_cons {β : Type} (kv : String × β) (rest : List (String × β)) (k : String) :
    rb_hash_aref (kv :: rest) k = if kv.1 = k then some kv.2 else rb_hash_aref rest k := by
  by_cases hk : kv.1 = k
  · simp only [rb_hash_aref, List.find?_cons, hk, beq_self_eq_true, if_true, Option.map_some']
  · have hb : (kv.1 == k) = false := by simpa using hk
    simp only [rb_hash_aref, List.find?_cons, hb, hk, if_false]

theorem rb_hash_delete_nil {β : Type} (key : String) :
    rb_hash_delete ([] : List (String × β)) key = [] := rfl

theorem rb_hash_delete_cons {β : Type} (kv : String × β) (rest : List (String × β))
    (key : String) :
    rb_hash_delete (kv :: rest) key =
      if kv.1 = key then rb_hash_delete rest key else kv :: rb_hash_delete rest key := by
  by_cases hk : kv.1 = key
  · have hb : (!(kv.1 == key)) = false := by simp [hk]
    rw [if_pos hk]
    show List.filter _ (kv :: rest) = List.filter _ rest
    rw [List.filter_cons, hb]
    rfl
  · have hb : (!(kv.1 == key)) = true := by simp [hk]
    rw [if_neg hk]
    show List.filter _ (kv :: rest) = kv :: List.filter _ rest
    rw [List.filter_cons, hb]
    rfl

theorem rb_hash_aref_delete_self {β : Type} (h : List (String × β)) (key : String) :
    rb_hash_aref (rb_hash_delete h key) key = none := by
  induction h with
  | nil => rfl
  | cons kv rest ih =>
    rw [rb_hash_delete_cons]
    by_cases hk : kv.1 = key
    · rw [if_pos hk]; exact ih
    · rw [if_neg hk, rb_hash_aref_cons, if_neg hk]; exact ih

theorem rb_hash_aref_delete_other {β : Type} (h : List (String × β)) (key k : String)
    (hne : k ≠ key) : rb_hash_aref (rb_hash_delete h key) k = rb_hash_aref h k := by
  induction h with
  | nil => rfl
  | cons kv rest ih =>
    rw [rb_hash_delete_cons, rb_hash_aref_cons]
    by_cases hk : kv.1 = key
    · have hk2 : ¬ kv.1 = k := fun e => hne (e.symm.trans hk)
      rw [if_pos hk, if_neg hk2]; exact ih
    · rw [if_neg hk, rb_hash_aref_cons]
      by_cases hk2 : kv.1 = k
      · rw [if_pos hk2, if_pos hk2]
      · rw [if_neg hk2, if_neg hk2]; exact ih

theorem rb_hash_aref_none_iff {β : Type} (h : List (String × β)) (key : String) :
    rb_hash_aref h key = none ↔ key ∉ h.map Prod.fst := by
  induction h with
  | nil => simp [rb_hash_aref_nil]
  | cons kv rest ih =>
    rw [rb_hash_aref_cons]
    by_cases hk : kv.1 = key
    · rw [if_pos hk]
      simp [hk]
    · rw [if_neg hk, ih]
      have hk2 : ¬ key = kv.1 := fun e => hk e.symm
      simp [hk2]

theorem rb_hash_delete_absent {β : Type} (h : List (String × β)) (key : String)
    (habs : key ∉ h.map Prod.fst) : rb_hash_delete h key = h := by
  induction h with
  | nil => rfl
  | cons kv rest ih =>
    simp only [List.map_cons, List.mem_cons, not_or] at habs
    have hk : ¬ kv.1 = key := fun e => habs.1 e.symm
    rw [rb_hash_delete_cons, if_neg hk, ih habs.2]

theorem rb_hash_aset_present {β : Type} (h : List (String × β)) (key : String) (v : β)
    (hp : key ∈ h.map Prod.fst) :
    rb_hash_aset h key v = h.map fun kv => if kv.1 == key then (key, v) else kv := by
  have hany : (h.any fun kv => kv.1 == key) = true := by
    simp only [List.mem_map] at hp
    obtain ⟨kv, hkv, hk⟩ := hp
    simp only [List.any_eq_true]
    exact ⟨kv, hkv, by simp [hk]⟩
  simp only [rb_hash_aset, hany, if_true]

theorem rb_hash_aset_absent {β : Type} (h : List (String × β)) (key : String) (v : β)
    (ha : key ∉ h.map Prod.fst) : rb_hash_aset h key v = h ++ [(key, v)] := by
  have hany : ¬ (h.any fun kv => kv.1 == key) = true := by
    intro hc
    simp only [List.any_eq_true] at hc
    obtain ⟨kv, hkv, hk⟩ := hc
    exact ha (List.mem_map.mpr ⟨kv, hkv, by simpa using hk⟩)
  simp only [rb_hash_aset, hany, if_false]
  rfl

theorem rb_hash_aref_append_absent {β : Type} (h : List (String × β)) (key : String) (v : β)
    (ha : key ∉ h.map Prod.fst) : rb_hash_aref (h ++ [(key, v)]) key = some v := by
  induction h with
  | nil => simp [rb_hash_aref_cons]
  | cons kv rest ih =>
    simp only [List.map_cons, List.mem_cons, not_or] at ha
    have hk : ¬ kv.1 = key := fun e => ha.1 e.symm
    rw [List.cons_append, rb_hash_aref_cons, if_neg hk]
    exact ih ha.2

theorem rb_hash_aref_map_present {β : Type} (h : List (String × β)) (key : String) (v : β)
    (hp : key ∈ h.map Prod.fst) :
    rb_hash_aref (h.map fun kv => if kv.1 == key then (key, v) else kv) key = some v := by
  induction h with
  | nil => simp at hp
  | cons kv rest ih =>
    rw [List.map_cons, rb_hash_aref_cons]
    by_cases hk : kv.1 = key
    · simp [hk]
    · have hb : (kv.1 == key) = false := by simpa using hk
      simp only [List.map_cons, List.mem_cons] at hp
      have hp2 : key ∈ rest.map Prod.fst := by
        rcases hp with e | e
        · exact absurd e.symm hk
        · exact e
      simp only [hb, Bool.false_eq_true, if_false, hk]
      exact ih hp2

theorem rb_hash_aref_aset_self {β : Type} (h : List (String × β)) (key : String) (v : β) :
    rb_hash_aref (rb_hash_aset h key v) key = some v := by
  by_cases hp : key ∈ h.map Prod.fst
  · rw [rb_hash_aset_present h key v hp]
    exact rb_hash_aref_map_present h key v hp
  · rw [rb_hash_aset_absent h key v hp]
    exact rb_hash_aref_append_absent h key v hp


/-! ## The liveness guard -/

theorem get_interp_dead (w : World ε) (self : VALUE)
    (h : (w.objs self).deleted = true ∨ (w.objs self).interp = 0) :
    get_interp self w = .raise ⟨.TclError, "interpreter has been deleted"⟩ w := by
  rcases h with h | h <;> simp [get_interp, h]

theorem get_interp_live (w : World ε) (self : VALUE)
    (hd : (w.objs self).deleted = false) (hi : (w.objs self).interp ≠ 0) :
    get_interp self w = .ok (w.objs self) w := by
  simp [get_interp, hd, hi]

theorem run_deleted_callbacks_apply (vs : List VALUE) (w : World ε) :
    run_deleted_callbacks vs w = .ok () (w.notified vs) := by
  induction vs generalizing w with
  | nil => rfl
  | cons v vs ih =>
    simp only [run_deleted_callbacks, interp_deleted_callback, bind_apply, set_struct_apply, ih]
    rfl

theorem notified_objs (vs : List VALUE) (w : World ε) (v : VALUE) :
    (w.notified vs).objs v
      = if v ∈ vs then { w.objs v with deleted := true, interp := 0 } else w.objs v := by
  induction vs generalizing w with
  | nil => simp [World.notified]
  | cons u vs ih =>
    simp only [World.notified, ih, List.mem_cons]
    by_cases hu : v = u
    · subst hu
      by_cases hm : v ∈ vs <;> simp [hm, World.store]
    · by_cases hm : v ∈ vs <;> simp [hm, hu, World.store]

theorem notified_frame (vs : List VALUE) (w : World ε) :
    (w.notified vs).ext = w.ext ∧ (w.notified vs).trace = w.trace ∧
    (w.notified vs).n_objs = w.n_objs ∧ (w.notified vs).queues = w.queues ∧
    (w.notified vs).n_queues = w.n_queues ∧
    (w.notified vs).live_instances = w.live_instances ∧
    (w.notified vs).tcl_stubs_initialized = w.tcl_stubs_initialized ∧
    (w.notified vs).g_thread_timer_ms = w.g_thread_timer_ms ∧
    (w.notified vs).rbtk_callback_depth = w.rbtk_callback_depth := by
  induction vs generalizing w with
  | nil => simp [World.notified]
  | cons u vs ih =>
    simp only [World.notified]
    have h := ih (w.store u { w.objs u with deleted := true, interp := 0 })
    simpa [World.store] using h

theorem Tcl_DeleteInterp_apply (p : Ptr) (w : World ε) :
    Tcl_DeleteInterp E p w = .ok () (World.after_delete E w p) := by
  simp only [Tcl_DeleteInterp, bind_apply, foreign_apply, run_deleted_callbacks_apply]
  rfl

theorem after_delete_objs (w : World ε) (p : Ptr) (v : VALUE) :
    (World.after_delete E w p).objs v
      = if v ∈ (E.Tcl_DeleteInterp p w.ext).1 then
          { w.objs v with deleted := true, interp := 0 }
        else w.objs v := by
  simp [World.after_delete, notified_objs]

theorem after_delete_frame (w : World ε) (p : Ptr) :
    (World.after_delete E w p).ext = (E.Tcl_DeleteInterp p w.ext).2 ∧
    (World.after_delete E w p).trace = w.trace ++ [.Tcl_DeleteInterp p] ∧
    (World.after_delete E w p).n_objs = w.n_objs ∧
    (World.after_delete E w p).queues = w.queues ∧
    (World.after_delete E w p).n_queues = w.n_queues ∧
    (World.after_delete E w p).live_instances = w.live_instances ∧
    (World.after_delete E w p).tcl_stubs_initialized = w.tcl_stubs_initialized ∧
    (World.after_delete E w p).g_thread_timer_ms = w.g_thread_timer_ms ∧
    (World.after_delete E w p).rbtk_callback_depth = w.rbtk_callback_depth := by
  simpa [World.after_delete] using notified_frame (E.Tcl_DeleteInterp p w.ext).1
    ({ w with ext := (E.Tcl_DeleteInterp p w.ext).2,
              trace := w.trace ++ [.Tcl_DeleteInterp p] } : World ε)

theorem interp_delete_live (w : World ε) (self : VALUE)
    (hi : (w.objs self).interp ≠ 0) (hd : (w.objs self).deleted = false) :
    interp_delete E self w = .ok .nil
      { ((World.after_delete E w (w.objs self).interp).store self
            { (World.after_delete E w (w.objs self).interp).objs self with deleted := true }) with
        live_instances := w.live_instances.filter (· ≠ self) } := by
  simp [interp_delete, hi, hd, World.store, Tcl_DeleteInterp_apply, after_delete_frame]

theorem interp_delete_dead (w : World ε) (self : VALUE)
    (h : (w.objs self).deleted = true ∨ (w.objs self).interp = 0) :
    interp_delete E self w = .ok .nil w := by
  rcases h with h | h <;> simp [interp_delete, h]

theorem interp_free_dead (w : World ε) (self : VALUE)
    (h : (w.objs self).deleted = true ∨ (w.objs self).interp = 0) :
    interp_free E self w = .ok () w := by
  rcases h with h | h <;> simp [interp_free, h]

theorem interp_deleted_p_eq (w : World ε) (self : VALUE) :
    interp_deleted_p self w
      = .ok (.bool ((w.objs self).deleted || (w.objs self).interp == 0)) w := by
  simp [interp_deleted_p]

/-! ## Initialisation -/

theorem stub_call_apply {α : Type} (l : FCall) (f : ε → α × ε) (w : World ε) :
    stub_call E l f w
      = if E.tclStubsPtr w.ext = true then
          .ok (f w.ext).1 { w with ext := (f w.ext).2, trace := w.trace ++ [l] }
        else .crashed w := rfl

theorem init_failed_apply {α : Type} (w : World ε) (self : VALUE) (p : Ptr) (what : String) :
    (init_failed E self p what : M ε α) w
      = if E.tclStubsPtr w.ext = true then
          if E.tclStubsPtr (E.Tcl_GetStringResult p w.ext).2 = true then
            .raise ⟨.TclError, what ++ " failed: " ++ (E.Tcl_GetStringResult p w.ext).1⟩
              (({ w with ext := (E.Tcl_DeleteInterp p (E.Tcl_GetStringResult p w.ext).2).2,
                         trace := w.trace ++ [.Tcl_GetStringResult p, .Tcl_DeleteInterp p] }
                  : World ε).store self { w.objs self with interp := 0 })
          else
            .crashed { w with ext := (E.Tcl_GetStringResult p w.ext).2,
                              trace := w.trace ++ [.Tcl_GetStringResult p] }
        else .crashed w := by
  by_cases h1 : E.tclStubsPtr w.ext = true
  · by_cases h2 : E.tclStubsPtr (E.Tcl_GetStringResult p w.ext).2 = true
    · simp [init_failed, stub_call_apply, World.store, h1, h2]
    · simp [init_failed, stub_call_apply, World.store, h1, h2]
  · simp [init_failed, stub_call_apply, h1]

theorem find_executable_bootstrap_apply (w : World ε) :
    ∃ x tr, find_executable_bootstrap E w = .ok () { w with ext := x, trace := w.trace ++ tr } := by
  by_cases h1 : E.tclStubsPtr w.ext = true
  · exact ⟨(E.Tcl_FindExecutable w.ext).2, [.Tcl_FindExecutable],
      by simp [find_executable_bootstrap, h1]⟩
  · by_cases h2 : E.dlsym "Tcl_FindExecutable" w.ext = true
    · exact ⟨(E.Tcl_FindExecutable w.ext).2, [.Tcl_FindExecutable],
        by simp [find_executable_bootstrap, h1, h2]⟩
    · exact ⟨w.ext, [], by simp [find_executable_bootstrap, h1, h2]⟩

theorem create_interp_bootstrap_apply (w : World ε) :
    ∃ p x tr, create_interp_bootstrap E w = .ok p { w with ext := x, trace := w.trace ++ tr } := by
  by_cases h1 : E.tclStubsPtr w.ext = true
  · exact ⟨(E.Tcl_CreateInterp w.ext).1, (E.Tcl_CreateInterp w.ext).2, [.Tcl_CreateInterp],
      by simp [create_interp_bootstrap, h1]⟩
  · by_cases h2 : E.dlsym "Tcl_CreateInterp" w.ext = true
    · exact ⟨(E.Tcl_CreateInterp w.ext).1, (E.Tcl_CreateInterp w.ext).2, [.Tcl_CreateInterp],
        by simp [create_interp_bootstrap, h1, h2]⟩
    · exact ⟨0, w.ext, [], by simp [create_interp_bootstrap, h1, h2]⟩


theorem ite_ite_same {α : Type} (c : Prop) [Decidable c] (a b d : α) :
    (if c then a else if c then b else d) = if c then a else d := by
  by_cases h : c <;> simp [h]

theorem deletions_append (a b : List FCall) : deletions (a ++ b) = deletions a ++ deletions b := by
  simp [deletions, List.filterMap_append]

theorem stub_inits_append (a b : List FCall) :
    stub_inits (a ++ b) = stub_inits a ++ stub_inits b := by
  simp [stub_inits, List.filterMap_append]

theorem find_executable_bootstrap_calls (w : World ε) :
    ∃ x tr, find_executable_bootstrap E w = .ok () { w with ext := x, trace := w.trace ++ tr } ∧
      deletions tr = [] ∧ stub_inits tr = [] := by
  by_cases h1 : E.tclStubsPtr w.ext = true
  · exact ⟨(E.Tcl_FindExecutable w.ext).2, [.Tcl_FindExecutable],
      by simp [find_executable_bootstrap, h1], rfl, rfl⟩
  · by_cases h2 : E.dlsym "Tcl_FindExecutable" w.ext = true
    · exact ⟨(E.Tcl_FindExecutable w.ext).2, [.Tcl_FindExecutable],
        by simp [find_executable_bootstrap, h1, h2], rfl, rfl⟩
    · exact ⟨w.ext, [], by simp [find_executable_bootstrap, h1, h2], rfl, rfl⟩

theorem create_interp_bootstrap_calls (w : World ε) :
    ∃ p x tr, create_interp_bootstrap E w = .ok p { w with ext := x, trace := w.trace ++ tr } ∧
      deletions tr = [] ∧ stub_inits tr = [] := by
  by_cases h1 : E.tclStubsPtr w.ext = true
  · exact ⟨(E.Tcl_CreateInterp w.ext).1, (E.Tcl_CreateInterp w.ext).2, [.Tcl_CreateInterp],
      by simp [create_interp_bootstrap, h1], rfl, rfl⟩
  · by_cases h2 : E.dlsym "Tcl_CreateInterp" w.ext = true
    · exact ⟨(E.Tcl_CreateInterp w.ext).1, (E.Tcl_CreateInterp w.ext).2, [.Tcl_CreateInterp],
        by simp [create_interp_bootstrap, h1, h2], rfl, rfl⟩
    · exact ⟨0, w.ext, [], by simp [create_interp_bootstrap, h1, h2], rfl, rfl⟩

theorem initialize_runtime_paths (w : World ε) (self : VALUE) (cur : ThreadId) :
    (∃ x tr, initialize_runtime E self cur w
        = .raise ⟨.TclError, "failed to create Tcl interpreter"⟩
            (({ w with ext := x, trace := w.trace ++ tr } : World ε).store self
              { w.objs self with interp := 0 }) ∧
      deletions tr = [] ∧ stub_inits tr = []) ∨
    (∃ p e x tr, p ≠ 0 ∧ initialize_runtime E self cur w
        = .raise e (({ w with ext := x, trace := w.trace ++ tr } : World ε).store self
            { w.objs self with interp := 0 }) ∧
      deletions tr = [p] ∧ stub_inits tr = [p] ∧ e.klass = .TclError) ∨
    (∃ p x tr, p ≠ 0 ∧ initialize_runtime E self cur w
        = .ok self
            (({ w with ext := x,
                       trace := w.trace ++ tr,
                       live_instances := w.live_instances ++ [self],
                       tcl_stubs_initialized := true } : World ε).store self
              { w.objs self with interp := p, main_thread_id := cur }) ∧
      deletions tr = [] ∧ stub_inits tr = [p] ∧ FCall.Tcl_CallWhenDeleted p self ∈ tr) ∨
    (∃ p x tr, p ≠ 0 ∧ initialize_runtime E self cur w
        = .crashed (({ w with ext := x, trace := w.trace ++ tr } : World ε).store self
            { w.objs self with interp := p }) ∧
      E.tclStubsPtr x = false ∧ deletions tr = [] ∧ stub_inits tr = [p]) := by
  have hfind : ∃ x tr, (if (!w.tcl_stubs_initialized) = true then find_executable_bootstrap E
      else pure ()) w = .ok () { w with ext := x, trace := w.trace ++ tr } ∧
      deletions tr = [] ∧ stub_inits tr = [] := by
    cases hs : w.tcl_stubs_initialized
    · obtain ⟨x, tr, h, hd, hs2⟩ := find_executable_bootstrap_calls E w
      exact ⟨x, tr, by simp [h, hs], hd, hs2⟩
    · exact ⟨w.ext, [], by simp [← hs], rfl, rfl⟩
  obtain ⟨x1, tr1, h1, hd1, hs1⟩ := hfind
  obtain ⟨p, x2, tr2, h2, hd2, hs2⟩ := create_interp_bootstrap_calls E
    ({ w with ext := x1, trace := w.trace ++ tr1 } : World ε)
  simp only [deletions, stub_inits] at hd1 hd2 hs1 hs2
  unfold initialize_runtime
  simp only [bind_apply, getW_apply, h1, h2, set_struct_apply]
  by_cases hp : p = 0
  · apply Or.inl
    apply Exists.intro
    apply Exists.intro
    apply And.intro
    · simp only [hp, beq_self_eq_true, if_true, rb_raise_apply, World.store, List.append_assoc,
        store_objs_same, ite_true]
      rfl
    · simp [deletions, stub_inits, hd1, hd2, hs1, hs2]
  apply Or.inr
  simp only [beq_iff_eq, hp, if_false, foreign_apply, bind_apply]
  cases hv : (E.Tcl_InitStubs p x2).1 with
  | none =>
    simp only [World.store, hv, Option.isNone_none, if_true, List.append_assoc,
      List.cons_append, List.nil_append, if_pos, ite_ite_same]
    simp only [init_failed_apply]
    split
    · split
      · apply Or.inl
        refine ⟨p, ?_⟩
        apply Exists.intro
        apply Exists.intro
        apply Exists.intro
        refine ⟨hp, ?_⟩
        apply And.intro
        · try simp only [World.store, List.append_assoc, List.cons_append, List.nil_append, if_pos,
            ite_ite_same]
          rfl
        · simp [deletions, stub_inits, hd1, hd2, hs1, hs2]
      · apply Or.inr
        apply Or.inr
        refine ⟨p, ?_⟩
        apply Exists.intro
        apply Exists.intro
        refine ⟨hp, ?_⟩
        apply And.intro
        · try simp only [World.store, List.append_assoc, List.cons_append, List.nil_append, if_pos,
            ite_ite_same]
          rfl
        · rename_i _ hc
          refine ⟨by simpa using hc, ?_, ?_⟩ <;> simp [deletions, stub_inits, hd1, hd2, hs1, hs2]
    · apply Or.inr
      apply Or.inr
      refine ⟨p, ?_⟩
      apply Exists.intro
      apply Exists.intro
      refine ⟨hp, ?_⟩
      apply And.intro
      · try simp only [World.store, List.append_assoc, List.cons_append, List.nil_append, if_pos,
          ite_ite_same]
        rfl
      · rename_i hc
        refine ⟨by simpa using hc, ?_, ?_⟩ <;> simp [deletions, stub_inits, hd1, hd2, hs1, hs2]
  | some v =>
    simp only [World.store, hv, Option.isNone_some, Bool.false_eq_true, if_false,
      foreign_apply, bind_apply, List.append_assoc,
      List.cons_append, List.nil_append, if_pos, ite_ite_same]
    split
    · simp only [init_failed_apply]
      split
      · split
        · apply Or.inl
          refine ⟨p, ?_⟩
          apply Exists.intro
          apply Exists.intro
          apply Exists.intro
          refine ⟨hp, ?_⟩
          apply And.intro
          · try simp only [World.store, List.append_assoc, List.cons_append, List.nil_append, if_pos,
              ite_ite_same]
            rfl
          · simp [deletions, stub_inits, hd1, hd2, hs1, hs2]
        · apply Or.inr
          apply Or.inr
          refine ⟨p, ?_⟩
          apply Exists.intro
          apply Exists.intro
          refine ⟨hp, ?_⟩
          apply And.intro
          · try simp only [World.store, List.append_assoc, List.cons_append, List.nil_append, if_pos,
              ite_ite_same]
            rfl
          · rename_i _ hc
            refine ⟨by simpa using hc, ?_, ?_⟩ <;> simp [deletions, stub_inits, hd1, hd2, hs1, hs2]
      · apply Or.inr
        apply Or.inr
        refine ⟨p, ?_⟩
        apply Exists.intro
        apply Exists.intro
        refine ⟨hp, ?_⟩
        apply And.intro
        · try simp only [World.store, List.append_assoc, List.cons_append, List.nil_append, if_pos,
            ite_ite_same]
          rfl
        · rename_i hc
          refine ⟨by simpa using hc, ?_, ?_⟩ <;> simp [deletions, stub_inits, hd1, hd2, hs1, hs2]
    · simp only [foreign_apply, bind_apply, List.append_assoc, List.cons_append, List.nil_append]
      split
      · simp only [init_failed_apply]
        split
        · split
          · apply Or.inl
            refine ⟨p, ?_⟩
            apply Exists.intro
            apply Exists.intro
            apply Exists.intro
            refine ⟨hp, ?_⟩
            apply And.intro
            · try simp only [World.store, List.append_assoc, List.cons_append, List.nil_append, if_pos,
                ite_ite_same]
              rfl
            · simp [deletions, stub_inits, hd1, hd2, hs1, hs2]
          · apply Or.inr
            apply Or.inr
            refine ⟨p, ?_⟩
            apply Exists.intro
            apply Exists.intro
            refine ⟨hp, ?_⟩
            apply And.intro
            · try simp only [World.store, List.append_assoc, List.cons_append, List.nil_append, if_pos,
                ite_ite_same]
              rfl
            · rename_i _ hc
              refine ⟨by simpa using hc, ?_, ?_⟩ <;> simp [deletions, stub_inits, hd1, hd2, hs1, hs2]
        · apply Or.inr
          apply Or.inr
          refine ⟨p, ?_⟩
          apply Exists.intro
          apply Exists.intro
          refine ⟨hp, ?_⟩
          apply And.intro
          · try simp only [World.store, List.append_assoc, List.cons_append, List.nil_append, if_pos,
              ite_ite_same]
            rfl
          · rename_i hc
            refine ⟨by simpa using hc, ?_, ?_⟩ <;> simp [deletions, stub_inits, hd1, hd2, hs1, hs2]
      · simp only [foreign_apply, bind_apply, List.append_assoc, List.cons_append, List.nil_append]
        split
        · simp only [init_failed_apply]
          split
          · split
            · apply Or.inl
              refine ⟨p, ?_⟩
              apply Exists.intro
              apply Exists.intro
              apply Exists.intro
              refine ⟨hp, ?_⟩
              apply And.intro
              · try simp only [World.store, List.append_assoc, List.cons_append, List.nil_append, if_pos,
                  ite_ite_same]
                rfl
              · simp [deletions, stub_inits, hd1, hd2, hs1, hs2]
            · apply Or.inr
              apply Or.inr
              refine ⟨p, ?_⟩
              apply Exists.intro
              apply Exists.intro
              refine ⟨hp, ?_⟩
              apply And.intro
              · try simp only [World.store, List.append_assoc, List.cons_append, List.nil_append, if_pos,
                  ite_ite_same]
                rfl
              · rename_i _ hc
                refine ⟨by simpa using hc, ?_, ?_⟩ <;> simp [deletions, stub_inits, hd1, hd2, hs1, hs2]
          · apply Or.inr
            apply Or.inr
            refine ⟨p, ?_⟩
            apply Exists.intro
            apply Exists.intro
            refine ⟨hp, ?_⟩
            apply And.intro
            · try simp only [World.store, List.append_assoc, List.cons_append, List.nil_append, if_pos,
                ite_ite_same]
              rfl
            · rename_i hc
              refine ⟨by simpa using hc, ?_, ?_⟩ <;> simp [deletions, stub_inits, hd1, hd2, hs1, hs2]
        · apply Or.inr
          apply Or.inl
          refine ⟨p, ?_⟩
          apply Exists.intro
          apply Exists.intro
          refine ⟨hp, ?_⟩
          apply And.intro
          · simp only [World.store, foreign_apply, bind_apply, modifyW_apply, set_struct_apply,
              pure_apply, List.append_assoc, List.cons_append, List.nil_append, if_pos, ite_ite_same]
            rfl
          · simp [deletions, stub_inits, hd1, hd2, hs1, hs2]

theorem initialize_runtime_outcome (w : World ε) (self : VALUE) (cur : ThreadId) :
    (∃ e x tr, initialize_runtime E self cur w
        = .raise e (({ w with ext := x, trace := w.trace ++ tr } : World ε).store self
            { w.objs self with interp := 0 })) ∨
    (∃ p x tr, p ≠ 0 ∧ initialize_runtime E self cur w
        = .ok self
            (({ w with ext := x,
                       trace := w.trace ++ tr,
                       live_instances := w.live_instances ++ [self],
                       tcl_stubs_initialized := true } : World ε).store self
              { w.objs self with interp := p, main_thread_id := cur })
        ∧ FCall.Tcl_CallWhenDeleted p self ∈ tr) ∨
    (∃ p x tr, p ≠ 0 ∧ initialize_runtime E self cur w
        = .crashed (({ w with ext := x, trace := w.trace ++ tr } : World ε).store self
            { w.objs self with interp := p })
        ∧ E.tclStubsPtr x = false) := by
  rcases initialize_runtime_paths E w self cur with
    ⟨x, tr, h, _, _⟩ | ⟨p, e, x, tr, hp, h, _, _, _⟩ | ⟨p, x, tr, hp, h, _, _, hmem⟩ |
    ⟨p, x, tr, hp, h, hs, _, _⟩
  · exact Or.inl ⟨_, x, tr, h⟩
  · exact Or.inl ⟨e, x, tr, h⟩
  · exact Or.inr (Or.inl ⟨p, x, tr, hp, h, hmem⟩)
  · exact Or.inr (Or.inr ⟨p, x, tr, hp, h, hs⟩)

theorem NUM2INT_outcome (v : RValue) (w : World ε) :
    (∃ e, NUM2INT v w = .raise e w) ∨ (∃ i, NUM2INT v w = .ok i w) := by
  cases v with
  | int i =>
    by_cases h : -2147483648 ≤ i ∧ i ≤ 2147483647
    · exact Or.inr ⟨i, by simp [NUM2INT, h]⟩
    · exact Or.inl ⟨⟨.RangeError, "integer " ++ toString i ++ " too big to convert to int"⟩,
        by simp only [NUM2INT, h, if_false, rb_raise_apply]⟩
  | nil => exact Or.inl ⟨_, rfl⟩
  | bool b => exact Or.inl ⟨_, rfl⟩
  | str s => exact Or.inl ⟨_, rfl⟩
  | sym s => exact Or.inl ⟨_, rfl⟩

theorem initialize_options_outcome (w : World ε) (self : VALUE)
    (opts : Option (List (String × RValue))) :
    (∃ e, initialize_options self opts w = .raise e w) ∨
    (∃ ms, initialize_options self opts w
        = .ok () (w.store self { w.objs self with timer_interval_ms := ms })) := by
  have hsame : (.ok () w : Res (World ε) Unit)
      = .ok () (w.store self { w.objs self with timer_interval_ms := (w.objs self).timer_interval_ms }) := by
    have h := store_self w self
    exact congrArg (Res.ok ()) h.symm
  cases opts with
  | none => exact Or.inr ⟨_, hsame⟩
  | some h =>
    cases hl : rb_hash_aref h "thread_timer_ms" with
    | none =>
      refine Or.inr ⟨(w.objs self).timer_interval_ms, ?_⟩
      simp only [initialize_options, hl]
      exact hsame
    | some val =>
      by_cases hn : NIL_P val = true
      · refine Or.inr ⟨(w.objs self).timer_interval_ms, ?_⟩
        simp only [initialize_options, hl, hn, Bool.not_true, Bool.false_eq_true, if_false]
        exact hsame
      · rcases NUM2INT_outcome val w with ⟨e, he⟩ | ⟨i, hi⟩
        · refine Or.inl ⟨e, ?_⟩
          simp [initialize_options, hl, hn, he]
        · by_cases hneg : i < 0
          · refine Or.inl
              ⟨⟨.ArgumentError, "thread_timer_ms must be >= 0 (got " ++ toString i ++ ")"⟩, ?_⟩
            simp [initialize_options, hl, hn, hi, hneg]
          · refine Or.inr ⟨i, ?_⟩
            simp [initialize_options, hl, hn, hi, hneg]

theorem interp_initialize_outcome (w : World ε) (self : VALUE) (name : RValue)
    (opts : Option (List (String × RValue))) (cur : ThreadId) :
    (∃ e, interp_initialize E self name opts cur w = .raise e w) ∨
    (∃ ms e x tr, interp_initialize E self name opts cur w
        = .raise e (({ w with ext := x, trace := w.trace ++ tr } : World ε).store self
            { w.objs self with timer_interval_ms := ms, interp := 0 })) ∨
    (∃ ms p x tr, p ≠ 0 ∧ interp_initialize E self name opts cur w
        = .ok self
            (({ w with ext := x,
                       trace := w.trace ++ tr,
                       live_instances := w.live_instances ++ [self],
                       tcl_stubs_initialized := true } : World ε).store self
              { w.objs self with timer_interval_ms := ms, interp := p, main_thread_id := cur })
        ∧ FCall.Tcl_CallWhenDeleted p self ∈ tr) ∨
    (∃ ms p x tr, p ≠ 0 ∧ interp_initialize E self name opts cur w
        = .crashed (({ w with ext := x, trace := w.trace ++ tr } : World ε).store self
            { w.objs self with timer_interval_ms := ms, interp := p })
        ∧ E.tclStubsPtr x = false) := by
  rcases initialize_options_outcome w self opts with ⟨e, he⟩ | ⟨ms, hms⟩
  · exact Or.inl ⟨e, by simp [ interp_initialize, he]⟩
  · right
    rcases initialize_runtime_outcome E
        (w.store self { w.objs self with timer_interval_ms := ms }) self cur with
      ⟨e, x, tr, h⟩ | ⟨p, x, tr, hp, h, hmem⟩ | ⟨p, x, tr, hp, h, hs⟩
    · refine Or.inl ⟨ms, e, x, tr, ?_⟩
      simp only [ interp_initialize, bind_apply, hms, h]
      simp [World.store, ite_ite_same]
    · refine Or.inr (Or.inl ⟨ms, p, x, tr, hp, ?_, hmem⟩)
      simp only [ interp_initialize, bind_apply, hms, h]
      simp [World.store, ite_ite_same]
    · refine Or.inr (Or.inr ⟨ms, p, x, tr, hp, ?_, hs⟩)
      simp only [ interp_initialize, bind_apply, hms, h]
      simp [World.store, ite_ite_same]

theorem interp_initialize_flags (w : World ε) (self : VALUE) (name : RValue)
    (opts : Option (List (String × RValue))) (cur : ThreadId)
    (hi : (w.objs self).interp = 0) (hd : (w.objs self).deleted = false) :
    (∃ w1, interp_initialize E self name opts cur w = .ok self w1 ∧
        (w1.objs self).interp ≠ 0 ∧ (w1.objs self).deleted = false) ∨
    (∃ e w1, interp_initialize E self name opts cur w = .raise e w1 ∧
        (w1.objs self).interp = 0 ∧ (w1.objs self).deleted = false) ∨
    (∃ w1, interp_initialize E self name opts cur w = .crashed w1 ∧
        E.tclStubsPtr w1.ext = false ∧
        (w1.objs self).interp ≠ 0 ∧ (w1.objs self).deleted = false) := by
  rcases interp_initialize_outcome E w self name opts cur with
    ⟨e, h⟩ | ⟨ms, e, x, tr, h⟩ | ⟨ms, p, x, tr, hp, h, _⟩ | ⟨ms, p, x, tr, hp, h, hs⟩
  · exact Or.inr (Or.inl ⟨e, w, h, hi, hd⟩)
  · exact Or.inr (Or.inl ⟨e, _, h, by simp, by simp [hd]⟩)
  · exact Or.inl ⟨_, h, by simpa using hp, by simp [hd]⟩
  · exact Or.inr (Or.inr ⟨_, h, by simpa [World.store] using hs, by simpa using hp, by simp [hd]⟩)

theorem interp_create_slave_ok (w w1 : World ε) (self new_ip : VALUE) (name safemode : RValue)
    (cur : ThreadId) (h : interp_create_slave E self name safemode cur w = .ok new_ip w1) :
    new_ip = w.n_objs ∧ (w.objs self).deleted = false ∧ (w.objs self).interp ≠ 0 ∧
    (w1.objs new_ip).interp ≠ 0 ∧ (w1.objs new_ip).deleted = false ∧
    FCall.Tcl_CallWhenDeleted (w1.objs new_ip).interp new_ip ∈ w1.trace := by
  by_cases hlive : (w.objs self).deleted = true ∨ (w.objs self).interp = 0
  · simp [interp_create_slave, get_interp_dead w self hlive] at h
  · have hd : (w.objs self).deleted = false := by
      cases hdd : (w.objs self).deleted
      · rfl
      · exact absurd (Or.inl hdd) hlive
    have hi : (w.objs self).interp ≠ 0 := fun e => hlive (Or.inr e)
    cases name with
    | str s =>
      simp only [interp_create_slave, bind_apply, get_interp_live w self hd hi, StringValue,
        pure_apply, foreign_apply] at h
      split at h
      · simp at h
      · rename_i hp
        simp only [bind_apply, getW_apply, Tcl_GetCurrentThread, foreign_apply, modifyW_apply,
          pure_apply, Res.ok.injEq] at h
        obtain ⟨h1, h2⟩ := h
        subst h2
        subst h1
        simp at hp
        simp [World.store, hd, hi, hp]
    | nil => simp [interp_create_slave, get_interp_live w self hd hi, StringValue] at h
    | bool b => simp [interp_create_slave, get_interp_live w self hd hi, StringValue] at h
    | int i => simp [interp_create_slave, get_interp_live w self hd hi, StringValue] at h
    | sym s => simp [interp_create_slave, get_interp_live w self hd hi, StringValue] at h

/-! ## Pointer and flag are left alone -/

section
variable {α β : Type}

theorem keeps_pure (a : α) : KeepsFlags (pure a : M ε α) := ⟨fun _ _ => ⟨rfl, rfl⟩⟩

theorem keeps_rb_raise (c : RClass) (msg : String) : KeepsFlags (rb_raise c msg : M ε α) :=
  ⟨fun _ _ => ⟨rfl, rfl⟩⟩

theorem keeps_rb_exc_raise (e : RException) : KeepsFlags (rb_exc_raise e : M ε α) :=
  ⟨fun _ _ => ⟨rfl, rfl⟩⟩

theorem keeps_getW : KeepsFlags (getW : M ε (World ε)) := ⟨fun _ _ => ⟨rfl, rfl⟩⟩

theorem keeps_get_struct (self : VALUE) : KeepsFlags (get_struct self : M ε tcltk_interp) :=
  ⟨fun _ _ => ⟨rfl, rfl⟩⟩

theorem keeps_foreign (l : FCall) (f : ε → α × ε) : KeepsFlags (foreign l f) :=
  ⟨fun _ _ => ⟨rfl, rfl⟩⟩

theorem keeps_foreign_code (l : FCall) (f : ε → TclOutcome × ε) : KeepsFlags (foreign_code l f) := by
  constructor
  intro w v
  unfold foreign_code
  cases (f w.ext).1 <;> exact ⟨rfl, rfl⟩

theorem keeps_modifyW (f : World ε → World ε) (hf : ∀ w, (f w).objs = w.objs) :
    KeepsFlags (modifyW f) := by
  constructor
  intro w v
  simp [Res.state, hf]

theorem keeps_set_struct (self : VALUE) (f : tcltk_interp → tcltk_interp)
    (hf : ∀ t, (f t).interp = t.interp ∧ (f t).deleted = t.deleted) :
    KeepsFlags (set_struct self f : M ε Unit) := by
  constructor
  intro w v
  by_cases hv : v = self
  · subst hv
    simpa [Res.state] using hf (w.objs v)
  · simp [Res.state, World.store, hv]

theorem keeps_bind (m : M ε α) (f : α → M ε β) (hm : KeepsFlags m) (hf : ∀ a, KeepsFlags (f a)) :
    KeepsFlags (m >>= f) := by
  constructor
  intro w v
  have h1 := hm.keep w v
  rw [bind_apply]
  cases hmw : m w with
  | ok a w1 =>
    rw [hmw] at h1
    have h2 := (hf a).keep w1 v
    simp only [Res.state] at h1
    exact ⟨h2.1.trans h1.1, h2.2.trans h1.2⟩
  | raise e w1 => rw [hmw] at h1; exact h1
  | blocked q w1 => rw [hmw] at h1; exact h1
  | out_of_fuel w1 => rw [hmw] at h1; exact h1
  | crashed w1 => rw [hmw] at h1; exact h1

theorem keeps_map (g : α → β) (m : M ε α) (hm : KeepsFlags m) : KeepsFlags (g <$> m) := by
  constructor
  intro w v
  have h1 := hm.keep w v
  rw [map_apply]
  cases hmw : m w <;> rw [hmw] at h1 <;> exact h1

theorem keeps_rb_protect (m : M ε α) (hm : KeepsFlags m) : KeepsFlags (rb_protect m) := by
  constructor
  intro w v
  have h1 := hm.keep w v
  rw [rb_protect_apply]
  cases hmw : m w <;> rw [hmw] at h1 <;> exact h1

theorem keeps_ite (c : Prop) [Decidable c] (a b : M ε α) (ha : KeepsFlags a) (hb : KeepsFlags b) :
    KeepsFlags (if c then a else b) := by
  by_cases h : c <;> simp [h, ha, hb]

end

theorem keeps_Queue_new : KeepsFlags (Queue_new : M ε QueueId) := ⟨fun _ _ => ⟨rfl, rfl⟩⟩

theorem keeps_Queue_push (q : QueueId) (r : Response) : KeepsFlags (Queue_push q r : M ε Unit) :=
  ⟨fun _ _ => ⟨rfl, rfl⟩⟩

theorem keeps_Queue_pop (q : QueueId) : KeepsFlags (Queue_pop q : M ε Response) := by
  constructor
  intro w v
  unfold Queue_pop
  cases w.queues q <;> exact ⟨rfl, rfl⟩

theorem keeps_out_of_fuel : KeepsFlags (fun w => .out_of_fuel w : M ε Unit) :=
  ⟨fun _ _ => ⟨rfl, rfl⟩⟩

theorem keeps_NUM2INT (v : RValue) : KeepsFlags (NUM2INT v : M ε Int) := by
  unfold NUM2INT
  repeat' first
    | exact keeps_pure _
    | exact keeps_rb_raise _ _
    | apply keeps_ite
    | split

theorem keeps_StringValue (v : RValue) : KeepsFlags (StringValue v : M ε String) := by
  unfold StringValue
  split
  · exact keeps_pure _
  · exact keeps_rb_raise _ _

theorem keeps_get_interp (self : VALUE) : KeepsFlags (get_interp self : M ε tcltk_interp) := by
  unfold get_interp
  refine keeps_bind _ _ (keeps_get_struct _) fun tip => ?_
  exact keeps_ite _ _ _ (keeps_rb_raise _ _) (keeps_pure _)

theorem keeps_callback_invoke (proc : ProcId) (args : List String) :
    KeepsFlags (callback_invoke E proc args) := by
  unfold callback_invoke
  refine keeps_bind _ _ (keeps_foreign _ _) ?_
  intro r
  cases r
  · exact keeps_pure _
  · exact keeps_rb_exc_raise _

theorem keeps_eval_ruby_string (code : String) : KeepsFlags (eval_ruby_string E code) := by
  unfold eval_ruby_string
  refine keeps_bind _ _ (keeps_foreign _ _) ?_
  intro r
  cases r
  · exact keeps_pure _
  · exact keeps_rb_exc_raise _

theorem keeps_invoke_words (args : List RValue) :
    KeepsFlags (invoke_words args : M ε (List String)) := by
  induction args with
  | nil => exact keeps_pure _
  | cons a rest ih =>
    unfold invoke_words
    apply keeps_bind
    · apply keeps_ite
      · exact keeps_pure _
      · exact keeps_StringValue _
    · intro s
      exact keeps_bind _ _ ih fun ss => keeps_pure _

theorem keeps_rb_thread_check_ints : KeepsFlags (rb_thread_check_ints E) := by
  unfold rb_thread_check_ints
  refine keeps_bind _ _ (keeps_foreign _ _) ?_
  intro r
  cases r
  · exact keeps_pure _
  · exact keeps_rb_exc_raise _

theorem keeps_ruby_callback_proc (clientData : VALUE) (interp : Ptr) (objv : List String) :
    KeepsFlags (ruby_callback_proc E clientData interp objv) := by
  unfold ruby_callback_proc
  repeat' first
    | intro _
    | exact keeps_pure _
    | exact keeps_rb_exc_raise _
    | exact keeps_rb_raise _ _
    | exact keeps_foreign _ _
    | exact keeps_get_struct _
    | exact keeps_callback_invoke E _ _
    | exact keeps_modifyW _ (fun _ => rfl)
    | apply keeps_rb_protect
    | apply keeps_bind
    | apply keeps_ite
    | split
    | dsimp only

theorem keeps_ruby_eval_proc (clientData : VALUE) (interp : Ptr) (objv : List String) :
    KeepsFlags (ruby_eval_proc E clientData interp objv) := by
  unfold ruby_eval_proc
  repeat' first
    | intro _
    | exact keeps_pure _
    | exact keeps_rb_exc_raise _
    | exact keeps_rb_raise _ _
    | exact keeps_foreign _ _
    | exact keeps_eval_ruby_string E _
    | apply keeps_rb_protect
    | apply keeps_bind
    | apply keeps_ite
    | split

theorem keeps_execute_queued_eval (tip : VALUE) (script : String) :
    KeepsFlags (execute_queued_eval E tip script) := by
  unfold execute_queued_eval Tcl_GetStringResult
  repeat' first
    | intro _
    | exact keeps_pure _
    | exact keeps_rb_raise _ _
    | exact keeps_foreign _ _
    | exact keeps_foreign_code _ _
    | exact keeps_get_struct _
    | apply keeps_bind
    | apply keeps_ite

theorem keeps_execute_queued_invoke (tip : VALUE) (argv : List RValue) :
    KeepsFlags (execute_queued_invoke E tip argv) := by
  unfold execute_queued_invoke Tcl_GetStringResult
  repeat' first
    | intro _
    | exact keeps_pure _
    | exact keeps_rb_raise _ _
    | exact keeps_foreign _ _
    | exact keeps_foreign_code _ _
    | exact keeps_get_struct _
    | exact keeps_invoke_words _
    | apply keeps_bind
    | apply keeps_ite

theorem keeps_ruby_thread_event_handler (tip : VALUE) :
    KeepsFlags (ruby_thread_event_handler E tip) := by
  unfold ruby_thread_event_handler execute_queued_proc
  repeat' first
    | intro _
    | exact keeps_pure _
    | exact keeps_rb_exc_raise _
    | exact keeps_get_struct _
    | exact keeps_Queue_push _ _
    | exact keeps_execute_queued_eval E _ _
    | exact keeps_execute_queued_invoke E _ _
    | exact keeps_callback_invoke E _ _
    | exact keeps_set_struct _ _ (fun _ => ⟨rfl, rfl⟩)
    | apply keeps_rb_protect
    | apply keeps_bind
    | apply keeps_ite
    | split

theorem keeps_queue_command_wait (q : QueueId) :
    KeepsFlags (queue_command_wait q : M ε RValue) := by
  unfold queue_command_wait
  refine keeps_bind _ _ (keeps_Queue_pop _) fun r => ?_
  split
  · exact keeps_rb_exc_raise _
  · exact keeps_pure _

theorem keeps_queue_command_internal (tip : VALUE) (kind : CmdKind) (wait : Bool)
    (cur : ThreadId) : KeepsFlags (queue_command_internal E tip kind wait cur) := by
  unfold queue_command_internal Tcl_GetCurrentThread
  repeat' first
    | intro _
    | exact keeps_pure _
    | exact keeps_foreign _ _
    | exact keeps_get_struct _
    | exact keeps_queue_command_wait _
    | exact keeps_map _ _ keeps_Queue_new
    | exact keeps_set_struct _ _ (fun _ => ⟨rfl, rfl⟩)
    | apply keeps_bind
    | apply keeps_ite
    | split

theorem keeps_interp_queue_for_main (self : VALUE) (proc : ProcId) (cur : ThreadId) :
    KeepsFlags (interp_queue_for_main E self proc cur) := by
  unfold interp_queue_for_main
  refine keeps_bind _ _ (keeps_get_struct _) fun tip => ?_
  apply keeps_ite
  · exact keeps_rb_raise _ _
  · exact keeps_queue_command_internal E _ _ _ _

theorem keeps_interp_on_main_thread_p (self : VALUE) (cur : ThreadId) :
    KeepsFlags (interp_on_main_thread_p self cur : M ε RValue) := by
  unfold interp_on_main_thread_p Tcl_GetCurrentThread
  refine keeps_bind _ _ (keeps_get_interp _) fun tip => ?_
  exact keeps_bind _ _ (keeps_foreign _ _) fun c => keeps_pure _

theorem keeps_interp_tcl_eval (self : VALUE) (script : RValue) (cur : ThreadId) :
    KeepsFlags (interp_tcl_eval E self script cur) := by
  unfold interp_tcl_eval Tcl_GetCurrentThread Tcl_GetStringResult
  repeat' first
    | intro _
    | exact keeps_pure _
    | exact keeps_rb_raise _ _
    | exact keeps_foreign _ _
    | exact keeps_foreign_code _ _
    | exact keeps_get_struct _
    | exact keeps_get_interp _
    | exact keeps_StringValue _
    | exact keeps_queue_command_internal E _ _ _ _
    | apply keeps_bind
    | apply keeps_ite

theorem keeps_interp_tcl_invoke (argv : List RValue) (self : VALUE) (cur : ThreadId) :
    KeepsFlags (interp_tcl_invoke E argv self cur) := by
  unfold interp_tcl_invoke Tcl_GetCurrentThread Tcl_GetStringResult
  repeat' first
    | intro _
    | exact keeps_pure _
    | exact keeps_rb_raise _ _
    | exact keeps_foreign _ _
    | exact keeps_foreign_code _ _
    | exact keeps_get_struct _
    | exact keeps_get_interp _
    | exact keeps_invoke_words _
    | exact keeps_queue_command_internal E _ _ _ _
    | apply keeps_bind
    | apply keeps_ite

theorem keeps_interp_tcl_get_var (self : VALUE) (name : RValue) :
    KeepsFlags (interp_tcl_get_var E self name) := by
  unfold interp_tcl_get_var
  repeat' first
    | intro _
    | exact keeps_pure _
    | exact keeps_foreign _ _
    | exact keeps_get_interp _
    | exact keeps_StringValue _
    | apply keeps_bind
    | split

theorem keeps_interp_tcl_set_var (self : VALUE) (name value : RValue) :
    KeepsFlags (interp_tcl_set_var E self name value) := by
  unfold interp_tcl_set_var
  repeat' first
    | intro _
    | exact keeps_pure _
    | exact keeps_rb_raise _ _
    | exact keeps_foreign _ _
    | exact keeps_get_interp _
    | exact keeps_StringValue _
    | apply keeps_bind
    | apply keeps_ite

theorem keeps_lib_do_one_event (argv : List RValue) : KeepsFlags (lib_do_one_event E argv) := by
  unfold lib_do_one_event
  repeat' first
    | intro _
    | exact keeps_pure _
    | exact keeps_foreign_code _ _
    | exact keeps_NUM2INT _
    | apply keeps_bind
    | split

theorem keeps_interp_do_one_event (argv : List RValue) (self : VALUE) :
    KeepsFlags (interp_do_one_event E argv self) :=
  keeps_lib_do_one_event E argv

theorem keeps_interp_safe_p (self : VALUE) : KeepsFlags (interp_safe_p E self) := by
  unfold interp_safe_p
  refine keeps_bind _ _ (keeps_get_interp _) fun tip => ?_
  exact keeps_bind _ _ (keeps_foreign _ _) fun c => keeps_pure _

theorem keeps_interp_tcl_version (self : VALUE) : KeepsFlags (interp_tcl_version E self) := by
  unfold interp_tcl_version
  repeat' first
    | intro _
    | exact keeps_pure _
    | exact keeps_foreign _ _
    | exact keeps_get_interp _
    | apply keeps_bind
    | split

theorem keeps_interp_tk_version (self : VALUE) : KeepsFlags (interp_tk_version E self) := by
  unfold interp_tk_version
  repeat' first
    | intro _
    | exact keeps_pure _
    | exact keeps_foreign _ _
    | exact keeps_get_interp _
    | apply keeps_bind
    | split

theorem keeps_keepalive_timer_proc (clientData : VALUE) :
    KeepsFlags (keepalive_timer_proc E clientData) := by
  unfold keepalive_timer_proc
  refine keeps_bind _ _ (keeps_get_struct _) fun tip => ?_
  apply keeps_ite
  · exact keeps_foreign _ _
  · exact keeps_pure _

theorem keeps_interp_mainloop_loop (self : VALUE) (fuel : Nat) :
    KeepsFlags (interp_mainloop_loop E self fuel) := by
  induction fuel with
  | zero =>
    unfold interp_mainloop_loop
    refine keeps_bind _ _ (keeps_foreign _ _) fun n => ?_
    apply keeps_ite
    · exact keeps_out_of_fuel
    · exact keeps_pure _
  | succ fuel ih =>
    unfold interp_mainloop_loop
    repeat' first
      | intro _
      | exact ih
      | exact keeps_pure _
      | exact keeps_foreign _ _
      | exact keeps_foreign_code _ _
      | exact keeps_get_struct _
      | exact keeps_rb_thread_check_ints E
      | apply keeps_bind
      | apply keeps_ite

theorem keeps_interp_mainloop (self : VALUE) (fuel : Nat) :
    KeepsFlags (interp_mainloop E self fuel) := by
  unfold interp_mainloop
  repeat' first
    | intro _
    | exact keeps_pure _
    | exact keeps_foreign _ _
    | exact keeps_get_interp _
    | exact keeps_interp_mainloop_loop E _ _
    | apply keeps_bind
    | apply keeps_ite

theorem keeps_interp_get_thread_timer_ms (self : VALUE) :
    KeepsFlags (interp_get_thread_timer_ms self : M ε RValue) := by
  unfold interp_get_thread_timer_ms
  exact keeps_bind _ _ (keeps_get_interp _) fun tip => keeps_pure _

theorem keeps_interp_set_thread_timer_ms (self : VALUE) (val : RValue) :
    KeepsFlags (interp_set_thread_timer_ms self val : M ε RValue) := by
  unfold interp_set_thread_timer_ms
  repeat' first
    | intro _
    | exact keeps_pure _
    | exact keeps_rb_raise _ _
    | exact keeps_get_interp _
    | exact keeps_NUM2INT _
    | exact keeps_set_struct _ _ (fun _ => ⟨rfl, rfl⟩)
    | apply keeps_bind
    | apply keeps_ite

theorem keeps_interp_tcl_split_list (self : VALUE) (list_str : RValue) :
    KeepsFlags (interp_tcl_split_list E self list_str) := by
  unfold interp_tcl_split_list Tcl_GetStringResult
  repeat' first
    | intro _
    | exact keeps_pure _
    | exact keeps_rb_raise _ _
    | exact keeps_foreign _ _
    | exact keeps_get_interp _
    | exact keeps_StringValue _
    | apply keeps_bind
    | apply keeps_ite

theorem keeps_interp_register_callback (self : VALUE) (proc : ProcId) :
    KeepsFlags (interp_register_callback self proc : M ε RValue) := by
  unfold interp_register_callback
  repeat' first
    | intro _
    | exact keeps_pure _
    | exact keeps_get_interp _
    | exact keeps_set_struct _ _ (fun _ => ⟨rfl, rfl⟩)
    | apply keeps_bind

theorem keeps_interp_unregister_callback (self : VALUE) (id : RValue) :
    KeepsFlags (interp_unregister_callback self id : M ε RValue) := by
  unfold interp_unregister_callback
  repeat' first
    | intro _
    | exact keeps_pure _
    | exact keeps_get_interp _
    | exact keeps_set_struct _ _ (fun _ => ⟨rfl, rfl⟩)
    | apply keeps_bind
    | split

/-! ## Callback dispatch and registry -/

theorem control_classes_exclusive (k : RClass) :
    (k.ancestors.contains .TkCallbackBreak = true →
      k.ancestors.contains .SystemExit = false ∧ k.ancestors.contains .Interrupt = false) ∧
    (k.ancestors.contains .TkCallbackContinue = true →
      k.ancestors.contains .SystemExit = false ∧ k.ancestors.contains .Interrupt = false ∧
      k.ancestors.contains .TkCallbackBreak = false) ∧
    (k.ancestors.contains .TkCallbackReturn = true →
      k.ancestors.contains .SystemExit = false ∧ k.ancestors.contains .Interrupt = false ∧
      k.ancestors.contains .TkCallbackBreak = false ∧
      k.ancestors.contains .TkCallbackContinue = false) := by
  induction k with
  | user n s ih => simpa [RClass.ancestors] using ih
  | _ => decide

theorem ruby_callback_proc_registered (w : World ε) (clientData : VALUE) (interp : Ptr)
    (objv : List String) (proc : ProcId) (hlen : 2 ≤ objv.length)
    (hreg : rb_hash_aref (w.objs clientData).callbacks (objv.getD 1 "") = some proc) :
    ruby_callback_proc E clientData interp objv w =
      match (E.rb_proc_call proc (objv.drop 2) w.ext).1 with
      | .value v =>
        if NIL_P v then
          .ok TCL_OK { w with ext := (E.rb_proc_call proc (objv.drop 2) w.ext).2,
                              trace := w.trace ++ [.rb_proc_call proc (objv.drop 2)] }
        else if contains_nul (rb_String v) then
          .raise ⟨.ArgumentError, "string contains null byte"⟩
            { w with ext := (E.rb_proc_call proc (objv.drop 2) w.ext).2,
                     trace := w.trace ++ [.rb_proc_call proc (objv.drop 2)] }
        else
          .ok TCL_OK
            { w with ext := (E.Tcl_SetResult interp (rb_String v)
                              (E.rb_proc_call proc (objv.drop 2) w.ext).2).2,
                     trace := w.trace ++ [.rb_proc_call proc (objv.drop 2),
                                          .Tcl_SetResult interp (rb_String v)] }
      | .raised e =>
        if rb_obj_is_kind_of e .SystemExit || rb_obj_is_kind_of e .Interrupt then
          .raise e { w with ext := (E.rb_proc_call proc (objv.drop 2) w.ext).2,
                            trace := w.trace ++ [.rb_proc_call proc (objv.drop 2)] }
        else if rb_obj_is_kind_of e .TkCallbackBreak then
          .ok TCL_BREAK { w with ext := (E.rb_proc_call proc (objv.drop 2) w.ext).2,
                                 trace := w.trace ++ [.rb_proc_call proc (objv.drop 2)] }
        else if rb_obj_is_kind_of e .TkCallbackContinue then
          .ok TCL_CONTINUE { w with ext := (E.rb_proc_call proc (objv.drop 2) w.ext).2,
                                    trace := w.trace ++ [.rb_proc_call proc (objv.drop 2)] }
        else if rb_obj_is_kind_of e .TkCallbackReturn then
          .ok TCL_RETURN { w with ext := (E.rb_proc_call proc (objv.drop 2) w.ext).2,
                                  trace := w.trace ++ [.rb_proc_call proc (objv.drop 2)] }
        else if contains_nul e.message then
          .raise ⟨.ArgumentError, "string contains null byte"⟩
            { w with ext := (E.rb_proc_call proc (objv.drop 2) w.ext).2,
                     trace := w.trace ++ [.rb_proc_call proc (objv.drop 2)] }
        else
          .ok TCL_ERROR
            { w with ext := (E.Tcl_SetResult interp e.message
                              (E.rb_proc_call proc (objv.drop 2) w.ext).2).2,
                     trace := w.trace ++ [.rb_proc_call proc (objv.drop 2),
                                          .Tcl_SetResult interp e.message] } := by
  have hlen2 : ¬ objv.length < 2 := by omega
  simp only [ruby_callback_proc, bind_apply, get_struct_apply, hlen2, if_false, hreg,
    modifyW_apply, rb_protect_apply, callback_invoke, foreign_apply]
  cases hout : (E.rb_proc_call proc (objv.drop 2) w.ext).1 with
  | value v =>
    cases hn : NIL_P v
    · cases hz : contains_nul (rb_String v) <;> simp [hn, hz, StringValueCStr]
    · simp [hn]
  | raised e =>
    simp only [rb_exc_raise_apply]
    cases hz : contains_nul e.message <;> split_ifs <;> simp_all [StringValueCStr]

theorem ruby_callback_proc_unknown (w : World ε) (clientData : VALUE) (interp : Ptr)
    (objv : List String) (hlen : 2 ≤ objv.length)
    (hreg : rb_hash_aref (w.objs clientData).callbacks (objv.getD 1 "") = none) :
    ruby_callback_proc E clientData interp objv w =
      .ok TCL_ERROR
        { w with ext := (E.Tcl_SetResult interp ("unknown callback id: " ++ objv.getD 1 "") w.ext).2,
                 trace := w.trace ++
                   [.Tcl_SetResult interp ("unknown callback id: " ++ objv.getD 1 "")] } := by
  have hlen2 : ¬ objv.length < 2 := by omega
  simp only [ruby_callback_proc, bind_apply, get_struct_apply, hlen2, if_false, hreg,
    foreign_apply, pure_apply]

theorem ruby_eval_proc_apply (w : World ε) (clientData : VALUE) (interp : Ptr)
    (objv : List String) (hlen : objv.length = 2) :
    ruby_eval_proc E clientData interp objv w =
      match (E.rb_eval_string (objv.getD 1 "") w.ext).1 with
      | .value v =>
        if NIL_P v then
          .ok TCL_OK { w with ext := (E.rb_eval_string (objv.getD 1 "") w.ext).2,
                              trace := w.trace ++ [.rb_eval_string (objv.getD 1 "")] }
        else if contains_nul (rb_String v) then
          .raise ⟨.ArgumentError, "string contains null byte"⟩
            { w with ext := (E.rb_eval_string (objv.getD 1 "") w.ext).2,
                     trace := w.trace ++ [.rb_eval_string (objv.getD 1 "")] }
        else
          .ok TCL_OK
            { w with ext := (E.Tcl_SetResult interp (rb_String v)
                              (E.rb_eval_string (objv.getD 1 "") w.ext).2).2,
                     trace := w.trace ++ [.rb_eval_string (objv.getD 1 ""),
                                          .Tcl_SetResult interp (rb_String v)] }
      | .raised e =>
        if rb_obj_is_kind_of e .SystemExit || rb_obj_is_kind_of e .Interrupt then
          .raise e { w with ext := (E.rb_eval_string (objv.getD 1 "") w.ext).2,
                            trace := w.trace ++ [.rb_eval_string (objv.getD 1 "")] }
        else if contains_nul e.message then
          .raise ⟨.ArgumentError, "string contains null byte"⟩
            { w with ext := (E.rb_eval_string (objv.getD 1 "") w.ext).2,
                     trace := w.trace ++ [.rb_eval_string (objv.getD 1 "")] }
        else
          .ok TCL_ERROR
            { w with ext := (E.Tcl_SetResult interp e.message
                              (E.rb_eval_string (objv.getD 1 "") w.ext).2).2,
                     trace := w.trace ++ [.rb_eval_string (objv.getD 1 ""),
                                          .Tcl_SetResult interp e.message] } := by
  have hlen2 : ¬ objv.length ≠ 2 := by simp [hlen]
  simp only [ruby_eval_proc, bind_apply, hlen2, if_false, rb_protect_apply, eval_ruby_string,
    foreign_apply]
  cases hout : (E.rb_eval_string (objv.getD 1 "") w.ext).1 with
  | value v =>
    cases hn : NIL_P v
    · cases hz : contains_nul (rb_String v) <;> simp [hn, hz, StringValueCStr]
    · simp [hn]
  | raised e =>
    simp only [rb_exc_raise_apply]
    cases hz : contains_nul e.message <;> split_ifs <;> simp_all [StringValueCStr]

theorem interp_register_callback_live (w : World ε) (self : VALUE) (proc : ProcId)
    (hd : (w.objs self).deleted = false) (hi : (w.objs self).interp ≠ 0) :
    interp_register_callback self proc w =
      .ok (.str ("cb" ++ toString (w.objs self).next_id))
        (w.store self
          { w.objs self with
            next_id := ((w.objs self).next_id + 1) % 2 ^ 64,
            callbacks := rb_hash_aset (w.objs self).callbacks
              ("cb" ++ toString (w.objs self).next_id) proc }) := by
  simp only [interp_register_callback, bind_apply, get_interp_live w self hd hi,
    set_struct_apply, pure_apply]

theorem interp_unregister_callback_live (w : World ε) (self : VALUE) (id : String)
    (hd : (w.objs self).deleted = false) (hi : (w.objs self).interp ≠ 0) :
    interp_unregister_callback self (.str id) w =
      .ok .nil
        (w.store self
          { w.objs self with callbacks := rb_hash_delete (w.objs self).callbacks id }) := by
  simp only [interp_unregister_callback, bind_apply, get_interp_live w self hd hi,
    set_struct_apply, pure_apply]

theorem interp_register_callback_ok (w w1 : World ε) (self : VALUE) (proc : ProcId)
    (id : String) (h : interp_register_callback self proc w = .ok (.str id) w1) :
    (w1.objs self).deleted = false ∧ (w1.objs self).interp ≠ 0 ∧
    rb_hash_aref (w1.objs self).callbacks id = some proc := by
  by_cases hlive : (w.objs self).deleted = true ∨ (w.objs self).interp = 0
  · simp [interp_register_callback, get_interp_dead w self hlive] at h
  · have hd : (w.objs self).deleted = false := by
      cases hdd : (w.objs self).deleted
      · rfl
      · exact absurd (Or.inl hdd) hlive
    have hi : (w.objs self).interp ≠ 0 := fun e => hlive (Or.inr e)
    rw [interp_register_callback_live w self proc hd hi] at h
    simp only [Res.ok.injEq, RValue.str.injEq] at h
    obtain ⟨h1, h2⟩ := h
    subst h2
    subst h1
    refine ⟨by simp [hd], by simp [hi], ?_⟩
    simp only [store_objs_same]
    exact rb_hash_aref_aset_self _ _ _

theorem control_kinds_exclusive (e : RException) :
    (rb_obj_is_kind_of e .TkCallbackBreak = true →
      rb_obj_is_kind_of e .SystemExit = false ∧ rb_obj_is_kind_of e .Interrupt = false) ∧
    (rb_obj_is_kind_of e .TkCallbackContinue = true →
      rb_obj_is_kind_of e .SystemExit = false ∧ rb_obj_is_kind_of e .Interrupt = false ∧
      rb_obj_is_kind_of e .TkCallbackBreak = false) ∧
    (rb_obj_is_kind_of e .TkCallbackReturn = true →
      rb_obj_is_kind_of e .SystemExit = false ∧ rb_obj_is_kind_of e .Interrupt = false ∧
      rb_obj_is_kind_of e .TkCallbackBreak = false ∧
      rb_obj_is_kind_of e .TkCallbackContinue = false) :=
  control_classes_exclusive e.klass

theorem ruby_thread_event_handler_fatal (w w2 : World ε) (tip : VALUE) (cmd : Cmd)
    (rest : List Cmd) (e : RException)
    (hq : (w.objs tip).thread_queue = cmd :: rest)
    (hexec : (match cmd.kind with
        | .eval script => execute_queued_eval E tip script
        | .invoke args => execute_queued_invoke E tip args
        | .proc proc => execute_queued_proc E proc)
        (w.store tip { w.objs tip with thread_queue := rest }) = .raise e w2)
    (hfatal : (rb_obj_is_kind_of e .SystemExit || rb_obj_is_kind_of e .Interrupt) = true) :
    ruby_thread_event_handler E tip w = .raise e w2 := by
  simp only [ruby_thread_event_handler, bind_apply, get_struct_apply, hq, set_struct_apply,
    rb_protect_apply, hexec, hfatal, if_true, rb_exc_raise_apply]

theorem ruby_callback_proc_calls (w : World ε) (clientData : VALUE) (interp : Ptr)
    (i : String) (args : List String) (c : ProcId)
    (hreg : rb_hash_aref (w.objs clientData).callbacks i = some c) :
    ∃ rest, (ruby_callback_proc E clientData interp ("ruby_callback" :: i :: args) w).state.trace
        = w.trace ++ .rb_proc_call c args :: rest ∧
      rest.length ≤ 1 ∧ ∀ x ∈ rest, ∃ t, x = .Tcl_SetResult interp t := by
  have hr := ruby_callback_proc_registered E w clientData interp ("ruby_callback" :: i :: args) c
    (by simp) (by simpa using hreg)
  simp only [List.drop_succ_cons, List.drop_zero] at hr
  rw [hr]
  cases hout : (E.rb_proc_call c args w.ext).1 with
  | value v =>
    cases hn : NIL_P v
    · cases hz : contains_nul (rb_String v)
      · exact ⟨[.Tcl_SetResult interp (rb_String v)], by simp [Res.state, hn, hz], by simp,
          by simp⟩
      · exact ⟨[], by simp [Res.state, hn, hz], by simp, by simp⟩
    · exact ⟨[], by simp [Res.state, hn], by simp, by simp⟩
  | raised e =>
    simp only
    split_ifs
    · exact ⟨[], by simp [Res.state], by simp, by simp⟩
    · exact ⟨[], by simp [Res.state], by simp, by simp⟩
    · exact ⟨[], by simp [Res.state], by simp, by simp⟩
    · exact ⟨[], by simp [Res.state], by simp, by simp⟩
    · exact ⟨[], by simp [Res.state], by simp, by simp⟩
    · exact ⟨[.Tcl_SetResult interp e.message], by simp [Res.state], by simp, by simp⟩

/-! ## Decimal printing is injective -/

theorem digit_value_digitChar (k : Nat) (hk : k < 10) :
    (Nat.digitChar k).toNat - 48 = k := by
  interval_cases k <;> decide

theorem decimal_value_foldl (ds : List Char) (a : Nat) :
    ds.foldl (fun acc c => 10 * acc + (c.toNat - 48)) a
      = a * 10 ^ ds.length + ds.foldl (fun acc c => 10 * acc + (c.toNat - 48)) 0 := by
  induction ds generalizing a with
  | nil => simp
  | cons d rest ih =>
    simp only [List.foldl_cons, List.length_cons]
    rw [ih (10 * a + (d.toNat - 48)), ih (10 * 0 + (d.toNat - 48))]
    ring

theorem decimal_value_toDigitsCore (fuel n : Nat) (ds : List Char) (h : n < fuel) :
    (Nat.toDigitsCore 10 fuel n ds).foldl (fun acc c => 10 * acc + (c.toNat - 48)) 0
      = n * 10 ^ ds.length + ds.foldl (fun acc c => 10 * acc + (c.toNat - 48)) 0 := by
  induction fuel generalizing n ds with
  | zero => omega
  | succ fuel ih =>
    have hmod : n % 10 < 10 := Nat.mod_lt n (by decide)
    have hd := digit_value_digitChar (n % 10) hmod
    by_cases h0 : n / 10 = 0
    · have hn : n % 10 = n := by omega
      simp only [Nat.toDigitsCore, h0, if_true, List.foldl_cons]
      rw [decimal_value_foldl, hd, hn]
      simp
    · have hlt : n / 10 < fuel := by omega
      simp only [Nat.toDigitsCore, h0, if_false]
      rw [ih (n / 10) _ hlt]
      simp only [List.length_cons, List.foldl_cons]
      rw [decimal_value_foldl ds, hd]
      have hn : n = 10 * (n / 10) + n % 10 := (Nat.div_add_mod n 10).symm
      generalize n / 10 = q at *
      generalize n % 10 = r at *
      subst hn
      ring

theorem decimal_value_repr (n : Nat) :
    (toString n).data.foldl (fun acc c => 10 * acc + (c.toNat - 48)) 0 = n := by
  show (Nat.repr n).data.foldl _ 0 = n
  simp only [Nat.repr, Nat.toDigits, List.asString]
  rw [decimal_value_toDigitsCore (n + 1) n [] (by omega)]
  simp

theorem toString_nat_injective (a b : Nat) (h : toString a = toString b) : a = b := by
  have ha := decimal_value_repr a
  rw [h, decimal_value_repr b] at ha
  exact ha.symm

theorem callback_id_injective (a b : Nat) (h : "cb" ++ toString a = "cb" ++ toString b) :
    a = b := by
  apply toString_nat_injective
  have h2 := congrArg String.data h
  simp only [String.data_append] at h2
  exact String.ext (List.append_cancel_left h2)

/-! ## Callback ids -/

theorem register_step (w : World ε) (self : VALUE) (proc : ProcId) (c : Nat)
    (hinv : RegistryBelow w self c) (hc : c + 1 < 2 ^ 64) :
    "cb" ++ toString c ∉ (w.objs self).callbacks.map Prod.fst ∧
    interp_register_callback self proc w
      = .ok (.str ("cb" ++ toString c))
          (w.store self
            { w.objs self with
              next_id := c + 1,
              callbacks := (w.objs self).callbacks ++ [("cb" ++ toString c, proc)] }) ∧
    RegistryBelow
      (w.store self
        { w.objs self with
          next_id := c + 1,
          callbacks := (w.objs self).callbacks ++ [("cb" ++ toString c, proc)] }) self (c + 1) := by
  obtain ⟨hd, hi, hn, hk⟩ := hinv
  have hfresh : "cb" ++ toString c ∉ (w.objs self).callbacks.map Prod.fst := by
    intro hmem
    obtain ⟨j, hj, he⟩ := hk _ hmem
    have := callback_id_injective c j he
    omega
  refine ⟨hfresh, ?_, ?_⟩
  · rw [interp_register_callback_live w self proc hd hi, hn, rb_hash_aset_absent _ _ _ hfresh,
      Nat.mod_eq_of_lt hc]
  · refine ⟨by simp [hd], by simp [hi], by simp, ?_⟩
    intro k hmem
    simp only [store_objs_same, List.map_append, List.map_cons, List.map_nil, List.mem_append,
      List.mem_singleton] at hmem
    rcases hmem with hmem | hmem
    · obtain ⟨j, hj, he⟩ := hk k hmem
      exact ⟨j, by omega, he⟩
    · exact ⟨c, by omega, hmem⟩

theorem unregister_step (w : World ε) (self : VALUE) (id : RValue) (c : Nat)
    (hinv : RegistryBelow w self c) :
    RegistryBelow (interp_unregister_callback self id w).state self c := by
  obtain ⟨hd, hi, hn, hk⟩ := hinv
  cases id with
  | str s =>
    rw [interp_unregister_callback_live w self s hd hi]
    refine ⟨by simp [Res.state, hd], by simp [Res.state, hi], by simp [Res.state, hn], ?_⟩
    intro k hmem
    apply hk
    simp only [Res.state, store_objs_same, rb_hash_delete, List.mem_map] at hmem ⊢
    obtain ⟨kv, hkv, he⟩ := hmem
    exact ⟨kv, (List.mem_filter.mp hkv).1, he⟩
  | nil =>
    have : interp_unregister_callback self .nil w = .ok .nil w := by
      simp only [interp_unregister_callback, bind_apply, get_interp_live w self hd hi, pure_apply]
    rw [this]; exact ⟨hd, hi, hn, hk⟩
  | bool b =>
    have : interp_unregister_callback self (.bool b) w = .ok .nil w := by
      simp only [interp_unregister_callback, bind_apply, get_interp_live w self hd hi, pure_apply]
    rw [this]; exact ⟨hd, hi, hn, hk⟩
  | int i =>
    have : interp_unregister_callback self (.int i) w = .ok .nil w := by
      simp only [interp_unregister_callback, bind_apply, get_interp_live w self hd hi, pure_apply]
    rw [this]; exact ⟨hd, hi, hn, hk⟩
  | sym s =>
    have : interp_unregister_callback self (.sym s) w = .ok .nil w := by
      simp only [interp_unregister_callback, bind_apply, get_interp_live w self hd hi, pure_apply]
    rw [this]; exact ⟨hd, hi, hn, hk⟩

theorem run_reg_ops_ids (self : VALUE) (ops : List RegOp) (w : World ε) (c : Nat)
    (hinv : RegistryBelow w self c) (hc : c + registrations ops < 2 ^ 64) :
    (run_reg_ops self ops w).1
      = (List.range (registrations ops)).map (fun k => RValue.str ("cb" ++ toString (c + k))) ∧
    RegistryBelow (run_reg_ops self ops w).2 self (c + registrations ops) := by
  induction ops generalizing w c with
  | nil => exact ⟨rfl, hinv⟩
  | cons op ops ih =>
    cases op with
    | register proc =>
      simp only [registrations] at hc ⊢
      obtain ⟨_, hreg, hinv1⟩ := register_step w self proc c hinv (by omega)
      obtain ⟨hids, hfin⟩ := ih _ (c + 1) hinv1 (by omega)
      simp only [run_reg_ops, hreg]
      refine ⟨?_, ?_⟩
      · rw [hids, List.range_succ_eq_map, List.map_cons, List.map_map]
        simp only [Nat.add_zero, List.cons.injEq, true_and]
        apply List.map_congr_left
        intro k _
        simp only [Function.comp, Nat.succ_eq_add_one]
        congr 3
        omega
      · have : c + 1 + registrations ops = c + (registrations ops + 1) := by omega
        rw [← this]; exact hfin
    | unregister id =>
      simp only [registrations] at hc ⊢
      simp only [run_reg_ops]
      exact ih _ c (unregister_step w self id c hinv) hc

theorem registrations_replicate (n : Nat) (proc : ProcId) :
    registrations (List.replicate n (.register proc)) = n := by
  induction n with
  | zero => rfl
  | succ n ih => rw [List.replicate_succ, registrations, ih]

theorem run_reg_ops_counter (self : VALUE) (ops : List RegOp) (w : World ε)
    (hd : (w.objs self).deleted = false) (hi : (w.objs self).interp ≠ 0)
    (hn : (w.objs self).next_id < 2 ^ 64) :
    ((run_reg_ops self ops w).2.objs self).deleted = false ∧
    ((run_reg_ops self ops w).2.objs self).interp ≠ 0 ∧
    ((run_reg_ops self ops w).2.objs self).next_id
      = ((w.objs self).next_id + registrations ops) % 2 ^ 64 := by
  induction ops generalizing w with
  | nil => exact ⟨hd, hi, (Nat.mod_eq_of_lt hn).symm⟩
  | cons op ops ih =>
    cases op with
    | register proc =>
      simp only [run_reg_ops, interp_register_callback_live w self proc hd hi, registrations]
      have h := ih
        (w.store self
          { w.objs self with
            next_id := ((w.objs self).next_id + 1) % 2 ^ 64,
            callbacks := rb_hash_aset (w.objs self).callbacks
              ("cb" ++ toString (w.objs self).next_id) proc })
        (by simp [hd]) (by simp [hi]) (by simp; exact Nat.mod_lt _ (by norm_num))
      refine ⟨h.1, h.2.1, ?_⟩
      rw [h.2.2]
      simp only [store_objs_same]
      omega
    | unregister id =>
      simp only [run_reg_ops, registrations]
      have hk := (keeps_interp_unregister_callback self id : KeepsFlags
        (interp_unregister_callback self id : M ε RValue)).keep w self
      have hnext : ((interp_unregister_callback self id w).state.objs self).next_id
          = (w.objs self).next_id := by
        cases id <;>
          simp [interp_unregister_callback, get_interp_live w self hd hi, Res.state]
      have h := ih (interp_unregister_callback self id w).state
        (by rw [hk.2]; exact hd) (by rw [hk.1]; exact hi) (by rw [hnext]; exact hn)
      rw [hnext] at h
      exact h

/-! ## Calls that only call out -/

section
variable {α β : Type}

theorem fo_pure (a : α) : ForeignOnly (pure a : M ε α) := ⟨fun _ => rfl⟩

theorem fo_rb_raise (c : RClass) (msg : String) : ForeignOnly (rb_raise c msg : M ε α) :=
  ⟨fun _ => rfl⟩

theorem fo_rb_exc_raise (e : RException) : ForeignOnly (rb_exc_raise e : M ε α) :=
  ⟨fun _ => rfl⟩

theorem fo_get_struct (self : VALUE) : ForeignOnly (get_struct self : M ε tcltk_interp) :=
  ⟨fun _ => rfl⟩

theorem fo_foreign (l : FCall) (f : ε → α × ε) : ForeignOnly (foreign l f) := ⟨fun _ => rfl⟩

theorem fo_foreign_code (l : FCall) (f : ε → TclOutcome × ε) : ForeignOnly (foreign_code l f) := by
  constructor
  intro w
  unfold foreign_code
  cases (f w.ext).1 <;> rfl

theorem fo_bind (m : M ε α) (f : α → M ε β) (hm : ForeignOnly m) (hf : ∀ a, ForeignOnly (f a)) :
    ForeignOnly (m >>= f) := by
  constructor
  intro w
  have h1 := hm.keep w
  rw [bind_apply]
  cases hmw : m w with
  | ok a w1 =>
    rw [hmw] at h1
    exact ((hf a).keep w1).trans h1
  | raise e w1 => rw [hmw] at h1; exact h1
  | blocked q w1 => rw [hmw] at h1; exact h1
  | out_of_fuel w1 => rw [hmw] at h1; exact h1
  | crashed w1 => rw [hmw] at h1; exact h1

theorem fo_rb_protect (m : M ε α) (hm : ForeignOnly m) : ForeignOnly (rb_protect m) := by
  constructor
  intro w
  have h1 := hm.keep w
  rw [rb_protect_apply]
  cases hmw : m w <;> rw [hmw] at h1 <;> exact h1

theorem fo_ite (c : Prop) [Decidable c] (a b : M ε α) (ha : ForeignOnly a) (hb : ForeignOnly b) :
    ForeignOnly (if c then a else b) := by
  by_cases h : c <;> simp [h, ha, hb]

end

theorem fo_StringValue (v : RValue) : ForeignOnly (StringValue v : M ε String) := by
  unfold StringValue
  split
  · exact fo_pure _
  · exact fo_rb_raise _ _

theorem fo_invoke_words (args : List RValue) :
    ForeignOnly (invoke_words args : M ε (List String)) := by
  induction args with
  | nil => exact fo_pure _
  | cons a rest ih =>
    unfold invoke_words
    apply fo_bind
    · apply fo_ite
      · exact fo_pure _
      · exact fo_StringValue _
    · intro s
      exact fo_bind _ _ ih fun ss => fo_pure _

theorem fo_callback_invoke (proc : ProcId) (args : List String) :
    ForeignOnly (callback_invoke E proc args) := by
  unfold callback_invoke
  refine fo_bind _ _ (fo_foreign _ _) ?_
  intro r
  cases r
  · exact fo_pure _
  · exact fo_rb_exc_raise _

theorem fo_execute_queued_eval (tip : VALUE) (script : String) :
    ForeignOnly (execute_queued_eval E tip script) := by
  unfold execute_queued_eval Tcl_GetStringResult
  repeat' first
    | intro _
    | exact fo_pure _
    | exact fo_rb_raise _ _
    | exact fo_foreign _ _
    | exact fo_foreign_code _ _
    | exact fo_get_struct _
    | apply fo_bind
    | apply fo_ite

theorem fo_execute_queued_invoke (tip : VALUE) (argv : List RValue) :
    ForeignOnly (execute_queued_invoke E tip argv) := by
  unfold execute_queued_invoke Tcl_GetStringResult
  repeat' first
    | intro _
    | exact fo_pure _
    | exact fo_rb_raise _ _
    | exact fo_foreign _ _
    | exact fo_foreign_code _ _
    | exact fo_get_struct _
    | exact fo_invoke_words _
    | apply fo_bind
    | apply fo_ite

theorem fo_execute_queued (tip : VALUE) (kind : CmdKind) :
    ForeignOnly (execute_queued E tip kind) := by
  cases kind with
  | eval script => exact fo_execute_queued_eval E tip script
  | invoke args => exact fo_execute_queued_invoke E tip args
  | proc proc => exact fo_callback_invoke E proc []

/-! ## One handler run -/

theorem ruby_thread_event_handler_empty (w : World ε) (tip : VALUE)
    (hq : (w.objs tip).thread_queue = []) :
    ruby_thread_event_handler E tip w = .ok 1 w := by
  simp only [ruby_thread_event_handler, bind_apply, get_struct_apply, hq, pure_apply]

theorem ruby_thread_event_handler_cons (w : World ε) (tip : VALUE) (cmd : Cmd) (rest : List Cmd)
    (hq : (w.objs tip).thread_queue = cmd :: rest) :
    ruby_thread_event_handler E tip w
      = run_queued_command E tip cmd (w.store tip { w.objs tip with thread_queue := rest }) := by
  simp only [ruby_thread_event_handler, bind_apply, get_struct_apply, hq, set_struct_apply,
    run_queued_command, execute_queued]

theorem run_queued_command_ok (w w2 : World ε) (tip : VALUE) (cmd : Cmd) (v : RValue)
    (hexec : execute_queued E tip cmd.kind w = .ok v w2) :
    run_queued_command E tip cmd w = .ok 1 (w2.publish cmd.queue ⟨v, none⟩) := by
  simp only [run_queued_command, bind_apply, rb_protect_apply, hexec]
  cases cmd.queue <;> simp [World.publish, Queue_push]

theorem run_queued_command_error (w w2 : World ε) (tip : VALUE) (cmd : Cmd) (e : RException)
    (hexec : execute_queued E tip cmd.kind w = .raise e w2)
    (hnf : (rb_obj_is_kind_of e .SystemExit || rb_obj_is_kind_of e .Interrupt) = false) :
    run_queued_command E tip cmd w = .ok 1 (w2.publish cmd.queue ⟨.nil, some e⟩) := by
  simp only [run_queued_command, bind_apply, rb_protect_apply, hexec, hnf]
  cases cmd.queue <;> simp [World.publish, Queue_push]

theorem run_queued_command_fatal (w w2 : World ε) (tip : VALUE) (cmd : Cmd) (e : RException)
    (hexec : execute_queued E tip cmd.kind w = .raise e w2)
    (hf : (rb_obj_is_kind_of e .SystemExit || rb_obj_is_kind_of e .Interrupt) = true) :
    run_queued_command E tip cmd w = .raise e w2 := by
  simp only [run_queued_command, bind_apply, rb_protect_apply, hexec, hf, if_true,
    rb_exc_raise_apply]

/-! ## Calls that return -/

section
variable {α β : Type}

theorem ret_pure (a : α) : Returns (pure a : M ε α) := ⟨fun w => .inl ⟨a, w, rfl⟩⟩

theorem ret_rb_raise (c : RClass) (msg : String) : Returns (rb_raise c msg : M ε α) :=
  ⟨fun w => .inr ⟨_, w, rfl⟩⟩

theorem ret_rb_exc_raise (e : RException) : Returns (rb_exc_raise e : M ε α) :=
  ⟨fun w => .inr ⟨e, w, rfl⟩⟩

theorem ret_get_struct (self : VALUE) : Returns (get_struct self : M ε tcltk_interp) :=
  ⟨fun w => .inl ⟨_, w, rfl⟩⟩

theorem ret_foreign (l : FCall) (f : ε → α × ε) : Returns (foreign l f) :=
  ⟨fun w => .inl ⟨_, _, rfl⟩⟩

theorem ret_foreign_code (l : FCall) (f : ε → TclOutcome × ε) : Returns (foreign_code l f) := by
  constructor
  intro w
  unfold foreign_code
  cases (f w.ext).1
  · exact .inl ⟨_, _, rfl⟩
  · exact .inr ⟨_, _, rfl⟩

theorem ret_bind (m : M ε α) (f : α → M ε β) (hm : Returns m) (hf : ∀ a, Returns (f a)) :
    Returns (m >>= f) := by
  constructor
  intro w
  rw [bind_apply]
  rcases hm.ret w with ⟨a, w1, h⟩ | ⟨e, w1, h⟩
  · rw [h]
    exact (hf a).ret w1
  · rw [h]
    exact .inr ⟨e, w1, rfl⟩

theorem ret_ite (c : Prop) [Decidable c] (a b : M ε α) (ha : Returns a) (hb : Returns b) :
    Returns (if c then a else b) := by
  by_cases h : c <;> simp [h, ha, hb]

end

theorem ret_StringValue (v : RValue) : Returns (StringValue v : M ε String) := by
  unfold StringValue
  split
  · exact ret_pure _
  · exact ret_rb_raise _ _

theorem ret_invoke_words (args : List RValue) :
    Returns (invoke_words args : M ε (List String)) := by
  induction args with
  | nil => exact ret_pure _
  | cons a rest ih =>
    unfold invoke_words
    apply ret_bind
    · apply ret_ite
      · exact ret_pure _
      · exact ret_StringValue _
    · intro s
      exact ret_bind _ _ ih fun ss => ret_pure _

theorem ret_callback_invoke (proc : ProcId) (args : List String) :
    Returns (callback_invoke E proc args) := by
  unfold callback_invoke
  refine ret_bind _ _ (ret_foreign _ _) ?_
  intro r
  cases r
  · exact ret_pure _
  · exact ret_rb_exc_raise _

theorem ret_execute_queued_eval (tip : VALUE) (script : String) :
    Returns (execute_queued_eval E tip script) := by
  unfold execute_queued_eval Tcl_GetStringResult
  repeat' first
    | intro _
    | exact ret_pure _
    | exact ret_rb_raise _ _
    | exact ret_foreign _ _
    | exact ret_foreign_code _ _
    | exact ret_get_struct _
    | apply ret_bind
    | apply ret_ite

theorem ret_execute_queued_invoke (tip : VALUE) (argv : List RValue) :
    Returns (execute_queued_invoke E tip argv) := by
  unfold execute_queued_invoke Tcl_GetStringResult
  repeat' first
    | intro _
    | exact ret_pure _
    | exact ret_rb_raise _ _
    | exact ret_foreign _ _
    | exact ret_foreign_code _ _
    | exact ret_get_struct _
    | exact ret_invoke_words _
    | apply ret_bind
    | apply ret_ite

theorem ret_execute_queued (tip : VALUE) (kind : CmdKind) :
    Returns (execute_queued E tip kind) := by
  cases kind with
  | eval script => exact ret_execute_queued_eval E tip script
  | invoke args => exact ret_execute_queued_invoke E tip args
  | proc proc => exact ret_callback_invoke E proc []

/-! ## Posting a command -/

theorem invoke_words_eq (argv : List RValue) (w : World ε) :
    invoke_words argv w
      = match words_of argv with
        | .ok ws => .ok ws w
        | .error e => .raise e w := by
  induction argv with
  | nil => rfl
  | cons a rest ih =>
    cases a <;> simp [invoke_words, words_of, NIL_P, StringValue, ih] <;>
      cases words_of rest <;> rfl

theorem queue_command_internal_post (w : World ε) (tip : VALUE) (kind : CmdKind) (cur : ThreadId) :
    queue_command_internal E tip kind false cur w
      = .ok .nil
          { w with
            ext := posted_ext E (w.objs tip).main_thread_id tip cur w.ext
            trace := w.trace ++ posted_calls (w.objs tip).main_thread_id tip cur
            objs := fun v => if v = tip then
              { w.objs tip with thread_queue := (w.objs tip).thread_queue ++ [⟨kind, none⟩] }
              else w.objs v } := by
  by_cases h : cur = (w.objs tip).main_thread_id
  · simp [queue_command_internal, Tcl_GetCurrentThread, World.store, posted_ext, posted_calls, h]
  · simp [queue_command_internal, Tcl_GetCurrentThread, World.store, posted_ext, posted_calls, h]

theorem queue_command_internal_blocks (w : World ε) (tip : VALUE) (kind : CmdKind)
    (cur : ThreadId) :
    queue_command_internal E tip kind true cur w
      = .blocked w.n_queues
          { w with
            ext := posted_ext E (w.objs tip).main_thread_id tip cur w.ext
            trace := w.trace ++ posted_calls (w.objs tip).main_thread_id tip cur
            objs := fun v => if v = tip then
              { w.objs tip with
                thread_queue := (w.objs tip).thread_queue ++ [⟨kind, some w.n_queues⟩] }
              else w.objs v
            queues := fun q => if q = w.n_queues then [] else w.queues q
            n_queues := w.n_queues + 1 } := by
  by_cases h : cur = (w.objs tip).main_thread_id
  · simp [queue_command_internal, Tcl_GetCurrentThread, World.store, posted_ext, posted_calls, h,
      Queue_new, queue_command_wait, Queue_pop]
  · simp [queue_command_internal, Tcl_GetCurrentThread, World.store, posted_ext, posted_calls, h,
      Queue_new, queue_command_wait, Queue_pop]

/-! ## The two paths of `tcl_eval` and `tcl_invoke` -/

theorem interp_tcl_invoke_direct (w : World ε) (self : VALUE) (argv : List RValue)
    (hd : (w.objs self).deleted = false) (hi : (w.objs self).interp ≠ 0) (hargv : argv ≠ []) :
    interp_tcl_invoke E argv self (w.objs self).main_thread_id w
      = execute_queued_invoke E self argv w.asked := by
  cases hw : words_of argv <;>
    simp [interp_tcl_invoke, get_interp_live, hd, hi, Tcl_GetCurrentThread,
      execute_queued_invoke, World.asked, hargv, invoke_words_eq, hw]

theorem interp_tcl_invoke_queued (w : World ε) (self : VALUE) (argv : List RValue)
    (cur : ThreadId)
    (hd : (w.objs self).deleted = false) (hi : (w.objs self).interp ≠ 0) (hargv : argv ≠ [])
    (hcur : cur ≠ (w.objs self).main_thread_id) :
    interp_tcl_invoke E argv self cur w
      = queue_command_internal E self (.invoke argv) true cur w.asked := by
  simp [interp_tcl_invoke, get_interp_live, hd, hi, Tcl_GetCurrentThread, World.asked, hcur, hargv]

theorem execute_queued_invoke_code (w : World ε) (tip : VALUE) (argv : List RValue)
    (ws : List String) (c : Int) (hw : words_of argv = .ok ws)
    (h : (E.Tcl_EvalObjv (w.objs tip).interp ws w.ext).1 = .code c) :
    execute_queued_invoke E tip argv w
      = (if c ≠ TCL_OK then
          Res.raise ⟨.TclError, (E.Tcl_GetStringResult (w.objs tip).interp
            (E.Tcl_EvalObjv (w.objs tip).interp ws w.ext).2).1⟩
        else
          Res.ok (.str (E.Tcl_GetStringResult (w.objs tip).interp
            (E.Tcl_EvalObjv (w.objs tip).interp ws w.ext).2).1))
          { w with
            ext := (E.Tcl_GetStringResult (w.objs tip).interp
              (E.Tcl_EvalObjv (w.objs tip).interp ws w.ext).2).2
            trace := w.trace ++ [.Tcl_EvalObjv (w.objs tip).interp ws,
              .Tcl_GetStringResult (w.objs tip).interp] } := by
  by_cases hc : c = TCL_OK <;>
    simp [execute_queued_invoke, invoke_words_eq, hw, foreign_code, h, Tcl_GetStringResult, hc,
      rb_raise]

theorem execute_queued_invoke_unwound (w : World ε) (tip : VALUE) (argv : List RValue)
    (ws : List String) (e : RException) (hw : words_of argv = .ok ws)
    (h : (E.Tcl_EvalObjv (w.objs tip).interp ws w.ext).1 = .unwound e) :
    execute_queued_invoke E tip argv w
      = .raise e { w with
          ext := (E.Tcl_EvalObjv (w.objs tip).interp ws w.ext).2
          trace := w.trace ++ [.Tcl_EvalObjv (w.objs tip).interp ws] } := by
  simp [execute_queued_invoke, invoke_words_eq, hw, foreign_code, h]

theorem execute_queued_invoke_type_error (w : World ε) (tip : VALUE) (argv : List RValue)
    (e : RException) (hw : words_of argv = .error e) :
    execute_queued_invoke E tip argv w = .raise e w := by
  simp [execute_queued_invoke, invoke_words_eq, hw]

/-! ## A blocking call, served -/

theorem bridge_objs (w w2 : World ε) (h : w2.bridge = w.bridge) : w2.objs = w.objs := by
  simp only [World.bridge, Prod.mk.injEq] at h
  exact h.1

theorem bridge_queues (w w2 : World ε) (h : w2.bridge = w.bridge) : w2.queues = w.queues := by
  simp only [World.bridge, Prod.mk.injEq] at h
  exact h.2.2.1

theorem execute_queued_objs (w w2 : World ε) (tip : VALUE) (kind : CmdKind)
    (h : (execute_queued E tip kind w).state = w2) : w2.objs = w.objs :=
  bridge_objs w w2 (h ▸ (fo_execute_queued E tip kind).keep w)

theorem execute_queued_queues (w w2 : World ε) (tip : VALUE) (kind : CmdKind)
    (h : (execute_queued E tip kind w).state = w2) : w2.queues = w.queues :=
  bridge_queues w w2 (h ▸ (fo_execute_queued E tip kind).keep w)

theorem queue_command_wait_value (w : World ε) (q : QueueId) (v : RValue) (rest : List Response)
    (h : w.queues q = ⟨v, none⟩ :: rest) :
    queue_command_wait q w
      = .ok v { w with queues := fun k => if k = q then rest else w.queues k } := by
  simp [queue_command_wait, Queue_pop, h]

theorem queue_command_wait_exception (w : World ε) (q : QueueId) (v : RValue) (e : RException)
    (rest : List Response) (h : w.queues q = ⟨v, some e⟩ :: rest) :
    queue_command_wait q w
      = .raise e { w with queues := fun k => if k = q then rest else w.queues k } := by
  simp [queue_command_wait, Queue_pop, h, rb_exc_raise]

theorem publish_queues_self (w : World ε) (q : QueueId) (r : Response) :
    (w.publish (some q) r).queues q = w.queues q ++ [r] := by
  simp [World.publish]

theorem publish_queues_other (w : World ε) (q k : QueueId) (r : Response) (h : k ≠ q) :
    (w.publish (some q) r).queues k = w.queues k := by
  simp [World.publish, h]

theorem publish_objs (w : World ε) (queue : Option QueueId) (r : Response) :
    (w.publish queue r).objs = w.objs := by
  cases queue <;> rfl

theorem publish_pop (w : World ε) (q : QueueId) (r : Response) (h : w.queues q = []) :
    ({ w.publish (some q) r with
        queues := fun k => if k = q then [] else (w.publish (some q) r).queues k } : World ε)
      = w := by
  cases w with
  | mk ext trace objs n_objs queues n_queues live stubs timer depth =>
    simp only [World.publish, World.mk.injEq, true_and, and_true]
    funext k
    by_cases hk : k = q
    · simp only [hk, if_true]
      exact h.symm
    · simp only [hk, if_false]

theorem served_fatal (w w1 w2 : World ε) (tip : VALUE) (m : M ε RValue) (q : QueueId)
    (cmd : Cmd) (rest : List Cmd) (e : RException)
    (hm : m w = .blocked q w1)
    (hq : (w1.objs tip).thread_queue = cmd :: rest)
    (hexec : execute_queued E tip cmd.kind (w1.store tip { w1.objs tip with thread_queue := rest })
      = .raise e w2)
    (hf : (rb_obj_is_kind_of e .SystemExit || rb_obj_is_kind_of e .Interrupt) = true) :
    served E tip m w = .blocked q w2 := by
  simp only [served, hm, ruby_thread_event_handler_cons E w1 tip cmd rest hq,
    run_queued_command_fatal E _ w2 tip cmd e hexec hf]

theorem served_returned (w : World ε) (tip : VALUE) (m : M ε RValue)
    (h : (m w).outcome ≠ none) : served E tip m w = m w := by
  unfold served
  cases hm : m w <;> simp_all [Res.outcome]

/-! ## The same command on the two paths -/

theorem words_of_error (argv : List RValue) (e : RException) (h : words_of argv = .error e) :
    e.klass = .TypeError := by
  induction argv generalizing e with
  | nil => simp [words_of] at h
  | cons a rest ih =>
    cases hr : words_of rest with
    | error e2 =>
      cases a <;> simp [words_of, NIL_P, hr] at h <;> first
        | (subst h; rfl)
        | (subst h; exact ih _ hr)
    | ok ss =>
      cases a <;> simp [words_of, NIL_P, hr] at h <;> (subst h; rfl)

theorem execute_queued_invoke_raise (w w2 : World ε) (tip : VALUE) (argv : List RValue)
    (e : RException) (h : execute_queued_invoke E tip argv w = .raise e w2) :
    e.klass = .TclError ∨ e.klass = .TypeError ∨
    ∃ ws, words_of argv = .ok ws ∧
      (E.Tcl_EvalObjv (w.objs tip).interp ws w.ext).1 = .unwound e := by
  cases hw : words_of argv with
  | error e2 =>
    rw [execute_queued_invoke_type_error E w tip argv e2 hw] at h
    simp only [Res.raise.injEq] at h
    right
    left
    rw [← h.1]
    exact words_of_error argv e2 hw
  | ok ws =>
    cases ha : (E.Tcl_EvalObjv (w.objs tip).interp ws w.ext).1 with
    | code c =>
      rw [execute_queued_invoke_code E w tip argv ws c hw ha] at h
      by_cases hc : c = TCL_OK
      · simp [hc] at h
      · simp only [ne_eq, hc, not_false_eq_true, if_true, Res.raise.injEq] at h
        left
        rw [← h.1]
    | unwound e2 =>
      rw [execute_queued_invoke_unwound E w tip argv ws e2 hw ha] at h
      simp only [Res.raise.injEq] at h
      right
      right
      exact ⟨ws, rfl, by rw [← h.1]; exact ha⟩

theorem enqueue_thread_queue (w : World ε) (tip : VALUE) (kind : CmdKind) (wait : Bool)
    (cur : ThreadId) :
    ((queue_command_internal E tip kind wait cur w).state.objs tip).thread_queue
      = (w.objs tip).thread_queue ++ [⟨kind, if wait then some w.n_queues else none⟩] := by
  cases wait
  · simp [queue_command_internal_post, Res.state]
  · simp [queue_command_internal_blocks, Res.state]

theorem run_queued_command_objs (w : World ε) (tip : VALUE) (cmd : Cmd) :
    (run_queued_command E tip cmd w).state.objs = w.objs := by
  rcases (ret_execute_queued E tip cmd.kind).ret w with ⟨v, w2, h⟩ | ⟨e, w2, h⟩
  · rw [run_queued_command_ok E w w2 tip cmd v h]
    simp only [Res.state, publish_objs]
    exact execute_queued_objs E w w2 tip cmd.kind (by rw [h]; rfl)
  · cases hf : (rb_obj_is_kind_of e .SystemExit || rb_obj_is_kind_of e .Interrupt)
    · rw [run_queued_command_error E w w2 tip cmd e h hf]
      simp only [Res.state, publish_objs]
      exact execute_queued_objs E w w2 tip cmd.kind (by rw [h]; rfl)
    · rw [run_queued_command_fatal E w w2 tip cmd e h hf]
      exact execute_queued_objs E w w2 tip cmd.kind (by rw [h]; rfl)

theorem handler_thread_queue (w : World ε) (tip : VALUE) :
    ((ruby_thread_event_handler E tip w).state.objs tip).thread_queue
      = (w.objs tip).thread_queue.drop 1 := by
  cases hq : (w.objs tip).thread_queue with
  | nil =>
    rw [ruby_thread_event_handler_empty E w tip hq]
    simp [Res.state, hq]
  | cons cmd rest =>
    rw [ruby_thread_event_handler_cons E w tip cmd rest hq, run_queued_command_objs]
    simp [World.store]

theorem run_schedule_invariant (tip : VALUE) (steps : List QStep) (w : World ε) :
    (run_schedule E tip steps w).executed ++ ((run_schedule E tip steps w).final.objs tip).thread_queue
      = (w.objs tip).thread_queue ++ (run_schedule E tip steps w).enqueued := by
  induction steps generalizing w with
  | nil => simp [run_schedule]
  | cons step steps ih =>
    cases step with
    | enqueue kind wait cur =>
      simp only [run_schedule]
      rw [ih, enqueue_thread_queue]
      simp
    | run =>
      simp only [run_schedule]
      rw [List.append_assoc, ih, handler_thread_queue, ← List.append_assoc, List.take_append_drop]

theorem run_schedule_append (tip : VALUE) (a b : List QStep) (w : World ε) :
    run_schedule E tip (a ++ b) w
      = ⟨(run_schedule E tip a w).enqueued
            ++ (run_schedule E tip b (run_schedule E tip a w).final).enqueued,
          (run_schedule E tip a w).executed
            ++ (run_schedule E tip b (run_schedule E tip a w).final).executed,
          (run_schedule E tip b (run_schedule E tip a w).final).final⟩ := by
  induction a generalizing w with
  | nil => simp [run_schedule]
  | cons step steps ih =>
    cases step with
    | enqueue kind wait cur => simp [run_schedule, ih]
    | run => simp [run_schedule, ih]

theorem run_schedule_enqueues (tip : VALUE) (cmds : List (CmdKind × Bool × ThreadId))
    (w : World ε) :
    (run_schedule E tip (cmds.map fun c => .enqueue c.1 c.2.1 c.2.2) w).executed = [] ∧
    (run_schedule E tip (cmds.map fun c => .enqueue c.1 c.2.1 c.2.2) w).enqueued.map Cmd.kind
      = cmds.map Prod.fst := by
  induction cmds generalizing w with
  | nil => simp [run_schedule]
  | cons c cmds ih =>
    simp only [List.map_cons, run_schedule, List.map_append]
    rw [(ih _).1, (ih _).2, enqueue_thread_queue]
    simp

theorem run_schedule_runs (tip : VALUE) (n : Nat) (w : World ε) :
    (run_schedule E tip (List.replicate n .run) w).enqueued = [] ∧
    (run_schedule E tip (List.replicate n .run) w).executed = (w.objs tip).thread_queue.take n ∧
    ((run_schedule E tip (List.replicate n .run) w).final.objs tip).thread_queue
      = (w.objs tip).thread_queue.drop n := by
  induction n generalizing w with
  | zero => simp [run_schedule]
  | succ n ih =>
    simp only [List.replicate_succ, run_schedule]
    rw [(ih _).1, (ih _).2.1, (ih _).2.2, handler_thread_queue]
    refine ⟨rfl, ?_, ?_⟩
    · cases (w.objs tip).thread_queue <;> simp
    · simp [Nat.add_comm]

theorem run_schedule_enqueues_then_runs (tip : VALUE) (cmds : List (CmdKind × Bool × ThreadId))
    (w : World ε) (hq : (w.objs tip).thread_queue = []) :
    (run_schedule E tip
        ((cmds.map fun c => .enqueue c.1 c.2.1 c.2.2) ++ List.replicate cmds.length .run)
        w).executed
      = (run_schedule E tip
          ((cmds.map fun c => .enqueue c.1 c.2.1 c.2.2) ++ List.replicate cmds.length .run)
          w).enqueued ∧
    (run_schedule E tip
        ((cmds.map fun c => .enqueue c.1 c.2.1 c.2.2) ++ List.replicate cmds.length .run)
        w).executed.map Cmd.kind = cmds.map Prod.fst ∧
    ((run_schedule E tip
        ((cmds.map fun c => .enqueue c.1 c.2.1 c.2.2) ++ List.replicate cmds.length .run)
        w).final.objs tip).thread_queue = [] := by
  have hinv := run_schedule_invariant E tip (cmds.map fun c => .enqueue c.1 c.2.1 c.2.2) w
  have henq := run_schedule_enqueues E tip cmds w
  have hruns := run_schedule_runs E tip cmds.length
    (run_schedule E tip (cmds.map fun c => .enqueue c.1 c.2.1 c.2.2) w).final
  rw [henq.1, hq, List.nil_append, List.nil_append] at hinv
  have hlen : (run_schedule E tip (cmds.map fun c => .enqueue c.1 c.2.1 c.2.2) w).enqueued.length
      = cmds.length := by
    have := congrArg List.length henq.2
    simpa using this
  rw [run_schedule_append]
  simp only [henq.1, hruns.1, hruns.2.1, hruns.2.2, hinv, List.nil_append, List.append_nil]
  rw [← hlen]
  refine ⟨List.take_length _, ?_, List.drop_length _⟩
  rw [List.take_length]
  exact henq.2

theorem publish_trace (w : World ε) (queue : Option QueueId) (r : Response) :
    (w.publish queue r).trace = w.trace := by
  cases queue <;> rfl

theorem run_queued_proc_trace (w : World ε) (tip : VALUE) (p : ProcId) (queue : Option QueueId) :
    (run_queued_command E tip ⟨.proc p, queue⟩ w).state.trace
      = w.trace ++ [.rb_proc_call p []] := by
  cases hr : (E.rb_proc_call p [] w.ext).1 with
  | value v =>
    have h : execute_queued E tip (Cmd.mk (.proc p) queue).kind w
        = .ok v { w with ext := (E.rb_proc_call p [] w.ext).2,
                         trace := w.trace ++ [.rb_proc_call p []] } := by
      simp [execute_queued, execute_queued_proc, callback_invoke, hr]
    rw [run_queued_command_ok E w _ tip _ v h]
    simp [Res.state, publish_trace]
  | raised e =>
    have h : execute_queued E tip (Cmd.mk (.proc p) queue).kind w
        = .raise e { w with ext := (E.rb_proc_call p [] w.ext).2,
                            trace := w.trace ++ [.rb_proc_call p []] } := by
      simp [execute_queued, execute_queued_proc, callback_invoke, hr]
    cases hf : (rb_obj_is_kind_of e .SystemExit || rb_obj_is_kind_of e .Interrupt)
    · rw [run_queued_command_error E w _ tip _ e h hf]
      simp [Res.state, publish_trace]
    · rw [run_queued_command_fatal E w _ tip _ e h hf]
      simp [Res.state]

/-! ## The arity check of `tcl_invoke` -/

theorem interp_tcl_invoke_no_args (w : World ε) (self : VALUE) (cur : ThreadId)
    (hd : (w.objs self).deleted = false) (hi : (w.objs self).interp ≠ 0) :
    interp_tcl_invoke E [] self cur w
      = .raise ⟨.ArgumentError, "wrong number of arguments (given 0, expected 1+)"⟩ w.asked := by
  simp [interp_tcl_invoke, get_interp_live, hd, hi, Tcl_GetCurrentThread, World.asked, rb_raise]

/-! ## Timer intervals stay non-negative -/

section
variable {α β : Type}

theorem timers_pure (a : α) : KeepsTimers (pure a : M ε α) := ⟨fun _ h => h⟩

theorem timers_rb_raise (c : RClass) (msg : String) : KeepsTimers (rb_raise c msg : M ε α) :=
  ⟨fun _ h => h⟩

theorem timers_rb_exc_raise (e : RException) : KeepsTimers (rb_exc_raise e : M ε α) :=
  ⟨fun _ h => h⟩

theorem timers_getW : KeepsTimers (getW : M ε (World ε)) := ⟨fun _ h => h⟩

theorem timers_get_struct (self : VALUE) : KeepsTimers (get_struct self : M ε tcltk_interp) :=
  ⟨fun _ h => h⟩

theorem timers_foreign (l : FCall) (f : ε → α × ε) : KeepsTimers (foreign l f) :=
  ⟨fun _ h => h⟩

theorem timers_stub_call (l : FCall) (f : ε → α × ε) : KeepsTimers (stub_call E l f) := by
  constructor
  intro w h
  unfold stub_call
  split <;> exact h

theorem timers_foreign_code (l : FCall) (f : ε → TclOutcome × ε) :
    KeepsTimers (foreign_code l f) := by
  constructor
  intro w h
  unfold foreign_code
  cases (f w.ext).1 <;> exact h

theorem timers_modifyW (f : World ε → World ε) (hf : ∀ w, TimersNonneg w → TimersNonneg (f w)) :
    KeepsTimers (modifyW f) :=
  ⟨fun w h => hf w h⟩

theorem timers_set_struct (self : VALUE) (f : tcltk_interp → tcltk_interp)
    (hf : ∀ t, 0 ≤ t.timer_interval_ms → 0 ≤ (f t).timer_interval_ms) :
    KeepsTimers (set_struct self f : M ε Unit) := by
  constructor
  intro w h
  refine ⟨h.1, fun v => ?_⟩
  by_cases hv : v = self
  · subst hv
    simpa [Res.state, set_struct, modifyW, World.store] using hf (w.objs v) (h.2 v)
  · simpa [Res.state, set_struct, modifyW, World.store, hv] using h.2 v

theorem timers_bind (m : M ε α) (f : α → M ε β) (hm : KeepsTimers m)
    (hf : ∀ a, KeepsTimers (f a)) : KeepsTimers (m >>= f) := by
  constructor
  intro w h
  have h1 := hm.keep w h
  rw [bind_apply]
  cases hmw : m w with
  | ok a w1 =>
    rw [hmw] at h1
    exact (hf a).keep w1 h1
  | raise e w1 => rw [hmw] at h1; exact h1
  | blocked q w1 => rw [hmw] at h1; exact h1
  | out_of_fuel w1 => rw [hmw] at h1; exact h1
  | crashed w1 => rw [hmw] at h1; exact h1

theorem timers_map (g : α → β) (m : M ε α) (hm : KeepsTimers m) : KeepsTimers (g <$> m) := by
  constructor
  intro w h
  have h1 := hm.keep w h
  rw [map_apply]
  cases hmw : m w <;> rw [hmw] at h1 <;> exact h1

theorem timers_rb_protect (m : M ε α) (hm : KeepsTimers m) : KeepsTimers (rb_protect m) := by
  constructor
  intro w h
  have h1 := hm.keep w h
  rw [rb_protect_apply]
  cases hmw : m w <;> rw [hmw] at h1 <;> exact h1

theorem timers_ite (c : Prop) [Decidable c] (a b : M ε α) (ha : KeepsTimers a)
    (hb : KeepsTimers b) : KeepsTimers (if c then a else b) := by
  by_cases h : c <;> simp [h, ha, hb]

end

theorem timers_Queue_new : KeepsTimers (Queue_new : M ε QueueId) := ⟨fun _ h => h⟩

theorem timers_Queue_push (q : QueueId) (r : Response) : KeepsTimers (Queue_push q r : M ε Unit) :=
  ⟨fun _ h => h⟩

theorem timers_Queue_pop (q : QueueId) : KeepsTimers (Queue_pop q : M ε Response) := by
  constructor
  intro w h
  unfold Queue_pop
  cases w.queues q <;> exact h

theorem timers_out_of_fuel : KeepsTimers (fun w => .out_of_fuel w : M ε Unit) :=
  ⟨fun _ h => h⟩

theorem timers_NUM2INT (v : RValue) : KeepsTimers (NUM2INT v : M ε Int) := by
  unfold NUM2INT
  repeat' first
    | exact timers_pure _
    | exact timers_rb_raise _ _
    | apply timers_ite
    | split

theorem timers_StringValue (v : RValue) : KeepsTimers (StringValue v : M ε String) := by
  unfold StringValue
  split
  · exact timers_pure _
  · exact timers_rb_raise _ _

theorem timers_get_interp (self : VALUE) : KeepsTimers (get_interp self : M ε tcltk_interp) := by
  unfold get_interp
  refine timers_bind _ _ (timers_get_struct _) fun tip => ?_
  exact timers_ite _ _ _ (timers_rb_raise _ _) (timers_pure _)

theorem timers_callback_invoke (proc : ProcId) (args : List String) :
    KeepsTimers (callback_invoke E proc args) := by
  unfold callback_invoke
  refine timers_bind _ _ (timers_foreign _ _) ?_
  intro r
  cases r
  · exact timers_pure _
  · exact timers_rb_exc_raise _

theorem timers_eval_ruby_string (code : String) : KeepsTimers (eval_ruby_string E code) := by
  unfold eval_ruby_string
  refine timers_bind _ _ (timers_foreign _ _) ?_
  intro r
  cases r
  · exact timers_pure _
  · exact timers_rb_exc_raise _

theorem timers_invoke_words (args : List RValue) :
    KeepsTimers (invoke_words args : M ε (List String)) := by
  induction args with
  | nil => exact timers_pure _
  | cons a rest ih =>
    unfold invoke_words
    apply timers_bind
    · apply timers_ite
      · exact timers_pure _
      · exact timers_StringValue _
    · intro s
      exact timers_bind _ _ ih fun ss => timers_pure _

theorem timers_rb_thread_check_ints : KeepsTimers (rb_thread_check_ints E) := by
  unfold rb_thread_check_ints
  refine timers_bind _ _ (timers_foreign _ _) ?_
  intro r
  cases r
  · exact timers_pure _
  · exact timers_rb_exc_raise _

theorem timers_ruby_callback_proc (clientData : VALUE) (interp : Ptr) (objv : List String) :
    KeepsTimers (ruby_callback_proc E clientData interp objv) := by
  unfold ruby_callback_proc
  repeat' first
    | intro _
    | exact timers_pure _
    | exact timers_rb_exc_raise _
    | exact timers_rb_raise _ _
    | exact timers_foreign _ _
    | exact timers_get_struct _
    | exact timers_callback_invoke E _ _
    | exact timers_modifyW _ (fun _ h => h)
    | apply timers_rb_protect
    | apply timers_bind
    | apply timers_ite
    | split
    | dsimp only

theorem timers_ruby_eval_proc (clientData : VALUE) (interp : Ptr) (objv : List String) :
    KeepsTimers (ruby_eval_proc E clientData interp objv) := by
  unfold ruby_eval_proc
  repeat' first
    | intro _
    | exact timers_pure _
    | exact timers_rb_exc_raise _
    | exact timers_rb_raise _ _
    | exact timers_foreign _ _
    | exact timers_eval_ruby_string E _
    | apply timers_rb_protect
    | apply timers_bind
    | apply timers_ite
    | split

theorem timers_execute_queued_eval (tip : VALUE) (script : String) :
    KeepsTimers (execute_queued_eval E tip script) := by
  unfold execute_queued_eval Tcl_GetStringResult
  repeat' first
    | intro _
    | exact timers_pure _
    | exact timers_rb_raise _ _
    | exact timers_foreign _ _
    | exact timers_foreign_code _ _
    | exact timers_get_struct _
    | apply timers_bind
    | apply timers_ite

theorem timers_execute_queued_invoke (tip : VALUE) (argv : List RValue) :
    KeepsTimers (execute_queued_invoke E tip argv) := by
  unfold execute_queued_invoke Tcl_GetStringResult
  repeat' first
    | intro _
    | exact timers_pure _
    | exact timers_rb_raise _ _
    | exact timers_foreign _ _
    | exact timers_foreign_code _ _
    | exact timers_get_struct _
    | exact timers_invoke_words _
    | apply timers_bind
    | apply timers_ite

theorem timers_ruby_thread_event_handler (tip : VALUE) :
    KeepsTimers (ruby_thread_event_handler E tip) := by
  unfold ruby_thread_event_handler execute_queued_proc
  repeat' first
    | intro _
    | exact timers_pure _
    | exact timers_rb_exc_raise _
    | exact timers_get_struct _
    | exact timers_Queue_push _ _
    | exact timers_execute_queued_eval E _ _
    | exact timers_execute_queued_invoke E _ _
    | exact timers_callback_invoke E _ _
    | exact timers_set_struct _ _ (fun _ h => h)
    | apply timers_rb_protect
    | apply timers_bind
    | apply timers_ite
    | split

theorem timers_queue_command_wait (q : QueueId) :
    KeepsTimers (queue_command_wait q : M ε RValue) := by
  unfold queue_command_wait
  refine timers_bind _ _ (timers_Queue_pop _) fun r => ?_
  split
  · exact timers_rb_exc_raise _
  · exact timers_pure _

theorem timers_queue_command_internal (tip : VALUE) (kind : CmdKind) (wait : Bool)
    (cur : ThreadId) : KeepsTimers (queue_command_internal E tip kind wait cur) := by
  unfold queue_command_internal Tcl_GetCurrentThread
  repeat' first
    | intro _
    | exact timers_pure _
    | exact timers_foreign _ _
    | exact timers_get_struct _
    | exact timers_queue_command_wait _
    | exact timers_map _ _ timers_Queue_new
    | exact timers_set_struct _ _ (fun _ h => h)
    | apply timers_bind
    | apply timers_ite
    | split

theorem timers_interp_queue_for_main (self : VALUE) (proc : ProcId) (cur : ThreadId) :
    KeepsTimers (interp_queue_for_main E self proc cur) := by
  unfold interp_queue_for_main
  refine timers_bind _ _ (timers_get_struct _) fun tip => ?_
  apply timers_ite
  · exact timers_rb_raise _ _
  · exact timers_queue_command_internal E _ _ _ _

theorem timers_interp_on_main_thread_p (self : VALUE) (cur : ThreadId) :
    KeepsTimers (interp_on_main_thread_p self cur : M ε RValue) := by
  unfold interp_on_main_thread_p Tcl_GetCurrentThread
  refine timers_bind _ _ (timers_get_interp _) fun tip => ?_
  exact timers_bind _ _ (timers_foreign _ _) fun c => timers_pure _

theorem timers_interp_tcl_eval (self : VALUE) (script : RValue) (cur : ThreadId) :
    KeepsTimers (interp_tcl_eval E self script cur) := by
  unfold interp_tcl_eval Tcl_GetCurrentThread Tcl_GetStringResult
  repeat' first
    | intro _
    | exact timers_pure _
    | exact timers_rb_raise _ _
    | exact timers_foreign _ _
    | exact timers_foreign_code _ _
    | exact timers_get_struct _
    | exact timers_get_interp _
    | exact timers_StringValue _
    | exact timers_queue_command_internal E _ _ _ _
    | apply timers_bind
    | apply timers_ite

theorem timers_interp_tcl_invoke (argv : List RValue) (self : VALUE) (cur : ThreadId) :
    KeepsTimers (interp_tcl_invoke E argv self cur) := by
  unfold interp_tcl_invoke Tcl_GetCurrentThread Tcl_GetStringResult
  repeat' first
    | intro _
    | exact timers_pure _
    | exact timers_rb_raise _ _
    | exact timers_foreign _ _
    | exact timers_foreign_code _ _
    | exact timers_get_struct _
    | exact timers_get_interp _
    | exact timers_invoke_words _
    | exact timers_queue_command_internal E _ _ _ _
    | apply timers_bind
    | apply timers_ite

theorem timers_interp_tcl_get_var (self : VALUE) (name : RValue) :
    KeepsTimers (interp_tcl_get_var E self name) := by
  unfold interp_tcl_get_var
  repeat' first
    | intro _
    | exact timers_pure _
    | exact timers_foreign _ _
    | exact timers_get_interp _
    | exact timers_StringValue _
    | apply timers_bind
    | split

theorem timers_interp_tcl_set_var (self : VALUE) (name value : RValue) :
    KeepsTimers (interp_tcl_set_var E self name value) := by
  unfold interp_tcl_set_var
  repeat' first
    | intro _
    | exact timers_pure _
    | exact timers_rb_raise _ _
    | exact timers_foreign _ _
    | exact timers_get_interp _
    | exact timers_StringValue _
    | apply timers_bind
    | apply timers_ite

theorem timers_lib_do_one_event (argv : List RValue) : KeepsTimers (lib_do_one_event E argv) := by
  unfold lib_do_one_event
  repeat' first
    | intro _
    | exact timers_pure _
    | exact timers_foreign_code _ _
    | exact timers_NUM2INT _
    | apply timers_bind
    | split

theorem timers_interp_do_one_event (argv : List RValue) (self : VALUE) :
    KeepsTimers (interp_do_one_event E argv self) :=
  timers_lib_do_one_event E argv

theorem timers_interp_safe_p (self : VALUE) : KeepsTimers (interp_safe_p E self) := by
  unfold interp_safe_p
  refine timers_bind _ _ (timers_get_interp _) fun tip => ?_
  exact timers_bind _ _ (timers_foreign _ _) fun c => timers_pure _

theorem timers_interp_tcl_version (self : VALUE) : KeepsTimers (interp_tcl_version E self) := by
  unfold interp_tcl_version
  repeat' first
    | intro _
    | exact timers_pure _
    | exact timers_foreign _ _
    | exact timers_get_interp _
    | apply timers_bind
    | split

theorem timers_interp_tk_version (self : VALUE) : KeepsTimers (interp_tk_version E self) := by
  unfold interp_tk_version
  repeat' first
    | intro _
    | exact timers_pure _
    | exact timers_foreign _ _
    | exact timers_get_interp _
    | apply timers_bind
    | split

theorem timers_keepalive_timer_proc (clientData : VALUE) :
    KeepsTimers (keepalive_timer_proc E clientData) := by
  unfold keepalive_timer_proc
  refine timers_bind _ _ (timers_get_struct _) fun tip => ?_
  apply timers_ite
  · exact timers_foreign _ _
  · exact timers_pure _

theorem timers_interp_mainloop_loop (self : VALUE) (fuel : Nat) :
    KeepsTimers (interp_mainloop_loop E self fuel) := by
  induction fuel with
  | zero =>
    unfold interp_mainloop_loop
    refine timers_bind _ _ (timers_foreign _ _) fun n => ?_
    apply timers_ite
    · exact timers_out_of_fuel
    · exact timers_pure _
  | succ fuel ih =>
    unfold interp_mainloop_loop
    repeat' first
      | intro _
      | exact ih
      | exact timers_pure _
      | exact timers_foreign _ _
      | exact timers_foreign_code _ _
      | exact timers_get_struct _
      | exact timers_rb_thread_check_ints E
      | apply timers_bind
      | apply timers_ite

theorem timers_interp_mainloop (self : VALUE) (fuel : Nat) :
    KeepsTimers (interp_mainloop E self fuel) := by
  unfold interp_mainloop
  repeat' first
    | intro _
    | exact timers_pure _
    | exact timers_foreign _ _
    | exact timers_get_interp _
    | exact timers_interp_mainloop_loop E _ _
    | apply timers_bind
    | apply timers_ite

theorem timers_interp_get_thread_timer_ms (self : VALUE) :
    KeepsTimers (interp_get_thread_timer_ms self : M ε RValue) := by
  unfold interp_get_thread_timer_ms
  exact timers_bind _ _ (timers_get_interp _) fun tip => timers_pure _

theorem timers_interp_set_thread_timer_ms (self : VALUE) (val : RValue) :
    KeepsTimers (interp_set_thread_timer_ms self val : M ε RValue) := by
  unfold interp_set_thread_timer_ms
  refine timers_bind _ _ (timers_get_interp _) fun _ => ?_
  refine timers_bind _ _ (timers_NUM2INT _) fun ms => ?_
  by_cases hms : ms < 0
  · rw [if_pos hms]
    exact timers_rb_raise _ _
  · rw [if_neg hms]
    refine timers_bind _ _ (timers_set_struct _ _ fun _ _ => ?_) fun _ => timers_pure _
    exact Int.not_lt.mp hms

theorem timers_interp_tcl_split_list (self : VALUE) (list_str : RValue) :
    KeepsTimers (interp_tcl_split_list E self list_str) := by
  unfold interp_tcl_split_list Tcl_GetStringResult
  repeat' first
    | intro _
    | exact timers_pure _
    | exact timers_rb_raise _ _
    | exact timers_foreign _ _
    | exact timers_get_interp _
    | exact timers_StringValue _
    | apply timers_bind
    | apply timers_ite

theorem timers_interp_register_callback (self : VALUE) (proc : ProcId) :
    KeepsTimers (interp_register_callback self proc : M ε RValue) := by
  unfold interp_register_callback
  repeat' first
    | intro _
    | exact timers_pure _
    | exact timers_get_interp _
    | exact timers_set_struct _ _ (fun _ h => h)
    | apply timers_bind

theorem timers_interp_unregister_callback (self : VALUE) (id : RValue) :
    KeepsTimers (interp_unregister_callback self id : M ε RValue) := by
  unfold interp_unregister_callback
  repeat' first
    | intro _
    | exact timers_pure _
    | exact timers_get_interp _
    | exact timers_set_struct _ _ (fun _ h => h)
    | apply timers_bind
    | split

theorem timers_interp_alloc : KeepsTimers (interp_alloc : M ε VALUE) := by
  constructor
  intro w h
  refine ⟨h.1, fun v => ?_⟩
  by_cases hv : v = w.n_objs
  · simp [interp_alloc, Res.state, World.store, hv, DEFAULT_TIMER_INTERVAL_MS]
  · simpa [interp_alloc, Res.state, World.store, hv] using h.2 v

theorem timers_interp_deleted_callback (clientData : VALUE) :
    KeepsTimers (interp_deleted_callback clientData : M ε Unit) :=
  timers_set_struct _ _ (fun _ h => h)

theorem timers_run_deleted_callbacks (vs : List VALUE) :
    KeepsTimers (run_deleted_callbacks vs : M ε Unit) := by
  induction vs with
  | nil => exact timers_pure _
  | cons v vs ih =>
    unfold run_deleted_callbacks
    exact timers_bind _ _ (timers_interp_deleted_callback v) fun _ => ih

theorem timers_Tcl_DeleteInterp (p : Ptr) : KeepsTimers (Tcl_DeleteInterp E p) := by
  unfold Tcl_DeleteInterp
  exact timers_bind _ _ (timers_foreign _ _) fun _ => timers_run_deleted_callbacks _

theorem timers_interp_free (self : VALUE) : KeepsTimers (interp_free E self) := by
  unfold interp_free
  refine timers_bind _ _ (timers_get_struct _) fun tip => ?_
  apply timers_ite
  · exact timers_Tcl_DeleteInterp E _
  · exact timers_pure _

theorem timers_interp_deleted_p (self : VALUE) :
    KeepsTimers (interp_deleted_p self : M ε RValue) := by
  unfold interp_deleted_p
  exact timers_bind _ _ (timers_get_struct _) fun tip => timers_pure _

theorem timers_interp_delete (self : VALUE) : KeepsTimers (interp_delete E self) := by
  unfold interp_delete
  repeat' first
    | intro _
    | exact timers_pure _
    | exact timers_Tcl_DeleteInterp E _
    | exact timers_get_struct _
    | exact timers_set_struct _ _ (fun _ h => h)
    | exact timers_modifyW _ (fun _ h => h)
    | apply timers_bind
    | apply timers_ite

theorem timers_initialize_options (self : VALUE) (opts : Option (List (String × RValue))) :
    KeepsTimers (initialize_options self opts : M ε Unit) := by
  unfold initialize_options
  split
  · split
    · apply timers_ite
      · refine timers_bind _ _ (timers_NUM2INT _) fun ms => ?_
        by_cases hms : ms < 0
        · rw [if_pos hms]
          exact timers_rb_raise _ _
        · rw [if_neg hms]
          exact timers_set_struct _ _ fun _ _ => Int.not_lt.mp hms
      · exact timers_pure _
    · exact timers_pure _
  · exact timers_pure _

theorem timers_find_executable_bootstrap : KeepsTimers (find_executable_bootstrap E) := by
  unfold find_executable_bootstrap
  repeat' first
    | intro _
    | exact timers_pure _
    | exact timers_foreign _ _
    | exact timers_getW
    | apply timers_bind
    | apply timers_ite

theorem timers_create_interp_bootstrap : KeepsTimers (create_interp_bootstrap E) := by
  unfold create_interp_bootstrap
  repeat' first
    | intro _
    | exact timers_pure _
    | exact timers_foreign _ _
    | exact timers_getW
    | apply timers_bind
    | apply timers_ite

theorem timers_init_failed {α : Type} (self : VALUE) (p : Ptr) (what : String) :
    KeepsTimers (init_failed E self p what : M ε α) := by
  unfold init_failed
  repeat' first
    | intro _
    | exact timers_rb_raise _ _
    | exact timers_stub_call E _ _
    | exact timers_set_struct _ _ (fun _ h => h)
    | apply timers_bind

theorem timers_initialize_runtime (self : VALUE) (cur : ThreadId) :
    KeepsTimers (initialize_runtime E self cur) := by
  unfold initialize_runtime
  repeat' first
    | intro _
    | exact timers_pure _
    | exact timers_rb_raise _ _
    | exact timers_foreign _ _
    | exact timers_getW
    | exact timers_find_executable_bootstrap E
    | exact timers_create_interp_bootstrap E
    | exact timers_init_failed E _ _ _
    | exact timers_set_struct _ _ (fun _ h => h)
    | exact timers_modifyW _ (fun _ h => h)
    | apply timers_bind
    | apply timers_ite

theorem timers_interp_initialize (self : VALUE) (name : RValue)
    (opts : Option (List (String × RValue))) (cur : ThreadId) :
    KeepsTimers ( interp_initialize E self name opts cur) := by
  unfold interp_initialize
  exact timers_bind _ _ (timers_initialize_options _ _) fun _ => timers_initialize_runtime E _ _

theorem timers_interp_create_slave (self : VALUE) (name safemode : RValue) (cur : ThreadId) :
    KeepsTimers (interp_create_slave E self name safemode cur) := by
  unfold interp_create_slave Tcl_GetCurrentThread
  repeat' first
    | intro _
    | exact timers_pure _
    | exact timers_rb_raise _ _
    | exact timers_foreign _ _
    | exact timers_getW
    | exact timers_get_interp _
    | exact timers_StringValue _
    | exact timers_modifyW _ (fun _ h => h)
    | apply timers_bind
    | apply timers_ite
  apply timers_modifyW
  intro w h
  refine ⟨h.1, fun v => ?_⟩
  rename_i w0 _
  by_cases hv : v = w0.n_objs
  · simp [World.store, hv, DEFAULT_TIMER_INTERVAL_MS]
  · simpa [World.store, hv] using h.2 v

theorem timers_lib_get_thread_timer_ms : KeepsTimers (lib_get_thread_timer_ms : M ε RValue) := by
  unfold lib_get_thread_timer_ms
  exact timers_bind _ _ timers_getW fun _ => timers_pure _

theorem timers_lib_set_thread_timer_ms (val : RValue) :
    KeepsTimers (lib_set_thread_timer_ms val : M ε RValue) := by
  unfold lib_set_thread_timer_ms
  refine timers_bind _ _ (timers_NUM2INT _) fun ms => ?_
  by_cases hms : ms < 0
  · rw [if_pos hms]
    exact timers_rb_raise _ _
  · rw [if_neg hms]
    refine timers_bind _ _ (timers_modifyW _ fun w h => ?_) fun _ => timers_pure _
    exact ⟨Int.not_lt.mp hms, h.2⟩

theorem timers_global_keepalive_timer_proc : KeepsTimers (global_keepalive_timer_proc E) := by
  unfold global_keepalive_timer_proc
  refine timers_bind _ _ timers_getW fun w => ?_
  apply timers_ite
  · exact timers_foreign _ _
  · exact timers_pure _

theorem timers_lib_mainloop_loop (check_root : Bool) (fuel : Nat) :
    KeepsTimers (lib_mainloop_loop E check_root fuel) := by
  induction fuel with
  | zero =>
    unfold lib_mainloop_loop
    repeat' first
      | intro _
      | exact timers_pure _
      | exact timers_foreign _ _
      | exact timers_out_of_fuel
      | apply timers_bind
      | apply timers_ite
  | succ fuel ih =>
    unfold lib_mainloop_loop
    repeat' first
      | intro _
      | exact ih
      | exact timers_pure _
      | exact timers_foreign _ _
      | exact timers_foreign_code _ _
      | exact timers_getW
      | exact timers_rb_thread_check_ints E
      | apply timers_bind
      | apply timers_ite

theorem timers_lib_mainloop (argv : List RValue) (fuel : Nat) :
    KeepsTimers (lib_mainloop E argv fuel) := by
  unfold lib_mainloop
  repeat' first
    | intro _
    | exact timers_pure _
    | exact timers_foreign _ _
    | exact timers_getW
    | exact timers_lib_mainloop_loop E _ _
    | apply timers_bind
    | apply timers_ite

theorem timers_init (x : ε) : TimersNonneg (World.init x) :=
  ⟨by simp [World.init, DEFAULT_TIMER_INTERVAL_MS],
    fun _ => by simp [World.init, DEFAULT_TIMER_INTERVAL_MS]⟩

theorem NUM2INT_in_range (w : World ε) (i : Int) (h1 : -2147483648 ≤ i) (h2 : i ≤ 2147483647) :
    (NUM2INT (.int i) : M ε Int) w = .ok i w := by
  simp [NUM2INT, h1, h2]

theorem NUM2INT_out_of_range (w : World ε) (i : Int) (h : i < -2147483648 ∨ 2147483647 < i) :
    (NUM2INT (.int i) : M ε Int) w
      = .raise ⟨.RangeError, "integer " ++ toString i ++ " too big to convert to int"⟩ w := by
  have : ¬ (-2147483648 ≤ i ∧ i ≤ 2147483647) := by omega
  simp [NUM2INT, this, rb_raise]

theorem interp_create_slave_timer (w w1 : World ε) (self new_ip : VALUE) (name safemode : RValue)
    (cur : ThreadId) (h : interp_create_slave E self name safemode cur w = .ok new_ip w1) :
    (w1.objs new_ip).timer_interval_ms = DEFAULT_TIMER_INTERVAL_MS := by
  by_cases hlive : (w.objs self).deleted = true ∨ (w.objs self).interp = 0
  · simp [interp_create_slave, get_interp_dead w self hlive] at h
  · have hd : (w.objs self).deleted = false := by
      cases hdd : (w.objs self).deleted
      · rfl
      · exact absurd (Or.inl hdd) hlive
    have hi : (w.objs self).interp ≠ 0 := fun e => hlive (Or.inr e)
    cases name with
    | str s =>
      simp only [interp_create_slave, bind_apply, get_interp_live w self hd hi, StringValue,
        pure_apply, foreign_apply] at h
      split at h
      · simp at h
      · simp only [bind_apply, getW_apply, Tcl_GetCurrentThread, foreign_apply, modifyW_apply,
          pure_apply, Res.ok.injEq] at h
        obtain ⟨h1, h2⟩ := h
        subst h2
        subst h1
        simp [World.store]
    | nil => simp [interp_create_slave, get_interp_live w self hd hi, StringValue] at h
    | bool b => simp [interp_create_slave, get_interp_live w self hd hi, StringValue] at h
    | int i => simp [interp_create_slave, get_interp_live w self hd hi, StringValue] at h
    | sym s => simp [interp_create_slave, get_interp_live w self hd hi, StringValue] at h

/-! ## The main loops, iteration by iteration -/

theorem bind_assoc_apply {α β γ : Type} (m : M ε α) (f : α → M ε β) (g : β → M ε γ) :
    ((m >>= f) >>= g) = (m >>= fun a => f a >>= g) := by
  funext w
  simp only [bind_apply]
  cases m w <;> rfl

theorem interp_mainloop_loop_exit (w : World ε) (self : VALUE) (fuel : Nat)
    (h : (E.Tk_GetNumMainWindows w.ext).1 ≤ 0) :
    interp_mainloop_loop E self fuel w
      = .ok () { w with ext := (E.Tk_GetNumMainWindows w.ext).2,
                        trace := w.trace ++ [.Tk_GetNumMainWindows] } := by
  have hn : ¬ (E.Tk_GetNumMainWindows w.ext).1 > 0 := by omega
  cases fuel <;> simp [interp_mainloop_loop, hn]

theorem interp_mainloop_loop_step (w : World ε) (self : VALUE) (fuel : Nat)
    (h : (E.Tk_GetNumMainWindows w.ext).1 > 0) :
    interp_mainloop_loop E self (fuel + 1) w
      = (interp_mainloop_iteration E self >>= fun _ => interp_mainloop_loop E self fuel)
          { w with ext := (E.Tk_GetNumMainWindows w.ext).2,
                   trace := w.trace ++ [.Tk_GetNumMainWindows] } := by
  unfold interp_mainloop_iteration
  simp only [bind_assoc_apply]
  simp only [interp_mainloop_loop, bind_apply, foreign_apply, h, if_true]

theorem interp_mainloop_loop_fuel (w : World ε) (self : VALUE)
    (h : (E.Tk_GetNumMainWindows w.ext).1 > 0) :
    interp_mainloop_loop E self 0 w
      = .out_of_fuel { w with ext := (E.Tk_GetNumMainWindows w.ext).2,
                              trace := w.trace ++ [.Tk_GetNumMainWindows] } := by
  simp [interp_mainloop_loop, h]

theorem lib_mainloop_loop_exit (w : World ε) (fuel : Nat)
    (h : (E.Tk_GetNumMainWindows w.ext).1 ≤ 0) :
    lib_mainloop_loop E true fuel w
      = .ok () { w with ext := (E.Tk_GetNumMainWindows w.ext).2,
                        trace := w.trace ++ [.Tk_GetNumMainWindows] } := by
  cases fuel <;> simp [lib_mainloop_loop, h]

theorem lib_mainloop_loop_step (w : World ε) (fuel : Nat)
    (h : (E.Tk_GetNumMainWindows w.ext).1 > 0) :
    lib_mainloop_loop E true (fuel + 1) w
      = (lib_mainloop_iteration E >>= fun _ => lib_mainloop_loop E true fuel)
          { w with ext := (E.Tk_GetNumMainWindows w.ext).2,
                   trace := w.trace ++ [.Tk_GetNumMainWindows] } := by
  have hn : ¬ (E.Tk_GetNumMainWindows w.ext).1 ≤ 0 := by omega
  unfold lib_mainloop_iteration
  simp only [bind_assoc_apply]
  simp [lib_mainloop_loop, hn]

theorem lib_mainloop_loop_fuel (w : World ε)
    (h : (E.Tk_GetNumMainWindows w.ext).1 > 0) :
    lib_mainloop_loop E true 0 w
      = .out_of_fuel { w with ext := (E.Tk_GetNumMainWindows w.ext).2,
                              trace := w.trace ++ [.Tk_GetNumMainWindows] } := by
  have hn : ¬ (E.Tk_GetNumMainWindows w.ext).1 ≤ 0 := by omega
  simp [lib_mainloop_loop, hn]

theorem lib_mainloop_loop_free_step (w : World ε) (fuel : Nat) :
    lib_mainloop_loop E false (fuel + 1) w
      = (lib_mainloop_iteration E >>= fun _ => lib_mainloop_loop E false fuel) w := by
  unfold lib_mainloop_iteration
  simp only [bind_assoc_apply]
  simp [lib_mainloop_loop]

theorem lib_mainloop_loop_free_fuel (w : World ε) :
    lib_mainloop_loop E false 0 w = .out_of_fuel w := by
  simp [lib_mainloop_loop]

theorem fo_rb_thread_check_ints : ForeignOnly (rb_thread_check_ints E) := by
  unfold rb_thread_check_ints
  refine fo_bind _ _ (fo_foreign _ _) ?_
  intro r
  cases r
  · exact fo_pure _
  · exact fo_rb_exc_raise _

theorem ret_rb_thread_check_ints : Returns (rb_thread_check_ints E) := by
  unfold rb_thread_check_ints
  refine ret_bind _ _ (ret_foreign _ _) ?_
  intro r
  cases r
  · exact ret_pure _
  · exact ret_rb_exc_raise _

theorem ret_getW : Returns (getW : M ε (World ε)) := ⟨fun w => .inl ⟨w, w, rfl⟩⟩

theorem ret_lib_mainloop_iteration : Returns (lib_mainloop_iteration E) := by
  unfold lib_mainloop_iteration
  repeat' first
    | intro _
    | exact ret_pure _
    | exact ret_foreign _ _
    | exact ret_foreign_code _ _
    | exact ret_getW
    | exact ret_rb_thread_check_ints E
    | apply ret_bind
    | apply ret_ite

theorem fo_getW : ForeignOnly (getW : M ε (World ε)) := ⟨fun _ => rfl⟩

theorem fo_interp_mainloop_iteration (self : VALUE) :
    ForeignOnly (interp_mainloop_iteration E self) := by
  unfold interp_mainloop_iteration
  repeat' first
    | intro _
    | exact fo_pure _
    | exact fo_foreign _ _
    | exact fo_foreign_code _ _
    | exact fo_get_struct _
    | exact fo_rb_thread_check_ints E
    | apply fo_bind
    | apply fo_ite

theorem fo_lib_mainloop_iteration : ForeignOnly (lib_mainloop_iteration E) := by
  unfold lib_mainloop_iteration
  repeat' first
    | intro _
    | exact fo_pure _
    | exact fo_foreign _ _
    | exact fo_foreign_code _ _
    | exact fo_getW
    | exact fo_rb_thread_check_ints E
    | apply fo_bind
    | apply fo_ite

theorem interp_mainloop_iteration_trace (w : World ε) (self : VALUE) :
    (∀ w1, interp_mainloop_iteration E self w = .ok () w1 →
      w1.trace = w.trace ++ iteration_calls (w.objs self).timer_interval_ms) ∧
    (∀ e w1, interp_mainloop_iteration E self w = .raise e w1 →
      ((E.Tcl_DoOneEvent TCL_ALL_EVENTS w.ext).1 = .unwound e ∧
        w1.trace = w.trace ++ [.Tcl_DoOneEvent TCL_ALL_EVENTS]) ∨
      w1.trace = w.trace ++ iteration_calls (w.objs self).timer_interval_ms) := by
  cases hD : (E.Tcl_DoOneEvent TCL_ALL_EVENTS w.ext).1 with
  | unwound e0 =>
    simp [interp_mainloop_iteration, foreign_code, hD]
  | code c =>
    by_cases ht : (w.objs self).timer_interval_ms > 0
    · cases hC : (E.rb_thread_check_ints (E.rb_thread_call_without_gvl
          (E.Tcl_DoOneEvent TCL_ALL_EVENTS w.ext).2).2).1 <;>
        simp [interp_mainloop_iteration, foreign_code, hD, ht, rb_thread_check_ints, hC,
          iteration_calls, rb_exc_raise]
    · cases hC : (E.rb_thread_check_ints (E.Tcl_DoOneEvent TCL_ALL_EVENTS w.ext).2).1 <;>
        simp [interp_mainloop_iteration, foreign_code, hD, ht, rb_thread_check_ints, hC,
          iteration_calls, rb_exc_raise]

theorem lib_mainloop_iteration_trace (w : World ε) :
    (∀ w1, lib_mainloop_iteration E w = .ok () w1 →
      w1.trace = w.trace ++ iteration_calls w.g_thread_timer_ms) ∧
    (∀ e w1, lib_mainloop_iteration E w = .raise e w1 →
      ((E.Tcl_DoOneEvent TCL_ALL_EVENTS w.ext).1 = .unwound e ∧
        w1.trace = w.trace ++ [.Tcl_DoOneEvent TCL_ALL_EVENTS]) ∨
      w1.trace = w.trace ++ iteration_calls w.g_thread_timer_ms) := by
  cases hD : (E.Tcl_DoOneEvent TCL_ALL_EVENTS w.ext).1 with
  | unwound e0 =>
    simp [lib_mainloop_iteration, foreign_code, hD]
  | code c =>
    by_cases ht : w.g_thread_timer_ms > 0
    · cases hC : (E.rb_thread_check_ints (E.rb_thread_call_without_gvl
          (E.Tcl_DoOneEvent TCL_ALL_EVENTS w.ext).2).2).1 <;>
        simp [lib_mainloop_iteration, foreign_code, hD, ht, rb_thread_check_ints, hC,
          iteration_calls, rb_exc_raise]
    · cases hC : (E.rb_thread_check_ints (E.Tcl_DoOneEvent TCL_ALL_EVENTS w.ext).2).1 <;>
        simp [lib_mainloop_iteration, foreign_code, hD, ht, rb_thread_check_ints, hC,
          iteration_calls, rb_exc_raise]

theorem bridge_timer (w w1 : World ε) (h : w1.bridge = w.bridge) :
    w1.g_thread_timer_ms = w.g_thread_timer_ms := by
  simp only [World.bridge, Prod.mk.injEq] at h
  exact h.2.2.2.2.2.2.1

theorem interp_mainloop_loop_completed (self : VALUE) (fuel : Nat) (w w1 : World ε)
    (h : interp_mainloop_loop E self fuel w = .ok () w1) :
    ∃ k, k ≤ fuel ∧
      w1.trace = w.trace ++ tested_iterations (w.objs self).timer_interval_ms k
        ++ [.Tk_GetNumMainWindows] ∧
      w1.bridge = w.bridge := by
  induction fuel generalizing w with
  | zero =>
    by_cases hn : (E.Tk_GetNumMainWindows w.ext).1 > 0
    · rw [interp_mainloop_loop_fuel E w self hn] at h
      cases h
    · rw [interp_mainloop_loop_exit E w self 0 (by omega)] at h
      cases h
      exact ⟨0, le_refl _, by simp [tested_iterations], rfl⟩
  | succ fuel ih =>
    by_cases hn : (E.Tk_GetNumMainWindows w.ext).1 > 0
    · rw [interp_mainloop_loop_step E w self fuel hn, bind_apply] at h
      cases hit : interp_mainloop_iteration E self
          { w with ext := (E.Tk_GetNumMainWindows w.ext).2,
                   trace := w.trace ++ [.Tk_GetNumMainWindows] } with
      | ok a w2 =>
        rw [hit] at h
        obtain ⟨k, hk, htr, hbr⟩ := ih w2 h
        have hb2 : w2.bridge = w.bridge := by
          have := (fo_interp_mainloop_iteration E self).keep
            { w with ext := (E.Tk_GetNumMainWindows w.ext).2,
                     trace := w.trace ++ [.Tk_GetNumMainWindows] }
          rw [hit] at this
          exact this
        have ht2 := (interp_mainloop_iteration_trace E _ self).1 w2 hit
        have hobjs : w2.objs = w.objs := bridge_objs w w2 hb2
        refine ⟨k + 1, by omega, ?_, hbr.trans hb2⟩
        rw [htr, ht2, hobjs]
        simp [tested_iterations]
      | raise e w2 => rw [hit] at h; cases h
      | blocked q w2 => rw [hit] at h; cases h
      | out_of_fuel w2 => rw [hit] at h; cases h
      | crashed w2 => rw [hit] at h; cases h
    · rw [interp_mainloop_loop_exit E w self _ (by omega)] at h
      cases h
      exact ⟨0, Nat.zero_le _, by simp [tested_iterations], rfl⟩

theorem lib_mainloop_loop_completed (fuel : Nat) (w w1 : World ε)
    (h : lib_mainloop_loop E true fuel w = .ok () w1) :
    ∃ k, k ≤ fuel ∧
      w1.trace = w.trace ++ tested_iterations w.g_thread_timer_ms k
        ++ [.Tk_GetNumMainWindows] ∧
      w1.bridge = w.bridge := by
  induction fuel generalizing w with
  | zero =>
    by_cases hn : (E.Tk_GetNumMainWindows w.ext).1 > 0
    · rw [lib_mainloop_loop_fuel E w hn] at h
      cases h
    · rw [lib_mainloop_loop_exit E w 0 (by omega)] at h
      cases h
      exact ⟨0, le_refl _, by simp [tested_iterations], rfl⟩
  | succ fuel ih =>
    by_cases hn : (E.Tk_GetNumMainWindows w.ext).1 > 0
    · rw [lib_mainloop_loop_step E w fuel hn, bind_apply] at h
      cases hit : lib_mainloop_iteration E
          { w with ext := (E.Tk_GetNumMainWindows w.ext).2,
                   trace := w.trace ++ [.Tk_GetNumMainWindows] } with
      | ok a w2 =>
        rw [hit] at h
        obtain ⟨k, hk, htr, hbr⟩ := ih w2 h
        have hb2 : w2.bridge = w.bridge := by
          have := (fo_lib_mainloop_iteration E).keep
            { w with ext := (E.Tk_GetNumMainWindows w.ext).2,
                     trace := w.trace ++ [.Tk_GetNumMainWindows] }
          rw [hit] at this
          exact this
        have ht2 := (lib_mainloop_iteration_trace E _).1 w2 hit
        have hg : w2.g_thread_timer_ms = w.g_thread_timer_ms := bridge_timer w w2 hb2
        refine ⟨k + 1, by omega, ?_, hbr.trans hb2⟩
        rw [htr, ht2, hg]
        simp [tested_iterations]
      | raise e w2 => rw [hit] at h; cases h
      | blocked q w2 => rw [hit] at h; cases h
      | out_of_fuel w2 => rw [hit] at h; cases h
      | crashed w2 => rw [hit] at h; cases h
    · rw [lib_mainloop_loop_exit E w _ (by omega)] at h
      cases h
      exact ⟨0, Nat.zero_le _, by simp [tested_iterations], rfl⟩

theorem lib_mainloop_loop_free_never_returns (fuel : Nat) (w w1 : World ε) :
    lib_mainloop_loop E false fuel w ≠ .ok () w1 := by
  induction fuel generalizing w with
  | zero =>
    rw [lib_mainloop_loop_free_fuel]
    intro h
    cases h
  | succ fuel ih =>
    rw [lib_mainloop_loop_free_step, bind_apply]
    cases hit : lib_mainloop_iteration E w with
    | ok a w2 => exact ih w2
    | raise e w2 => intro h; cases h
    | blocked q w2 => intro h; cases h
    | out_of_fuel w2 => intro h; cases h
    | crashed w2 => intro h; cases h

theorem lib_mainloop_free_never_returns (a : RValue) (ha : a ≠ .nil) (hf : RTEST a = false)
    (fuel : Nat) (w w1 : World ε) (r : RValue) :
    lib_mainloop E [a] fuel w ≠ .ok r w1 := by
  intro h
  by_cases ht : w.g_thread_timer_ms > 0
  · simp only [lib_mainloop, ha, hf, bind_apply, getW_apply, ht, if_true, foreign_apply,
      ne_eq, not_false_eq_true] at h
    split at h
    · rename_i a1 w2 hl
      exact lib_mainloop_loop_free_never_returns E fuel _ w2 hl
    all_goals cases h
  · simp only [lib_mainloop, ha, hf, bind_apply, getW_apply, ht, if_false, pure_apply,
      ne_eq, not_false_eq_true, if_true] at h
    split at h
    · rename_i a1 w2 hl
      exact lib_mainloop_loop_free_never_returns E fuel _ w2 hl
    all_goals cases h

/-! ## The callback depth is left alone -/

section
variable {α β : Type}

theorem depth_pure (a : α) : KeepsDepth (pure a : M ε α) := ⟨fun _ => rfl⟩

theorem depth_rb_raise (c : RClass) (msg : String) : KeepsDepth (rb_raise c msg : M ε α) :=
  ⟨fun _ => rfl⟩

theorem depth_rb_exc_raise (e : RException) : KeepsDepth (rb_exc_raise e : M ε α) :=
  ⟨fun _ => rfl⟩

theorem depth_getW : KeepsDepth (getW : M ε (World ε)) := ⟨fun _ => rfl⟩

theorem depth_get_struct (self : VALUE) : KeepsDepth (get_struct self : M ε tcltk_interp) :=
  ⟨fun _ => rfl⟩

theorem depth_foreign (l : FCall) (f : ε → α × ε) : KeepsDepth (foreign l f) := ⟨fun _ => rfl⟩

theorem depth_stub_call (l : FCall) (f : ε → α × ε) : KeepsDepth (stub_call E l f) := by
  constructor
  intro w
  unfold stub_call
  split <;> rfl

theorem depth_foreign_code (l : FCall) (f : ε → TclOutcome × ε) :
    KeepsDepth (foreign_code l f) := by
  constructor
  intro w
  unfold foreign_code
  cases (f w.ext).1 <;> rfl

theorem depth_modifyW (f : World ε → World ε)
    (hf : ∀ w, (f w).rbtk_callback_depth = w.rbtk_callback_depth) : KeepsDepth (modifyW f) :=
  ⟨fun w => hf w⟩

theorem depth_set_struct (self : VALUE) (f : tcltk_interp → tcltk_interp) :
    KeepsDepth (set_struct self f : M ε Unit) := ⟨fun _ => rfl⟩

theorem depth_bind (m : M ε α) (f : α → M ε β) (hm : KeepsDepth m)
    (hf : ∀ a, KeepsDepth (f a)) : KeepsDepth (m >>= f) := by
  constructor
  intro w
  have h1 := hm.keep w
  rw [bind_apply]
  cases hmw : m w with
  | ok a w1 =>
    rw [hmw] at h1
    exact ((hf a).keep w1).trans h1
  | raise e w1 => rw [hmw] at h1; exact h1
  | blocked q w1 => rw [hmw] at h1; exact h1
  | out_of_fuel w1 => rw [hmw] at h1; exact h1
  | crashed w1 => rw [hmw] at h1; exact h1

theorem depth_map (g : α → β) (m : M ε α) (hm : KeepsDepth m) : KeepsDepth (g <$> m) := by
  constructor
  intro w
  have h1 := hm.keep w
  rw [map_apply]
  cases hmw : m w <;> rw [hmw] at h1 <;> exact h1

theorem depth_rb_protect (m : M ε α) (hm : KeepsDepth m) : KeepsDepth (rb_protect m) := by
  constructor
  intro w
  have h1 := hm.keep w
  rw [rb_protect_apply]
  cases hmw : m w <;> rw [hmw] at h1 <;> exact h1

theorem depth_ite (c : Prop) [Decidable c] (a b : M ε α) (ha : KeepsDepth a)
    (hb : KeepsDepth b) : KeepsDepth (if c then a else b) := by
  by_cases h : c <;> simp [h, ha, hb]

theorem balanced_of_depth (m : M ε α) (hm : KeepsDepth m) : Balanced m := by
  constructor
  intro w w1
  have h := hm.keep w
  constructor
  · intro a ha
    rw [ha] at h
    exact h
  · intro e he
    rw [he] at h
    exact h

end

theorem depth_Queue_new : KeepsDepth (Queue_new : M ε QueueId) := ⟨fun _ => rfl⟩

theorem depth_Queue_push (q : QueueId) (r : Response) : KeepsDepth (Queue_push q r : M ε Unit) :=
  ⟨fun _ => rfl⟩

theorem depth_Queue_pop (q : QueueId) : KeepsDepth (Queue_pop q : M ε Response) := by
  constructor
  intro w
  unfold Queue_pop
  cases w.queues q <;> rfl

theorem depth_out_of_fuel : KeepsDepth (fun w => .out_of_fuel w : M ε Unit) :=
  ⟨fun _ => rfl⟩

theorem depth_NUM2INT (v : RValue) : KeepsDepth (NUM2INT v : M ε Int) := by
  unfold NUM2INT
  repeat' first
    | exact depth_pure _
    | exact depth_rb_raise _ _
    | apply depth_ite
    | split

theorem depth_StringValue (v : RValue) : KeepsDepth (StringValue v : M ε String) := by
  unfold StringValue
  split
  · exact depth_pure _
  · exact depth_rb_raise _ _

theorem depth_get_interp (self : VALUE) : KeepsDepth (get_interp self : M ε tcltk_interp) := by
  unfold get_interp
  refine depth_bind _ _ (depth_get_struct _) fun tip => ?_
  exact depth_ite _ _ _ (depth_rb_raise _ _) (depth_pure _)

theorem depth_callback_invoke (proc : ProcId) (args : List String) :
    KeepsDepth (callback_invoke E proc args) := by
  unfold callback_invoke
  refine depth_bind _ _ (depth_foreign _ _) ?_
  intro r
  cases r
  · exact depth_pure _
  · exact depth_rb_exc_raise _

theorem depth_eval_ruby_string (code : String) : KeepsDepth (eval_ruby_string E code) := by
  unfold eval_ruby_string
  refine depth_bind _ _ (depth_foreign _ _) ?_
  intro r
  cases r
  · exact depth_pure _
  · exact depth_rb_exc_raise _

theorem depth_invoke_words (args : List RValue) :
    KeepsDepth (invoke_words args : M ε (List String)) := by
  induction args with
  | nil => exact depth_pure _
  | cons a rest ih =>
    unfold invoke_words
    apply depth_bind
    · apply depth_ite
      · exact depth_pure _
      · exact depth_StringValue _
    · intro s
      exact depth_bind _ _ ih fun ss => depth_pure _

theorem depth_rb_thread_check_ints : KeepsDepth (rb_thread_check_ints E) := by
  unfold rb_thread_check_ints
  refine depth_bind _ _ (depth_foreign _ _) ?_
  intro r
  cases r
  · exact depth_pure _
  · exact depth_rb_exc_raise _

theorem depth_ruby_eval_proc (clientData : VALUE) (interp : Ptr) (objv : List String) :
    KeepsDepth (ruby_eval_proc E clientData interp objv) := by
  unfold ruby_eval_proc
  repeat' first
    | intro _
    | exact depth_pure _
    | exact depth_rb_exc_raise _
    | exact depth_rb_raise _ _
    | exact depth_foreign _ _
    | exact depth_eval_ruby_string E _
    | apply depth_rb_protect
    | apply depth_bind
    | apply depth_ite
    | split

theorem depth_execute_queued_eval (tip : VALUE) (script : String) :
    KeepsDepth (execute_queued_eval E tip script) := by
  unfold execute_queued_eval Tcl_GetStringResult
  repeat' first
    | intro _
    | exact depth_pure _
    | exact depth_rb_raise _ _
    | exact depth_foreign _ _
    | exact depth_foreign_code _ _
    | exact depth_get_struct _
    | apply depth_bind
    | apply depth_ite

theorem depth_execute_queued_invoke (tip : VALUE) (argv : List RValue) :
    KeepsDepth (execute_queued_invoke E tip argv) := by
  unfold execute_queued_invoke Tcl_GetStringResult
  repeat' first
    | intro _
    | exact depth_pure _
    | exact depth_rb_raise _ _
    | exact depth_foreign _ _
    | exact depth_foreign_code _ _
    | exact depth_get_struct _
    | exact depth_invoke_words _
    | apply depth_bind
    | apply depth_ite

theorem depth_ruby_thread_event_handler (tip : VALUE) :
    KeepsDepth (ruby_thread_event_handler E tip) := by
  unfold ruby_thread_event_handler execute_queued_proc
  repeat' first
    | intro _
    | exact depth_pure _
    | exact depth_rb_exc_raise _
    | exact depth_get_struct _
    | exact depth_Queue_push _ _
    | exact depth_execute_queued_eval E _ _
    | exact depth_execute_queued_invoke E _ _
    | exact depth_callback_invoke E _ _
    | exact depth_set_struct _ _
    | apply depth_rb_protect
    | apply depth_bind
    | apply depth_ite
    | split

theorem depth_queue_command_wait (q : QueueId) :
    KeepsDepth (queue_command_wait q : M ε RValue) := by
  unfold queue_command_wait
  refine depth_bind _ _ (depth_Queue_pop _) fun r => ?_
  split
  · exact depth_rb_exc_raise _
  · exact depth_pure _

theorem depth_queue_command_internal (tip : VALUE) (kind : CmdKind) (wait : Bool)
    (cur : ThreadId) : KeepsDepth (queue_command_internal E tip kind wait cur) := by
  unfold queue_command_internal Tcl_GetCurrentThread
  repeat' first
    | intro _
    | exact depth_pure _
    | exact depth_foreign _ _
    | exact depth_get_struct _
    | exact depth_queue_command_wait _
    | exact depth_map _ _ depth_Queue_new
    | exact depth_set_struct _ _
    | apply depth_bind
    | apply depth_ite
    | split

theorem depth_interp_queue_for_main (self : VALUE) (proc : ProcId) (cur : ThreadId) :
    KeepsDepth (interp_queue_for_main E self proc cur) := by
  unfold interp_queue_for_main
  refine depth_bind _ _ (depth_get_struct _) fun tip => ?_
  apply depth_ite
  · exact depth_rb_raise _ _
  · exact depth_queue_command_internal E _ _ _ _

theorem depth_interp_on_main_thread_p (self : VALUE) (cur : ThreadId) :
    KeepsDepth (interp_on_main_thread_p self cur : M ε RValue) := by
  unfold interp_on_main_thread_p Tcl_GetCurrentThread
  refine depth_bind _ _ (depth_get_interp _) fun tip => ?_
  exact depth_bind _ _ (depth_foreign _ _) fun c => depth_pure _

theorem depth_interp_tcl_eval (self : VALUE) (script : RValue) (cur : ThreadId) :
    KeepsDepth (interp_tcl_eval E self script cur) := by
  unfold interp_tcl_eval Tcl_GetCurrentThread Tcl_GetStringResult
  repeat' first
    | intro _
    | exact depth_pure _
    | exact depth_rb_raise _ _
    | exact depth_foreign _ _
    | exact depth_foreign_code _ _
    | exact depth_get_struct _
    | exact depth_get_interp _
    | exact depth_StringValue _
    | exact depth_queue_command_internal E _ _ _ _
    | apply depth_bind
    | apply depth_ite

theorem depth_interp_tcl_invoke (argv : List RValue) (self : VALUE) (cur : ThreadId) :
    KeepsDepth (interp_tcl_invoke E argv self cur) := by
  unfold interp_tcl_invoke Tcl_GetCurrentThread Tcl_GetStringResult
  repeat' first
    | intro _
    | exact depth_pure _
    | exact depth_rb_raise _ _
    | exact depth_foreign _ _
    | exact depth_foreign_code _ _
    | exact depth_get_struct _
    | exact depth_get_interp _
    | exact depth_invoke_words _
    | exact depth_queue_command_internal E _ _ _ _
    | apply depth_bind
    | apply depth_ite

theorem depth_interp_tcl_get_var (self : VALUE) (name : RValue) :
    KeepsDepth (interp_tcl_get_var E self name) := by
  unfold interp_tcl_get_var
  repeat' first
    | intro _
    | exact depth_pure _
    | exact depth_foreign _ _
    | exact depth_get_interp _
    | exact depth_StringValue _
    | apply depth_bind
    | split

theorem depth_interp_tcl_set_var (self : VALUE) (name value : RValue) :
    KeepsDepth (interp_tcl_set_var E self name value) := by
  unfold interp_tcl_set_var
  repeat' first
    | intro _
    | exact depth_pure _
    | exact depth_rb_raise _ _
    | exact depth_foreign _ _
    | exact depth_get_interp _
    | exact depth_StringValue _
    | apply depth_bind
    | apply depth_ite

theorem depth_lib_do_one_event (argv : List RValue) : KeepsDepth (lib_do_one_event E argv) := by
  unfold lib_do_one_event
  repeat' first
    | intro _
    | exact depth_pure _
    | exact depth_foreign_code _ _
    | exact depth_NUM2INT _
    | apply depth_bind
    | split

theorem depth_interp_do_one_event (argv : List RValue) (self : VALUE) :
    KeepsDepth (interp_do_one_event E argv self) :=
  depth_lib_do_one_event E argv

theorem depth_interp_safe_p (self : VALUE) : KeepsDepth (interp_safe_p E self) := by
  unfold interp_safe_p
  refine depth_bind _ _ (depth_get_interp _) fun tip => ?_
  exact depth_bind _ _ (depth_foreign _ _) fun c => depth_pure _

theorem depth_interp_tcl_version (self : VALUE) : KeepsDepth (interp_tcl_version E self) := by
  unfold interp_tcl_version
  repeat' first
    | intro _
    | exact depth_pure _
    | exact depth_foreign _ _
    | exact depth_get_interp _
    | apply depth_bind
    | split

theorem depth_interp_tk_version (self : VALUE) : KeepsDepth (interp_tk_version E self) := by
  unfold interp_tk_version
  repeat' first
    | intro _
    | exact depth_pure _
    | exact depth_foreign _ _
    | exact depth_get_interp _
    | apply depth_bind
    | split

theorem depth_keepalive_timer_proc (clientData : VALUE) :
    KeepsDepth (keepalive_timer_proc E clientData) := by
  unfold keepalive_timer_proc
  refine depth_bind _ _ (depth_get_struct _) fun tip => ?_
  apply depth_ite
  · exact depth_foreign _ _
  · exact depth_pure _

theorem depth_interp_mainloop_loop (self : VALUE) (fuel : Nat) :
    KeepsDepth (interp_mainloop_loop E self fuel) := by
  induction fuel with
  | zero =>
    unfold interp_mainloop_loop
    refine depth_bind _ _ (depth_foreign _ _) fun n => ?_
    apply depth_ite
    · exact depth_out_of_fuel
    · exact depth_pure _
  | succ fuel ih =>
    unfold interp_mainloop_loop
    repeat' first
      | intro _
      | exact ih
      | exact depth_pure _
      | exact depth_foreign _ _
      | exact depth_foreign_code _ _
      | exact depth_get_struct _
      | exact depth_rb_thread_check_ints E
      | apply depth_bind
      | apply depth_ite

theorem depth_interp_mainloop (self : VALUE) (fuel : Nat) :
    KeepsDepth (interp_mainloop E self fuel) := by
  unfold interp_mainloop
  repeat' first
    | intro _
    | exact depth_pure _
    | exact depth_foreign _ _
    | exact depth_get_interp _
    | exact depth_interp_mainloop_loop E _ _
    | apply depth_bind
    | apply depth_ite

theorem depth_interp_get_thread_timer_ms (self : VALUE) :
    KeepsDepth (interp_get_thread_timer_ms self : M ε RValue) := by
  unfold interp_get_thread_timer_ms
  exact depth_bind _ _ (depth_get_interp _) fun tip => depth_pure _

theorem depth_interp_set_thread_timer_ms (self : VALUE) (val : RValue) :
    KeepsDepth (interp_set_thread_timer_ms self val : M ε RValue) := by
  unfold interp_set_thread_timer_ms
  repeat' first
    | intro _
    | exact depth_pure _
    | exact depth_rb_raise _ _
    | exact depth_get_interp _
    | exact depth_NUM2INT _
    | exact depth_set_struct _ _
    | apply depth_bind
    | apply depth_ite

theorem depth_interp_tcl_split_list (self : VALUE) (list_str : RValue) :
    KeepsDepth (interp_tcl_split_list E self list_str) := by
  unfold interp_tcl_split_list Tcl_GetStringResult
  repeat' first
    | intro _
    | exact depth_pure _
    | exact depth_rb_raise _ _
    | exact depth_foreign _ _
    | exact depth_get_interp _
    | exact depth_StringValue _
    | apply depth_bind
    | apply depth_ite

theorem depth_interp_register_callback (self : VALUE) (proc : ProcId) :
    KeepsDepth (interp_register_callback self proc : M ε RValue) := by
  unfold interp_register_callback
  repeat' first
    | intro _
    | exact depth_pure _
    | exact depth_get_interp _
    | exact depth_set_struct _ _
    | apply depth_bind

theorem depth_interp_unregister_callback (self : VALUE) (id : RValue) :
    KeepsDepth (interp_unregister_callback self id : M ε RValue) := by
  unfold interp_unregister_callback
  repeat' first
    | intro _
    | exact depth_pure _
    | exact depth_get_interp _
    | exact depth_set_struct _ _
    | apply depth_bind
    | split

theorem depth_interp_alloc : KeepsDepth (interp_alloc : M ε VALUE) := ⟨fun _ => rfl⟩

theorem depth_interp_deleted_callback (clientData : VALUE) :
    KeepsDepth (interp_deleted_callback clientData : M ε Unit) :=
  depth_set_struct _ _

theorem depth_run_deleted_callbacks (vs : List VALUE) :
    KeepsDepth (run_deleted_callbacks vs : M ε Unit) := by
  induction vs with
  | nil => exact depth_pure _
  | cons v vs ih =>
    unfold run_deleted_callbacks
    exact depth_bind _ _ (depth_interp_deleted_callback v) fun _ => ih

theorem depth_Tcl_DeleteInterp (p : Ptr) : KeepsDepth (Tcl_DeleteInterp E p) := by
  unfold Tcl_DeleteInterp
  exact depth_bind _ _ (depth_foreign _ _) fun _ => depth_run_deleted_callbacks _

theorem depth_interp_free (self : VALUE) : KeepsDepth (interp_free E self) := by
  unfold interp_free
  refine depth_bind _ _ (depth_get_struct _) fun tip => ?_
  apply depth_ite
  · exact depth_Tcl_DeleteInterp E _
  · exact depth_pure _

theorem depth_interp_deleted_p (self : VALUE) :
    KeepsDepth (interp_deleted_p self : M ε RValue) := by
  unfold interp_deleted_p
  exact depth_bind _ _ (depth_get_struct _) fun tip => depth_pure _

theorem depth_interp_delete (self : VALUE) : KeepsDepth (interp_delete E self) := by
  unfold interp_delete
  repeat' first
    | intro _
    | exact depth_pure _
    | exact depth_Tcl_DeleteInterp E _
    | exact depth_get_struct _
    | exact depth_set_struct _ _
    | exact depth_modifyW _ (fun _ => rfl)
    | apply depth_bind
    | apply depth_ite

theorem depth_initialize_options (self : VALUE) (opts : Option (List (String × RValue))) :
    KeepsDepth (initialize_options self opts : M ε Unit) := by
  unfold initialize_options
  repeat' first
    | intro _
    | exact depth_pure _
    | exact depth_rb_raise _ _
    | exact depth_NUM2INT _
    | exact depth_set_struct _ _
    | apply depth_bind
    | apply depth_ite
    | split

theorem depth_find_executable_bootstrap : KeepsDepth (find_executable_bootstrap E) := by
  unfold find_executable_bootstrap
  repeat' first
    | intro _
    | exact depth_pure _
    | exact depth_foreign _ _
    | exact depth_getW
    | apply depth_bind
    | apply depth_ite

theorem depth_create_interp_bootstrap : KeepsDepth (create_interp_bootstrap E) := by
  unfold create_interp_bootstrap
  repeat' first
    | intro _
    | exact depth_pure _
    | exact depth_foreign _ _
    | exact depth_getW
    | apply depth_bind
    | apply depth_ite

theorem depth_init_failed {α : Type} (self : VALUE) (p : Ptr) (what : String) :
    KeepsDepth (init_failed E self p what : M ε α) := by
  unfold init_failed
  repeat' first
    | intro _
    | exact depth_rb_raise _ _
    | exact depth_stub_call E _ _
    | exact depth_set_struct _ _
    | apply depth_bind

theorem depth_initialize_runtime (self : VALUE) (cur : ThreadId) :
    KeepsDepth (initialize_runtime E self cur) := by
  unfold initialize_runtime
  repeat' first
    | intro _
    | exact depth_pure _
    | exact depth_rb_raise _ _
    | exact depth_foreign _ _
    | exact depth_getW
    | exact depth_find_executable_bootstrap E
    | exact depth_create_interp_bootstrap E
    | exact depth_init_failed E _ _ _
    | exact depth_set_struct _ _
    | exact depth_modifyW _ (fun _ => rfl)
    | apply depth_bind
    | apply depth_ite

theorem depth_interp_initialize (self : VALUE) (name : RValue)
    (opts : Option (List (String × RValue))) (cur : ThreadId) :
    KeepsDepth ( interp_initialize E self name opts cur) := by
  unfold interp_initialize
  exact depth_bind _ _ (depth_initialize_options _ _) fun _ => depth_initialize_runtime E _ _

theorem depth_interp_create_slave (self : VALUE) (name safemode : RValue) (cur : ThreadId) :
    KeepsDepth (interp_create_slave E self name safemode cur) := by
  unfold interp_create_slave Tcl_GetCurrentThread
  repeat' first
    | intro _
    | exact depth_pure _
    | exact depth_rb_raise _ _
    | exact depth_foreign _ _
    | exact depth_getW
    | exact depth_get_interp _
    | exact depth_StringValue _
    | exact depth_modifyW _ (fun _ => rfl)
    | apply depth_bind
    | apply depth_ite

theorem depth_lib_get_thread_timer_ms : KeepsDepth (lib_get_thread_timer_ms : M ε RValue) := by
  unfold lib_get_thread_timer_ms
  exact depth_bind _ _ depth_getW fun _ => depth_pure _

theorem depth_lib_set_thread_timer_ms (val : RValue) :
    KeepsDepth (lib_set_thread_timer_ms val : M ε RValue) := by
  unfold lib_set_thread_timer_ms
  repeat' first
    | intro _
    | exact depth_pure _
    | exact depth_rb_raise _ _
    | exact depth_NUM2INT _
    | exact depth_modifyW _ (fun _ => rfl)
    | apply depth_bind
    | apply depth_ite

theorem depth_global_keepalive_timer_proc : KeepsDepth (global_keepalive_timer_proc E) := by
  unfold global_keepalive_timer_proc
  refine depth_bind _ _ depth_getW fun w => ?_
  apply depth_ite
  · exact depth_foreign _ _
  · exact depth_pure _

theorem depth_lib_mainloop_loop (check_root : Bool) (fuel : Nat) :
    KeepsDepth (lib_mainloop_loop E check_root fuel) := by
  induction fuel with
  | zero =>
    unfold lib_mainloop_loop
    repeat' first
      | intro _
      | exact depth_pure _
      | exact depth_foreign _ _
      | exact depth_out_of_fuel
      | apply depth_bind
      | apply depth_ite
  | succ fuel ih =>
    unfold lib_mainloop_loop
    repeat' first
      | intro _
      | exact ih
      | exact depth_pure _
      | exact depth_foreign _ _
      | exact depth_foreign_code _ _
      | exact depth_getW
      | exact depth_rb_thread_check_ints E
      | apply depth_bind
      | apply depth_ite

theorem depth_lib_mainloop (argv : List RValue) (fuel : Nat) :
    KeepsDepth (lib_mainloop E argv fuel) := by
  unfold lib_mainloop
  repeat' first
    | intro _
    | exact depth_pure _
    | exact depth_foreign _ _
    | exact depth_getW
    | exact depth_lib_mainloop_loop E _ _
    | apply depth_bind
    | apply depth_ite

/-! ## A dispatch is balanced -/

theorem ruby_callback_proc_eq_around (clientData : VALUE) (interp : Ptr) (objv : List String) :
    ruby_callback_proc E clientData interp objv
      = ruby_callback_proc_around E (callback_invoke E) clientData interp objv := by
  unfold ruby_callback_proc ruby_callback_proc_around callback_result
  rfl

theorem depth_callback_result (interp : Ptr) (result : Except RException RValue) :
    KeepsDepth (callback_result E interp result) := by
  unfold callback_result
  repeat' first
    | intro _
    | exact depth_pure _
    | exact depth_rb_exc_raise _
    | exact depth_foreign _ _
    | apply depth_bind
    | apply depth_ite
    | split

theorem fo_callback_result (interp : Ptr) (result : Except RException RValue) :
    ForeignOnly (callback_result E interp result) := by
  unfold callback_result
  repeat' first
    | intro _
    | exact fo_pure _
    | exact fo_rb_exc_raise _
    | exact fo_foreign _ _
    | apply fo_bind
    | apply fo_ite
    | split

theorem ruby_callback_proc_around_registered (body : ProcId → List String → M ε RValue)
    (w : World ε) (clientData : VALUE) (interp : Ptr) (objv : List String) (proc : ProcId)
    (hlen : 2 ≤ objv.length)
    (hreg : rb_hash_aref (w.objs clientData).callbacks (objv.getD 1 "") = some proc) :
    ruby_callback_proc_around E body clientData interp objv w
      = match body proc (objv.drop 2)
            { w with rbtk_callback_depth := w.rbtk_callback_depth + 1 } with
        | .ok v w2 =>
          callback_result E interp (.ok v)
            { w2 with rbtk_callback_depth := w2.rbtk_callback_depth - 1 }
        | .raise e w2 =>
          callback_result E interp (.error e)
            { w2 with rbtk_callback_depth := w2.rbtk_callback_depth - 1 }
        | .blocked q w2 => .blocked q w2
        | .out_of_fuel w2 => .out_of_fuel w2
        | .crashed w2 => .crashed w2 := by
  have hl : ¬ objv.length < 2 := by omega
  simp only [ruby_callback_proc_around, bind_apply, get_struct_apply, hl, if_false, hreg,
    modifyW_apply, rb_protect_apply]
  cases body proc (objv.drop 2) { w with rbtk_callback_depth := w.rbtk_callback_depth + 1 } <;>
    rfl

theorem ruby_callback_proc_around_rejected (body : ProcId → List String → M ε RValue)
    (w : World ε) (clientData : VALUE) (interp : Ptr) (objv : List String)
    (h : objv.length < 2 ∨
      rb_hash_aref (w.objs clientData).callbacks (objv.getD 1 "") = none) :
    (∃ w1, ruby_callback_proc_around E body clientData interp objv w = .ok TCL_ERROR w1 ∧
      w1.bridge = w.bridge ∧
      ∃ msg, w1.trace = w.trace ++ [.Tcl_SetResult interp msg]) := by
  by_cases hl : objv.length < 2
  · refine ⟨{ w with
        ext := (E.Tcl_SetResult interp "wrong # args: should be \"ruby_callback id ?args?\""
          w.ext).2
        trace := w.trace
          ++ [.Tcl_SetResult interp "wrong # args: should be \"ruby_callback id ?args?\""] },
      ?_, rfl, _, rfl⟩
    simp only [ruby_callback_proc_around, bind_apply, get_struct_apply, hl, if_true,
      foreign_apply, pure_apply]
  · rcases h with h | h
    · exact absurd h hl
    · refine ⟨{ w with
          ext := (E.Tcl_SetResult interp ("unknown callback id: " ++ objv.getD 1 "") w.ext).2
          trace := w.trace
            ++ [.Tcl_SetResult interp ("unknown callback id: " ++ objv.getD 1 "")] },
        ?_, rfl, _, rfl⟩
      simp only [ruby_callback_proc_around, bind_apply, get_struct_apply, hl, if_false, h,
        foreign_apply, pure_apply]

theorem balanced_bind {α β : Type} (m : M ε α) (f : α → M ε β) (hm : Balanced m)
    (hf : ∀ a, Balanced (f a)) : Balanced (m >>= f) := by
  constructor
  intro w w1
  rw [bind_apply]
  cases hmw : m w with
  | ok a w2 =>
    have h2 := ((hm.keep w w2).1 a hmw)
    constructor
    · intro b hb
      exact (((hf a).keep w2 w1).1 b hb).trans h2
    · intro e he
      exact (((hf a).keep w2 w1).2 e he).trans h2
  | raise e w2 =>
    constructor
    · intro b hb
      cases hb
    · intro e2 he
      simp only [Res.raise.injEq] at he
      rw [← he.2]
      exact (hm.keep w w2).2 e hmw
  | blocked q w2 => exact ⟨fun _ h => (by cases h), fun _ h => (by cases h)⟩
  | out_of_fuel w2 => exact ⟨fun _ h => (by cases h), fun _ h => (by cases h)⟩
  | crashed w2 => exact ⟨fun _ h => (by cases h), fun _ h => (by cases h)⟩

theorem balanced_around (body : ProcId → List String → M ε RValue)
    (hb : ∀ p a, Balanced (body p a)) (clientData : VALUE) (interp : Ptr)
    (objv : List String) :
    Balanced (ruby_callback_proc_around E body clientData interp objv) := by
  constructor
  intro w w1
  by_cases hrej : objv.length < 2 ∨
      rb_hash_aref (w.objs clientData).callbacks (objv.getD 1 "") = none
  · obtain ⟨w2, h2, hbr, _⟩ := ruby_callback_proc_around_rejected E body w clientData interp objv hrej
    have hdep : w2.rbtk_callback_depth = w.rbtk_callback_depth := by
      simp only [World.bridge, Prod.mk.injEq] at hbr
      exact hbr.2.2.2.2.2.2.2
    rw [h2]
    constructor
    · intro a ha
      cases ha
      exact hdep
    · intro e he
      cases he
  · have hlen : 2 ≤ objv.length := by
      by_contra hc
      exact hrej (Or.inl (by omega))
    cases hreg : rb_hash_aref (w.objs clientData).callbacks (objv.getD 1 "") with
    | none => exact absurd (Or.inr hreg) hrej
    | some proc =>
      rw [ruby_callback_proc_around_registered E body w clientData interp objv proc hlen hreg]
      cases hbody : body proc (objv.drop 2)
          { w with rbtk_callback_depth := w.rbtk_callback_depth + 1 } with
      | ok v w2 =>
        have h2 : w2.rbtk_callback_depth = w.rbtk_callback_depth + 1 :=
          ((hb proc (objv.drop 2)).keep _ w2).1 v hbody
        have hk := (depth_callback_result E interp (.ok v)).keep
          { w2 with rbtk_callback_depth := w2.rbtk_callback_depth - 1 }
        constructor
        · intro a ha
          simp only [] at ha
          rw [ha] at hk
          simp only [Res.state] at hk
          rw [hk, h2]
          omega
        · intro e he
          simp only [] at he
          rw [he] at hk
          simp only [Res.state] at hk
          rw [hk, h2]
          omega
      | raise e0 w2 =>
        have h2 : w2.rbtk_callback_depth = w.rbtk_callback_depth + 1 :=
          ((hb proc (objv.drop 2)).keep _ w2).2 e0 hbody
        have hk := (depth_callback_result E interp (.error e0)).keep
          { w2 with rbtk_callback_depth := w2.rbtk_callback_depth - 1 }
        constructor
        · intro a ha
          simp only [] at ha
          rw [ha] at hk
          simp only [Res.state] at hk
          rw [hk, h2]
          omega
        · intro e he
          simp only [] at he
          rw [he] at hk
          simp only [Res.state] at hk
          rw [hk, h2]
          omega
      | blocked q w2 => exact ⟨fun _ h => (by cases h), fun _ h => (by cases h)⟩
      | out_of_fuel w2 => exact ⟨fun _ h => (by cases h), fun _ h => (by cases h)⟩
      | crashed w2 => exact ⟨fun _ h => (by cases h), fun _ h => (by cases h)⟩

theorem balanced_nested_callback (clientData : VALUE) (interp : Ptr) (inner : List String)
    (n : Nat) : ∀ p a, Balanced (nested_callback E clientData interp inner n p a) := by
  induction n with
  | zero =>
    intro p a
    unfold nested_callback
    exact balanced_of_depth _ (depth_callback_invoke E p a)
  | succ n ih =>
    intro p a
    unfold nested_callback
    exact balanced_bind _ _ (balanced_around E _ ih clientData interp inner)
      fun _ => balanced_of_depth _ (depth_callback_invoke E p a)

theorem ret_callback_result (interp : Ptr) (result : Except RException RValue) :
    Returns (callback_result E interp result) := by
  unfold callback_result
  repeat' first
    | intro _
    | exact ret_pure _
    | exact ret_rb_exc_raise _
    | exact ret_foreign _ _
    | apply ret_bind
    | apply ret_ite
    | split

theorem depth_ruby_callback_proc (clientData : VALUE) (interp : Ptr) (objv : List String) :
    KeepsDepth (ruby_callback_proc E clientData interp objv) := by
  constructor
  intro w
  rw [ruby_callback_proc_eq_around]
  by_cases hrej : objv.length < 2 ∨
      rb_hash_aref (w.objs clientData).callbacks (objv.getD 1 "") = none
  · obtain ⟨w2, h2, hbr, _⟩ :=
      ruby_callback_proc_around_rejected E (callback_invoke E) w clientData interp objv hrej
    rw [h2]
    simp only [World.bridge, Prod.mk.injEq] at hbr
    exact hbr.2.2.2.2.2.2.2
  · have hlen : 2 ≤ objv.length := by
      by_contra hc
      exact hrej (Or.inl (by omega))
    cases hreg : rb_hash_aref (w.objs clientData).callbacks (objv.getD 1 "") with
    | none => exact absurd (Or.inr hreg) hrej
    | some proc =>
      rw [ruby_callback_proc_around_registered E _ w clientData interp objv proc hlen hreg]
      have hci := (depth_callback_invoke E proc (objv.drop 2)).keep
        { w with rbtk_callback_depth := w.rbtk_callback_depth + 1 }
      rcases (ret_callback_invoke E proc (objv.drop 2)).ret
          { w with rbtk_callback_depth := w.rbtk_callback_depth + 1 } with
        ⟨v, w2, h⟩ | ⟨e, w2, h⟩
      · rw [h] at hci ⊢
        simp only [Res.state] at hci
        rw [(depth_callback_result E interp (.ok v)).keep, hci]
        simp
      · rw [h] at hci ⊢
        simp only [Res.state] at hci
        rw [(depth_callback_result E interp (.error e)).keep, hci]
        simp

theorem initialize_runtime_stubs_unset (w : World ε) (self : VALUE) (cur : ThreadId)
    (hstubs : ∀ x, E.tclStubsPtr x = false)
    (hsym : ∀ x, E.dlsym "Tcl_CreateInterp" x = true)
    (hnew : ∀ x, (E.Tcl_CreateInterp x).1 ≠ 0)
    (hfail : ∀ p x, (E.Tcl_InitStubs p x).1 = none) :
    ∃ w1, initialize_runtime E self cur w = .crashed w1 := by
  rcases initialize_runtime_paths E w self cur with
    ⟨x, tr, h, _, _⟩ | ⟨p, e, x, tr, hp, h, _, _, _⟩ | ⟨p, x, tr, hp, h, _, _, _⟩ |
    ⟨p, x, tr, hp, h, _, _, _⟩
  · exfalso
    revert h
    unfold initialize_runtime
    cases hs : w.tcl_stubs_initialized <;>
      by_cases hf : E.dlsym "Tcl_FindExecutable" w.ext = true <;>
      simp [find_executable_bootstrap, create_interp_bootstrap, hstubs, hsym, hnew, hfail, hs, hf,
        init_failed_apply]
  · exfalso
    revert h
    unfold initialize_runtime
    cases hs : w.tcl_stubs_initialized <;>
      by_cases hf : E.dlsym "Tcl_FindExecutable" w.ext = true <;>
      simp [find_executable_bootstrap, create_interp_bootstrap, hstubs, hsym, hnew, hfail, hs, hf,
        init_failed_apply]
  · exfalso
    revert h
    unfold initialize_runtime
    cases hs : w.tcl_stubs_initialized <;>
      by_cases hf : E.dlsym "Tcl_FindExecutable" w.ext = true <;>
      simp [find_executable_bootstrap, create_interp_bootstrap, hstubs, hsym, hnew, hfail, hs, hf,
        init_failed_apply]
  · exact ⟨_, h⟩

theorem interp_tcl_invoke_unwound (w : World ε) (self : VALUE) (argv : List RValue)
    (ws : List String) (e : RException)
    (hd : (w.objs self).deleted = false) (hi : (w.objs self).interp ≠ 0) (hargv : argv ≠ [])
    (hw : words_of argv = .ok ws)
    (hu : (E.Tcl_EvalObjv (w.objs self).interp ws w.ext).1 = .unwound e) :
    ∃ w2, interp_tcl_invoke E argv self (w.objs self).main_thread_id w = .raise e w2 := by
  rw [interp_tcl_invoke_direct E w self argv hd hi hargv]
  exact ⟨_, execute_queued_invoke_unwound E w.asked self argv ws e hw hu⟩

theorem interp_tcl_eval_eq_around (self : VALUE) (script : RValue) (cur : ThreadId) :
    interp_tcl_eval E self script cur
      = interp_tcl_eval_around E (fun p s => foreign_code (.Tcl_Eval p s) (E.Tcl_Eval p s))
          self script cur := rfl

theorem interp_tcl_invoke_eq_around (argv : List RValue) (self : VALUE) (cur : ThreadId) :
    interp_tcl_invoke E argv self cur
      = interp_tcl_invoke_around E
          (fun p ws => foreign_code (.Tcl_EvalObjv p ws) (E.Tcl_EvalObjv p ws)) argv self cur :=
  rfl

theorem ruby_thread_event_handler_eq_around (tip : VALUE) :
    ruby_thread_event_handler E tip = ruby_thread_event_handler_around (execute_queued E) tip :=
  rfl

theorem ruby_thread_event_handler_around_empty (body : VALUE → CmdKind → M ε RValue)
    (w : World ε) (tip : VALUE) (hq : (w.objs tip).thread_queue = []) :
    ruby_thread_event_handler_around body tip w = .ok 1 w := by
  simp only [ruby_thread_event_handler_around, bind_apply, get_struct_apply, hq, pure_apply]

theorem ruby_thread_event_handler_around_cons (body : VALUE → CmdKind → M ε RValue)
    (w : World ε) (tip : VALUE) (cmd : Cmd) (rest : List Cmd)
    (hq : (w.objs tip).thread_queue = cmd :: rest) :
    ruby_thread_event_handler_around body tip w
      = match body tip cmd.kind (w.store tip { w.objs tip with thread_queue := rest }) with
        | .ok v w2 => .ok 1 (w2.publish cmd.queue ⟨v, none⟩)
        | .raise e w2 =>
          if rb_obj_is_kind_of e .SystemExit || rb_obj_is_kind_of e .Interrupt then
            .raise e w2
          else
            .ok 1 (w2.publish cmd.queue ⟨.nil, some e⟩)
        | .blocked q w2 => .blocked q w2
        | .out_of_fuel w2 => .out_of_fuel w2
        | .crashed w2 => .crashed w2 := by
  simp only [ruby_thread_event_handler_around, bind_apply, get_struct_apply, hq,
    set_struct_apply, rb_protect_apply]
  cases body tip cmd.kind (w.store tip { w.objs tip with thread_queue := rest }) with
  | ok v w2 => cases cmd.queue <;> simp [World.publish, Queue_push]
  | raise e w2 =>
    cases hf : (rb_obj_is_kind_of e .SystemExit || rb_obj_is_kind_of e .Interrupt) <;>
      cases cmd.queue <;> simp [World.publish, Queue_push, hf]
  | blocked q w2 => rfl
  | out_of_fuel w2 => rfl
  | crashed w2 => rfl

theorem run_queued_command_returns (w : World ε) (tip : VALUE) (cmd : Cmd) :
    (∃ w2, run_queued_command E tip cmd w = .ok 1 w2) ∨
    (∃ e w2, run_queued_command E tip cmd w = .raise e w2) := by
  rcases (ret_execute_queued E tip cmd.kind).ret w with ⟨v, w2, hx⟩ | ⟨e, w2, hx⟩
  · exact Or.inl ⟨_, run_queued_command_ok E w w2 tip cmd v hx⟩
  · cases hf : (rb_obj_is_kind_of e .SystemExit || rb_obj_is_kind_of e .Interrupt)
    · exact Or.inl ⟨_, run_queued_command_error E w w2 tip cmd e hx hf⟩
    · exact Or.inr ⟨e, w2, run_queued_command_fatal E w w2 tip cmd e hx hf⟩

theorem nested_handler_run (w : World ε) (tip : VALUE) (p1 p2 : ProcId)
    (q1 q2 : Option QueueId) (rest : List Cmd)
    (hq : (w.objs tip).thread_queue = ⟨.proc p1, q1⟩ :: ⟨.proc p2, q2⟩ :: rest) :
    ((ruby_thread_event_handler_around (execute_after_events E) tip w).state.objs
      tip).thread_queue = rest ∧
    ((ruby_thread_event_handler_around (execute_after_events E) tip w).state.trace
        = w.trace ++ [.rb_proc_call p2 [], .rb_proc_call p1 []] ∨
     (ruby_thread_event_handler_around (execute_after_events E) tip w).state.trace
        = w.trace ++ [.rb_proc_call p2 []]) := by
  rw [ruby_thread_event_handler_around_cons (execute_after_events E) w tip _ _ hq]
  have hinner := ruby_thread_event_handler_cons E
    (w.store tip { w.objs tip with thread_queue := ⟨.proc p2, q2⟩ :: rest }) tip
    ⟨.proc p2, q2⟩ rest (by simp [World.store])
  have htr := run_queued_proc_trace E
    ((w.store tip { w.objs tip with thread_queue := ⟨.proc p2, q2⟩ :: rest }).store tip
      { (w.store tip { w.objs tip with thread_queue := ⟨.proc p2, q2⟩ :: rest }).objs tip with
        thread_queue := rest }) tip p2 q2
  have hob := run_queued_command_objs E
    ((w.store tip { w.objs tip with thread_queue := ⟨.proc p2, q2⟩ :: rest }).store tip
      { (w.store tip { w.objs tip with thread_queue := ⟨.proc p2, q2⟩ :: rest }).objs tip with
        thread_queue := rest }) tip ⟨.proc p2, q2⟩
  simp only [execute_after_events, bind_apply, hinner]
  rcases run_queued_command_returns E
    ((w.store tip { w.objs tip with thread_queue := ⟨.proc p2, q2⟩ :: rest }).store tip
      { (w.store tip { w.objs tip with thread_queue := ⟨.proc p2, q2⟩ :: rest }).objs tip with
        thread_queue := rest }) tip ⟨.proc p2, q2⟩ with ⟨w2, h2⟩ | ⟨e, w2, h2⟩
  · rw [h2] at htr hob ⊢
    simp only [Res.state] at htr hob
    have hx1 := execute_queued_objs E w2 _ tip (.proc p1) rfl
    cases hr : (E.rb_proc_call p1 [] w2.ext).1 with
    | value v =>
      have hx : execute_queued E tip (.proc p1) w2
          = .ok v { w2 with ext := (E.rb_proc_call p1 [] w2.ext).2,
                            trace := w2.trace ++ [.rb_proc_call p1 []] } := by
        simp [execute_queued, execute_queued_proc, callback_invoke, hr]
      simp only [hx, Res.state, publish_objs, publish_trace, htr, hob]
      exact ⟨by simp [World.store], Or.inl (by simp [World.store])⟩
    | raised e =>
      have hx : execute_queued E tip (.proc p1) w2
          = .raise e { w2 with ext := (E.rb_proc_call p1 [] w2.ext).2,
                               trace := w2.trace ++ [.rb_proc_call p1 []] } := by
        simp [execute_queued, execute_queued_proc, callback_invoke, hr]
      simp only [hx]
      split <;>
        simp only [Res.state, publish_objs, publish_trace, htr, hob] <;>
        exact ⟨by simp [World.store], Or.inl (by simp [World.store])⟩
  · rw [h2] at htr hob ⊢
    simp only [Res.state] at htr hob
    simp only
    split <;>
      simp only [Res.state, publish_objs, publish_trace, htr, hob] <;>
      exact ⟨by simp [World.store], Or.inr (by simp [World.store])⟩

theorem tested_run_replicate (i : Int) (k : Nat) :
    tested_run (List.replicate k i) = tested_iterations i k := by
  induction k with
  | zero => rfl
  | succ k ih => simp [List.replicate_succ, tested_run, tested_iterations, ih]

theorem interp_mainloop_live (w : World ε) (self : VALUE) (fuel : Nat)
    (hd : (w.objs self).deleted = false) (hi : (w.objs self).interp ≠ 0) :
    interp_mainloop E self fuel w
      = (interp_mainloop_loop E self fuel >>= fun _ => pure .nil)
          (World.armed E w (w.objs self).timer_interval_ms (some self)) := by
  by_cases ht : (w.objs self).timer_interval_ms > 0 <;>
    simp [interp_mainloop, get_interp_live w self hd hi, World.armed, ht]

theorem lib_mainloop_eq (w : World ε) (argv : List RValue) (fuel : Nat) :
    lib_mainloop E argv fuel w
      = (lib_mainloop_loop E
            (match argv with
             | [] => true
             | a :: _ => if a ≠ .nil then RTEST a else true) fuel >>= fun _ => pure .nil)
          (World.armed E w w.g_thread_timer_ms none) := by
  cases argv with
  | nil =>
    by_cases ht : w.g_thread_timer_ms > 0 <;>
      simp [lib_mainloop, World.armed, ht]
  | cons a rest =>
    by_cases ht : w.g_thread_timer_ms > 0 <;>
      simp [lib_mainloop, World.armed, ht]

theorem interp_mainloop_iteration_eq_around (self : VALUE) :
    interp_mainloop_iteration E self
      = interp_mainloop_iteration_around E
          (foreign_code (.Tcl_DoOneEvent TCL_ALL_EVENTS) (E.Tcl_DoOneEvent TCL_ALL_EVENTS)) self :=
  rfl

theorem lib_mainloop_iteration_eq_around :
    lib_mainloop_iteration E
      = lib_mainloop_iteration_around E
          (foreign_code (.Tcl_DoOneEvent TCL_ALL_EVENTS) (E.Tcl_DoOneEvent TCL_ALL_EVENTS)) :=
  rfl

theorem interp_mainloop_iteration_around_ok (event : M ε Int) (self : VALUE) (w wE : World ε)
    (c : Int) (h : event w = .ok c wE) :
    (interp_mainloop_iteration_around E event self w).outcome ≠ none ∧
    (interp_mainloop_iteration_around E event self w).state.trace
      = wE.trace ++ (if (wE.objs self).timer_interval_ms > 0
          then [.rb_thread_call_without_gvl] else []) ++ [.rb_thread_check_ints] := by
  by_cases ht : (wE.objs self).timer_interval_ms > 0
  · cases hC : (E.rb_thread_check_ints (E.rb_thread_call_without_gvl wE.ext).2).1 <;>
      simp [interp_mainloop_iteration_around, h, ht, rb_thread_check_ints, hC, Res.outcome,
        Res.state, rb_exc_raise]
  · cases hC : (E.rb_thread_check_ints wE.ext).1 <;>
      simp [interp_mainloop_iteration_around, h, ht, rb_thread_check_ints, hC, Res.outcome,
        Res.state, rb_exc_raise]

theorem lib_mainloop_iteration_around_ok (event : M ε Int) (w wE : World ε)
    (c : Int) (h : event w = .ok c wE) :
    (lib_mainloop_iteration_around E event w).outcome ≠ none ∧
    (lib_mainloop_iteration_around E event w).state.trace
      = wE.trace ++ (if wE.g_thread_timer_ms > 0
          then [.rb_thread_call_without_gvl] else []) ++ [.rb_thread_check_ints] := by
  by_cases ht : wE.g_thread_timer_ms > 0
  · cases hC : (E.rb_thread_check_ints (E.rb_thread_call_without_gvl wE.ext).2).1 <;>
      simp [lib_mainloop_iteration_around, h, ht, rb_thread_check_ints, hC, Res.outcome,
        Res.state, rb_exc_raise]
  · cases hC : (E.rb_thread_check_ints wE.ext).1 <;>
      simp [lib_mainloop_iteration_around, h, ht, rb_thread_check_ints, hC, Res.outcome,
        Res.state, rb_exc_raise]

theorem interp_mainloop_completed (w w1 : World ε) (self : VALUE) (fuel : Nat) (r : RValue)
    (hd : (w.objs self).deleted = false) (hi : (w.objs self).interp ≠ 0)
    (h : interp_mainloop E self fuel w = .ok r w1) :
    r = .nil ∧ ∃ ivs : List Int, ivs.length ≤ fuel ∧
      w1.trace = (World.armed E w (w.objs self).timer_interval_ms (some self)).trace
        ++ tested_run ivs ++ [.Tk_GetNumMainWindows] := by
  rw [interp_mainloop_live E w self fuel hd hi, bind_apply] at h
  cases hl : interp_mainloop_loop E self fuel
      (World.armed E w (w.objs self).timer_interval_ms (some self)) with
  | ok a w2 =>
    rw [hl] at h
    simp only [pure_apply, Res.ok.injEq] at h
    obtain ⟨k, hk, htr, _⟩ := interp_mainloop_loop_completed E self fuel _ w2 hl
    refine ⟨h.1.symm, List.replicate k
      ((World.armed E w (w.objs self).timer_interval_ms (some self)).objs
        self).timer_interval_ms, by simpa using hk, ?_⟩
    rw [← h.2, htr, tested_run_replicate]
  | raise e w2 => rw [hl] at h; cases h
  | blocked q w2 => rw [hl] at h; cases h
  | out_of_fuel w2 => rw [hl] at h; cases h
  | crashed w2 => rw [hl] at h; cases h

theorem lib_mainloop_completed (w w1 : World ε) (fuel : Nat) (r : RValue)
    (h : lib_mainloop E [] fuel w = .ok r w1) :
    r = .nil ∧ ∃ ivs : List Int, ivs.length ≤ fuel ∧
      w1.trace = (World.armed E w w.g_thread_timer_ms none).trace
        ++ tested_run ivs ++ [.Tk_GetNumMainWindows] := by
  rw [lib_mainloop_eq E w [] fuel, bind_apply] at h
  cases hl : lib_mainloop_loop E true fuel (World.armed E w w.g_thread_timer_ms none) with
  | ok a w2 =>
    simp only at h
    rw [hl] at h
    simp only [pure_apply, Res.ok.injEq] at h
    obtain ⟨k, hk, htr, _⟩ := lib_mainloop_loop_completed E fuel _ w2 hl
    refine ⟨h.1.symm, List.replicate k
      (World.armed E w w.g_thread_timer_ms none).g_thread_timer_ms, by simpa using hk, ?_⟩
    rw [← h.2, htr, tested_run_replicate]
  | raise e w2 => simp only at h; rw [hl] at h; cases h
  | blocked q w2 => simp only at h; rw [hl] at h; cases h
  | out_of_fuel w2 => simp only at h; rw [hl] at h; cases h
  | crashed w2 => simp only at h; rw [hl] at h; cases h

/-! ## Claims -/

/-- C1 (as amended). On a handle in the deleted state (deleted flag set or
foreign pointer null) each of evaluate, invoke, get_variable, set_variable,
register_callback, unregister_callback, queue_for_main, on_owning_thread?,
run_loop, is_safe, create_child_interpreter, the timer getter and setter and
split_list raises the deleted-interpreter error and leaves the whole process
state as it was, so no foreign call is made. The per-handle process-one-event
never looks at the handle: it is the global process-one-event. -/
theorem deleted_handle_refused (w : World ε) (self : VALUE)
    (h : (w.objs self).deleted = true ∨ (w.objs self).interp = 0) :
    (∀ script cur, interp_tcl_eval E self script cur w
        = .raise ⟨.TclError, "interpreter has been deleted"⟩ w) ∧
    (∀ argv cur, interp_tcl_invoke E argv self cur w
        = .raise ⟨.TclError, "interpreter has been deleted"⟩ w) ∧
    (∀ name, interp_tcl_get_var E self name w
        = .raise ⟨.TclError, "interpreter has been deleted"⟩ w) ∧
    (∀ name value, interp_tcl_set_var E self name value w
        = .raise ⟨.TclError, "interpreter has been deleted"⟩ w) ∧
    (∀ proc, interp_register_callback self proc w
        = .raise ⟨.TclError, "interpreter has been deleted"⟩ w) ∧
    (∀ id, interp_unregister_callback self id w
        = .raise ⟨.TclError, "interpreter has been deleted"⟩ w) ∧
    (∀ proc cur, interp_queue_for_main E self proc cur w
        = .raise ⟨.TclError, "interpreter has been deleted"⟩ w) ∧
    (∀ cur, interp_on_main_thread_p self cur w
        = .raise ⟨.TclError, "interpreter has been deleted"⟩ w) ∧
    (∀ fuel, interp_mainloop E self fuel w
        = .raise ⟨.TclError, "interpreter has been deleted"⟩ w) ∧
    (interp_safe_p E self w
        = .raise ⟨.TclError, "interpreter has been deleted"⟩ w) ∧
    (∀ name safemode cur, interp_create_slave E self name safemode cur w
        = .raise ⟨.TclError, "interpreter has been deleted"⟩ w) ∧
    (interp_get_thread_timer_ms self w
        = .raise ⟨.TclError, "interpreter has been deleted"⟩ w) ∧
    (∀ val, interp_set_thread_timer_ms self val w
        = .raise ⟨.TclError, "interpreter has been deleted"⟩ w) ∧
    (∀ list_str, interp_tcl_split_list E self list_str w
        = .raise ⟨.TclError, "interpreter has been deleted"⟩ w) ∧
    (∀ argv, interp_do_one_event E argv self w = lib_do_one_event E argv w) ∧
    (∀ c, (E.Tcl_DoOneEvent TCL_ALL_EVENTS w.ext).1 = .code c →
      interp_do_one_event E [] self w
        = .ok (.bool (c ≠ 0))
            { w with ext := (E.Tcl_DoOneEvent TCL_ALL_EVENTS w.ext).2,
                     trace := w.trace ++ [.Tcl_DoOneEvent TCL_ALL_EVENTS] }) := by
  have hg := get_interp_dead w self h
  refine ⟨?_, ?_, ?_, ?_, ?_, ?_, ?_, ?_, ?_, ?_, ?_, ?_, ?_, ?_, ?_, ?_⟩
  · intro script cur; simp [interp_tcl_eval, hg]
  · intro argv cur; simp [interp_tcl_invoke, hg]
  · intro name; simp [interp_tcl_get_var, hg]
  · intro name value; simp [interp_tcl_set_var, hg]
  · intro proc; simp [interp_register_callback, hg]
  · intro id; simp [interp_unregister_callback, hg]
  · intro proc cur
    rcases h with h | h <;> simp [interp_queue_for_main, h]
  · intro cur; simp [interp_on_main_thread_p, hg]
  · intro fuel; simp [interp_mainloop, hg]
  · simp [interp_safe_p, hg]
  · intro name safemode cur; simp [interp_create_slave, hg]
  · simp [interp_get_thread_timer_ms, hg]
  · intro val; simp [interp_set_thread_timer_ms, hg]
  · intro list_str; simp [interp_tcl_split_list, hg]
  · intro argv; rfl
  · intro c hc
    simp [interp_do_one_event, foreign_code, hc]

/-- C1 witness: a freshly allocated handle has a null pointer, so it is in the
deleted state and every guarded operation is refused. -/
theorem deleted_handle_refused_witness :
    ((demo_alloc.objs 0).deleted = true ∨ (demo_alloc.objs 0).interp = 0) ∧
    interp_safe_p (stubEnv (.value .nil)) 0 demo_alloc
      = .raise ⟨.TclError, "interpreter has been deleted"⟩ demo_alloc :=
  ⟨Or.inr rfl,
   (deleted_handle_refused (stubEnv (.value .nil)) demo_alloc 0 (Or.inr rfl)).2.2.2.2.2.2.2.2.2.1⟩

/-- C1 counterexample: handle 0 has been deleted (flag set, `deleted?` is true),
yet `Interp#do_one_event` on it raises nothing, returns `false` and calls
`Tcl_DoOneEvent`. -/
theorem deleted_handle_do_one_event_runs :
    (demo_deleted.objs 0).deleted = true ∧
    (interp_deleted_p 0 demo_deleted).value? = some (.bool true) ∧
    (interp_do_one_event (stubEnv (.value .nil)) [] 0 demo_deleted).error? = none ∧
    (interp_do_one_event (stubEnv (.value .nil)) [] 0 demo_deleted).value? = some (.bool false) ∧
    (interp_do_one_event (stubEnv (.value .nil)) [] 0 demo_deleted).state.trace
      = demo_deleted.trace ++ [.Tcl_DoOneEvent TCL_ALL_EVENTS] := by
  refine ⟨by decide, by decide, by decide, by decide, by decide⟩

/-- C2. `Interp#delete` always returns without error; a second call returns
without error and leaves the whole process state (the handle, the instance
registry and the trace of foreign calls, so no second `Tcl_DeleteInterp`)
exactly as the first call left it; `deleted?` is true after the first call. -/
theorem interp_delete_idempotent (w : World ε) (self : VALUE) :
    ∃ w1, interp_delete E self w = .ok .nil w1 ∧
      interp_delete E self w1 = .ok .nil w1 ∧
      interp_deleted_p self w1 = .ok (.bool true) w1 := by
  by_cases hi : (w.objs self).interp = 0
  · refine ⟨w, interp_delete_dead E w self (Or.inr hi), interp_delete_dead E w self (Or.inr hi), ?_⟩
    simp [interp_deleted_p_eq, hi]
  · cases hd : (w.objs self).deleted
    · refine ⟨_, interp_delete_live E w self hi hd, ?_, ?_⟩
      · apply interp_delete_dead
        left
        simp [World.store]
      · simp [interp_deleted_p_eq, World.store]
    · refine ⟨w, interp_delete_dead E w self (Or.inl hd), interp_delete_dead E w self (Or.inl hd), ?_⟩
      simp [interp_deleted_p_eq, hd]

/-- C3 counterexample: right after allocation the foreign pointer of handle 0
is null while its deleted flag is false, so "pointer null iff flag true" fails
in a reachable state. -/
theorem alloc_null_pointer_flag_clear :
    (demo_alloc.objs 0).interp = 0 ∧ (demo_alloc.objs 0).deleted = false ∧
    ¬ ((demo_alloc.objs 0).interp = 0 ↔ (demo_alloc.objs 0).deleted = true) := by
  refine ⟨by decide, by decide, by decide⟩

/-- C3 (as amended). The foreign pointer and the deleted flag are set by four
transitions only, and "deleted" means flag set or pointer null:
allocation gives a null pointer with the flag clear; initialising a fresh
handle ends with a non-null pointer and the flag clear, or with an error, a
null pointer and the flag clear, or the process dies on the unset stubs table
with the flag clear; delete returns with the handle in the deleted state and
sets the flag of a live handle, the pointer of the handle is null afterwards
exactly when Tcl ran its deletion callback inside `Tcl_DeleteInterp` and is
otherwise as it was, every other handle is either notified too (flag set,
pointer null) or unchanged, and delete on a handle that is not live changes
nothing; the deletion notification sets the flag and nulls the
pointer; `deleted?` reports flag-or-null; a child interpreter is created with
a non-null pointer and the flag clear; every other operation leaves the
pointer and the flag of every handle unchanged. -/
theorem pointer_and_flag_transitions (w : World ε) (self : VALUE) :
    (∃ w1, interp_alloc w = .ok w.n_objs w1 ∧
      (w1.objs w.n_objs).interp = 0 ∧ (w1.objs w.n_objs).deleted = false) ∧
    (∀ name opts cur, (w.objs self).interp = 0 → (w.objs self).deleted = false →
      ((∃ w1, interp_initialize E self name opts cur w = .ok self w1 ∧
          (w1.objs self).interp ≠ 0 ∧ (w1.objs self).deleted = false) ∨
       (∃ e w1, interp_initialize E self name opts cur w = .raise e w1 ∧
          (w1.objs self).interp = 0 ∧ (w1.objs self).deleted = false) ∨
       (∃ w1, interp_initialize E self name opts cur w = .crashed w1 ∧
          E.tclStubsPtr w1.ext = false ∧
          (w1.objs self).interp ≠ 0 ∧ (w1.objs self).deleted = false))) ∧
    (∃ w1, interp_delete E self w = .ok .nil w1 ∧
      ((w1.objs self).deleted = true ∨ (w1.objs self).interp = 0) ∧
      ((w.objs self).interp ≠ 0 → (w1.objs self).deleted = true) ∧
      ((w.objs self).interp ≠ 0 → (w.objs self).deleted = false →
        (w1.objs self).interp
          = if self ∈ (E.Tcl_DeleteInterp (w.objs self).interp w.ext).1 then 0
            else (w.objs self).interp) ∧
      (∀ v, v ≠ self →
        ((w1.objs v).interp = (w.objs v).interp ∧ (w1.objs v).deleted = (w.objs v).deleted) ∨
        ((w1.objs v).interp = 0 ∧ (w1.objs v).deleted = true)) ∧
      ((w.objs self).interp = 0 ∨ (w.objs self).deleted = true → w1 = w)) ∧
    (∃ w1, interp_deleted_callback self w = .ok () w1 ∧
      (w1.objs self).deleted = true ∧ (w1.objs self).interp = 0) ∧
    (interp_deleted_p self w
      = .ok (.bool ((w.objs self).deleted || (w.objs self).interp == 0)) w) ∧
    (∀ name safemode cur child w1,
      interp_create_slave E self name safemode cur w = .ok child w1 →
        (w1.objs child).interp ≠ 0 ∧ (w1.objs child).deleted = false) ∧
    (∀ script cur, KeepsFlags (interp_tcl_eval E self script cur)) ∧
    (∀ argv cur, KeepsFlags (interp_tcl_invoke E argv self cur)) ∧
    (∀ name, KeepsFlags (interp_tcl_get_var E self name)) ∧
    (∀ name value, KeepsFlags (interp_tcl_set_var E self name value)) ∧
    (∀ proc, KeepsFlags (interp_register_callback self proc : M ε RValue)) ∧
    (∀ id, KeepsFlags (interp_unregister_callback self id : M ε RValue)) ∧
    (∀ proc cur, KeepsFlags (interp_queue_for_main E self proc cur)) ∧
    (∀ cur, KeepsFlags (interp_on_main_thread_p self cur : M ε RValue)) ∧
    (∀ fuel, KeepsFlags (interp_mainloop E self fuel)) ∧
    (∀ argv, KeepsFlags (interp_do_one_event E argv self)) ∧
    KeepsFlags (interp_safe_p E self) ∧
    KeepsFlags (interp_tcl_version E self) ∧
    KeepsFlags (interp_tk_version E self) ∧
    KeepsFlags (interp_get_thread_timer_ms self : M ε RValue) ∧
    (∀ val, KeepsFlags (interp_set_thread_timer_ms self val : M ε RValue)) ∧
    (∀ list_str, KeepsFlags (interp_tcl_split_list E self list_str)) ∧
    (∀ interp objv, KeepsFlags (ruby_callback_proc E self interp objv)) ∧
    (∀ interp objv, KeepsFlags (ruby_eval_proc E self interp objv)) ∧
    KeepsFlags (ruby_thread_event_handler E self) ∧
    KeepsFlags (keepalive_timer_proc E self) := by
  refine ⟨?_, ?_, ?_, ?_, interp_deleted_p_eq w self, ?_, ?_⟩
  rotate_left 4
  · intro name safemode cur child w1 h
    have hs := interp_create_slave_ok E w w1 self child name safemode cur h
    exact ⟨hs.2.2.2.1, hs.2.2.2.2.1⟩
  rotate_left 1
  · exact ⟨_, rfl, by simp [World.store], by simp [World.store]⟩
  · intro name opts cur hi hd
    exact interp_initialize_flags E w self name opts cur hi hd
  · by_cases hi : (w.objs self).interp = 0
    · exact ⟨w, interp_delete_dead E w self (Or.inr hi), Or.inr hi, fun h => absurd hi h,
        fun h => absurd hi h, fun _ _ => Or.inl ⟨rfl, rfl⟩, fun _ => rfl⟩
    · cases hd : (w.objs self).deleted
      · refine ⟨_, interp_delete_live E w self hi hd, by simp [World.store],
          by simp [World.store], ?_, ?_, ?_⟩
        · intro _ _
          by_cases hm : self ∈ (E.Tcl_DeleteInterp (w.objs self).interp w.ext).1 <;>
            simp [World.store, after_delete_objs, hm]
        · intro v hv
          by_cases hm : v ∈ (E.Tcl_DeleteInterp (w.objs self).interp w.ext).1
          · right
            simp [World.store, after_delete_objs, hm, hv]
          · left
            simp [World.store, after_delete_objs, hm, hv]
        · intro h
          rcases h with h | h
          · exact absurd h hi
          · cases h
      · exact ⟨w, interp_delete_dead E w self (Or.inl hd), Or.inl hd, fun _ => hd,
          fun _ h => absurd h (by decide), fun _ _ => Or.inl ⟨rfl, rfl⟩,
          fun _ => rfl⟩
  · exact ⟨_, rfl, by simp [World.store], by simp [World.store]⟩
  · exact ⟨fun _ _ => keeps_interp_tcl_eval E _ _ _,
      fun _ _ => keeps_interp_tcl_invoke E _ _ _,
      fun _ => keeps_interp_tcl_get_var E _ _,
      fun _ _ => keeps_interp_tcl_set_var E _ _ _,
      fun _ => keeps_interp_register_callback _ _,
      fun _ => keeps_interp_unregister_callback _ _,
      fun _ _ => keeps_interp_queue_for_main E _ _ _,
      fun _ => keeps_interp_on_main_thread_p _ _,
      fun _ => keeps_interp_mainloop E _ _,
      fun _ => keeps_interp_do_one_event E _ _,
      keeps_interp_safe_p E _,
      keeps_interp_tcl_version E _,
      keeps_interp_tk_version E _,
      keeps_interp_get_thread_timer_ms _,
      fun _ => keeps_interp_set_thread_timer_ms _ _,
      fun _ => keeps_interp_tcl_split_list E _ _,
      fun _ _ => keeps_ruby_callback_proc E _ _ _,
      fun _ _ => keeps_ruby_eval_proc E _ _ _,
      keeps_ruby_thread_event_handler E _,
      keeps_keepalive_timer_proc E _⟩

/-- C3 witness: the live handle 0 is deleted on a foreign side that runs its
deletion callback inside `Tcl_DeleteInterp`: the two hypotheses of the pointer
clause hold and the pointer is null when delete returns. -/
theorem pointer_and_flag_transitions_witness :
    (demo_live.objs 0).interp ≠ 0 ∧ (demo_live.objs 0).deleted = false ∧
    (demo_deleted.objs 0).interp = 0 ∧ (demo_deleted.objs 0).deleted = true := by
  obtain ⟨w1, h, _, h2, h3, _⟩ := (pointer_and_flag_transitions notifyEnv demo_live 0).2.2.1
  have hw : w1 = demo_deleted := by
    have h0 : interp_delete notifyEnv 0 demo_live = .ok .nil demo_deleted := rfl
    rw [h0] at h
    simp only [Res.ok.injEq, true_and] at h
    exact h.symm
  subst hw
  exact ⟨by decide, by decide, by simpa [notifyEnv] using h3 (by decide) (by decide),
    h2 (by decide)⟩

/-- C4. The deletion callback is registered with Tcl for the handle's own
interpreter by every successful `initialize` and `create_slave`. When Tcl runs
it, without any call to delete, the handle gets flag true and pointer null and
nothing else in the process changes (no foreign call is made); from then on
`deleted?` is true, and `delete` and the finalizer return without calling
`Tcl_DeleteInterp` or changing anything. -/
theorem deletion_notification (w w1 : World ε) (self : VALUE) (name : RValue)
    (opts : Option (List (String × RValue))) (cur : ThreadId)
    (hinit : interp_initialize E self name opts cur w = .ok self w1) :
    FCall.Tcl_CallWhenDeleted (w1.objs self).interp self ∈ w1.trace ∧
    (∀ (w2 w3 : World ε) (master child : VALUE) (nm safemode : RValue) (c : ThreadId),
      interp_create_slave E master nm safemode c w2 = .ok child w3 →
        FCall.Tcl_CallWhenDeleted (w3.objs child).interp child ∈ w3.trace) ∧
    (∀ (w2 : World ε) (h : VALUE),
      ∃ w3, interp_deleted_callback h w2 = .ok () w3 ∧
        w3 = w2.store h { w2.objs h with deleted := true, interp := 0 } ∧
        w3.trace = w2.trace ∧
        interp_deleted_p h w3 = .ok (.bool true) w3 ∧
        interp_delete E h w3 = .ok .nil w3 ∧
        interp_free E h w3 = .ok () w3) := by
  refine ⟨?_, ?_, ?_⟩
  · rcases interp_initialize_outcome E w self name opts cur with
      ⟨e, h⟩ | ⟨ms, e, x, tr, h⟩ | ⟨ms, p, x, tr, hp, h, hmem⟩ | ⟨ms, p, x, tr, hp, h, _⟩
    · rw [h] at hinit; cases hinit
    · rw [h] at hinit; cases hinit
    · rw [h] at hinit
      cases hinit
      simp [World.store, hmem]
    · rw [h] at hinit; cases hinit
  · intro w2 w3 master child nm safemode c h
    exact (interp_create_slave_ok E w2 w3 master child nm safemode c h).2.2.2.2.2
  · intro w2 h
    refine ⟨_, rfl, rfl, rfl, ?_, ?_, ?_⟩
    · simp [interp_deleted_p_eq]
    · exact interp_delete_dead E _ h (Or.inl (by simp))
    · exact interp_free_dead E _ h (Or.inl (by simp))

/-- C4 witness: handle 0 is initialised by thread 1 with every Tcl call
succeeding. -/
theorem deletion_notification_witness :
    interp_initialize (stubEnv (.value .nil)) 0 .nil none 1 demo_alloc = .ok 0 demo_live ∧
    FCall.Tcl_CallWhenDeleted (demo_live.objs 0).interp 0 ∈ demo_live.trace :=
  ⟨rfl, (deletion_notification (stubEnv (.value .nil)) demo_alloc demo_live 0 .nil none 1 rfl).1⟩

/-- C5 (divergence). For a registered closure the completion code of
`ruby_callback` is decided by the closure's outcome alone, whatever the state:
a value that is `nil` or whose text has no NUL byte gives `TCL_OK`; a
`TkCallbackBreak` gives `TCL_BREAK`, a `TkCallbackContinue` `TCL_CONTINUE`, a
`TkCallbackReturn` `TCL_RETURN`, each without touching the interpreter result;
any other exception that is not `SystemExit` or `Interrupt` and whose message
has no NUL byte gives `TCL_ERROR` with the message as the interpreter result.
The five codes are pairwise distinct. When the text of the value, or the
message of such an exception, contains a NUL byte, the command gives no code at
all: `StringValueCStr` raises `ArgumentError`, which unwinds out of the command
after the one call of the closure, and no result is set. -/
theorem callback_outcome_translation (w : World ε) (clientData : VALUE) (interp : Ptr)
    (objv : List String) (proc : ProcId) (hlen : 2 ≤ objv.length)
    (hreg : rb_hash_aref (w.objs clientData).callbacks (objv.getD 1 "") = some proc) :
    (∀ v, (E.rb_proc_call proc (objv.drop 2) w.ext).1 = .value v →
      NIL_P v = true ∨ contains_nul (rb_String v) = false →
      (ruby_callback_proc E clientData interp objv w).value? = some TCL_OK) ∧
    (∀ e, (E.rb_proc_call proc (objv.drop 2) w.ext).1 = .raised e →
      rb_obj_is_kind_of e .TkCallbackBreak = true →
      ruby_callback_proc E clientData interp objv w
        = .ok TCL_BREAK { w with ext := (E.rb_proc_call proc (objv.drop 2) w.ext).2,
                                 trace := w.trace ++ [.rb_proc_call proc (objv.drop 2)] }) ∧
    (∀ e, (E.rb_proc_call proc (objv.drop 2) w.ext).1 = .raised e →
      rb_obj_is_kind_of e .TkCallbackContinue = true →
      ruby_callback_proc E clientData interp objv w
        = .ok TCL_CONTINUE { w with ext := (E.rb_proc_call proc (objv.drop 2) w.ext).2,
                                    trace := w.trace ++ [.rb_proc_call proc (objv.drop 2)] }) ∧
    (∀ e, (E.rb_proc_call proc (objv.drop 2) w.ext).1 = .raised e →
      rb_obj_is_kind_of e .TkCallbackReturn = true →
      ruby_callback_proc E clientData interp objv w
        = .ok TCL_RETURN { w with ext := (E.rb_proc_call proc (objv.drop 2) w.ext).2,
                                  trace := w.trace ++ [.rb_proc_call proc (objv.drop 2)] }) ∧
    (∀ e, (E.rb_proc_call proc (objv.drop 2) w.ext).1 = .raised e →
      rb_obj_is_kind_of e .SystemExit = false → rb_obj_is_kind_of e .Interrupt = false →
      rb_obj_is_kind_of e .TkCallbackBreak = false →
      rb_obj_is_kind_of e .TkCallbackContinue = false →
      rb_obj_is_kind_of e .TkCallbackReturn = false →
      contains_nul e.message = false →
      ruby_callback_proc E clientData interp objv w
        = .ok TCL_ERROR
            { w with ext := (E.Tcl_SetResult interp e.message
                              (E.rb_proc_call proc (objv.drop 2) w.ext).2).2,
                     trace := w.trace ++ [.rb_proc_call proc (objv.drop 2),
                                          .Tcl_SetResult interp e.message] }) ∧
    [TCL_OK, TCL_ERROR, TCL_RETURN, TCL_BREAK, TCL_CONTINUE].Nodup ∧
    (∀ v, (E.rb_proc_call proc (objv.drop 2) w.ext).1 = .value v →
      NIL_P v = false → contains_nul (rb_String v) = true →
      ruby_callback_proc E clientData interp objv w
        = .raise ⟨.ArgumentError, "string contains null byte"⟩
            { w with ext := (E.rb_proc_call proc (objv.drop 2) w.ext).2,
                     trace := w.trace ++ [.rb_proc_call proc (objv.drop 2)] }) ∧
    (∀ e, (E.rb_proc_call proc (objv.drop 2) w.ext).1 = .raised e →
      rb_obj_is_kind_of e .SystemExit = false → rb_obj_is_kind_of e .Interrupt = false →
      rb_obj_is_kind_of e .TkCallbackBreak = false →
      rb_obj_is_kind_of e .TkCallbackContinue = false →
      rb_obj_is_kind_of e .TkCallbackReturn = false →
      contains_nul e.message = true →
      ruby_callback_proc E clientData interp objv w
        = .raise ⟨.ArgumentError, "string contains null byte"⟩
            { w with ext := (E.rb_proc_call proc (objv.drop 2) w.ext).2,
                     trace := w.trace ++ [.rb_proc_call proc (objv.drop 2)] }) := by
  have hr := ruby_callback_proc_registered E w clientData interp objv proc hlen hreg
  refine ⟨?_, ?_, ?_, ?_, ?_, by decide, ?_, ?_⟩
  · intro v hv hok
    rw [hr, hv]
    cases hn : NIL_P v
    · rcases hok with h | h
      · rw [hn] at h
        cases h
      · simp [hn, h, Res.value?]
    · simp [hn, Res.value?]
  · intro e he hk
    have hx := (control_kinds_exclusive e).1 hk
    rw [hr, he]
    simp [hx.1, hx.2, hk]
  · intro e he hk
    have hx := (control_kinds_exclusive e).2.1 hk
    rw [hr, he]
    simp [hx.1, hx.2.1, hx.2.2, hk]
  · intro e he hk
    have hx := (control_kinds_exclusive e).2.2 hk
    rw [hr, he]
    simp [hx.1, hx.2.1, hx.2.2.1, hx.2.2.2, hk]
  · intro e he h1 h2 h3 h4 h5 hz
    rw [hr, he]
    simp [h1, h2, h3, h4, h5, hz]
  · intro v hv hn hz
    rw [hr, hv]
    simp [hn, hz]
  · intro e he h1 h2 h3 h4 h5 hz
    rw [hr, he]
    simp [h1, h2, h3, h4, h5, hz]

/-- C5 witness (the failing input): closure `cb1` of handle 0 raises a
`StandardError` whose message has a NUL byte in it. The command returns no
code: it raises `ArgumentError`, and `Tcl_SetResult` is not called. -/
theorem callback_outcome_translation_witness :
    2 ≤ ["ruby_callback", "cb1", "a", "b"].length ∧
    rb_hash_aref (demo_registered.objs 0).callbacks
      (["ruby_callback", "cb1", "a", "b"].getD 1 "") = some 11 ∧
    ruby_callback_proc (stubEnv (.raised ⟨.StandardError, "a\x00b"⟩)) 0 1
        ["ruby_callback", "cb1", "a", "b"] demo_registered
      = .raise ⟨.ArgumentError, "string contains null byte"⟩
          { demo_registered with
            ext := ((stubEnv (.raised ⟨.StandardError, "a\x00b"⟩)).rb_proc_call 11
                      (["ruby_callback", "cb1", "a", "b"].drop 2) demo_registered.ext).2,
            trace := demo_registered.trace ++
              [.rb_proc_call 11 (["ruby_callback", "cb1", "a", "b"].drop 2)] } :=
  ⟨by decide, by decide,
   (callback_outcome_translation (stubEnv (.raised ⟨.StandardError, "a\x00b"⟩)) demo_registered
      0 1 ["ruby_callback", "cb1", "a", "b"] 11 (by decide) (by decide)).2.2.2.2.2.2.2
      ⟨.StandardError, "a\x00b"⟩ rfl (by decide) (by decide) (by decide) (by decide) (by decide)
      (by decide)⟩

/-- C6. A host exception that is a `SystemExit` or an `Interrupt` is re-raised
as it is at each protected boundary, even when it is also of a control-flow
class: `ruby_callback` and `ruby` / `ruby_eval` raise that exception having made
no call but the host call itself (no completion code, no `Tcl_SetResult`); the
queued-command handler raises it in exactly the state in which the execution
raised it, so nothing is pushed to a result queue. -/
theorem fatal_signal_reraised (w : World ε) (e : RException)
    (hfatal : (rb_obj_is_kind_of e .SystemExit || rb_obj_is_kind_of e .Interrupt) = true) :
    (∀ clientData interp objv proc, 2 ≤ objv.length →
      rb_hash_aref (w.objs clientData).callbacks (objv.getD 1 "") = some proc →
      (E.rb_proc_call proc (objv.drop 2) w.ext).1 = .raised e →
      ruby_callback_proc E clientData interp objv w
        = .raise e { w with ext := (E.rb_proc_call proc (objv.drop 2) w.ext).2,
                            trace := w.trace ++ [.rb_proc_call proc (objv.drop 2)] }) ∧
    (∀ clientData interp objv, objv.length = 2 →
      (E.rb_eval_string (objv.getD 1 "") w.ext).1 = .raised e →
      ruby_eval_proc E clientData interp objv w
        = .raise e { w with ext := (E.rb_eval_string (objv.getD 1 "") w.ext).2,
                            trace := w.trace ++ [.rb_eval_string (objv.getD 1 "")] }) ∧
    (∀ tip cmd rest w2, (w.objs tip).thread_queue = cmd :: rest →
      (match cmd.kind with
        | .eval script => execute_queued_eval E tip script
        | .invoke args => execute_queued_invoke E tip args
        | .proc proc => execute_queued_proc E proc)
        (w.store tip { w.objs tip with thread_queue := rest }) = .raise e w2 →
      ruby_thread_event_handler E tip w = .raise e w2) ∧
    (∀ tip proc queue rest, (w.objs tip).thread_queue = ⟨.proc proc, queue⟩ :: rest →
      (E.rb_proc_call proc [] w.ext).1 = .raised e →
      ruby_thread_event_handler E tip w
        = .raise e
            (({ w with ext := (E.rb_proc_call proc [] w.ext).2,
                       trace := w.trace ++ [.rb_proc_call proc []] } : World ε).store tip
              { w.objs tip with thread_queue := rest })) := by
  refine ⟨?_, ?_, ?_, ?_⟩
  · intro clientData interp objv proc hlen hreg hout
    rw [ruby_callback_proc_registered E w clientData interp objv proc hlen hreg, hout]
    simp only [hfatal, if_true]
  · intro clientData interp objv hlen hout
    rw [ruby_eval_proc_apply E w clientData interp objv hlen, hout]
    simp only [hfatal, if_true]
  · intro tip cmd rest w2 hq hexec
    exact ruby_thread_event_handler_fatal E w w2 tip cmd rest e hq hexec hfatal
  · intro tip proc queue rest hq hout
    apply ruby_thread_event_handler_fatal E w _ tip ⟨.proc proc, queue⟩ rest e hq _ hfatal
    simp [execute_queued_proc, callback_invoke, World.store, hout]

/-- C6 witness: closure `cb1` raises an exception of a class derived from
`Interrupt`; `ruby_callback` re-raises that exception. -/
theorem fatal_signal_reraised_witness :
    (rb_obj_is_kind_of ⟨.user "Stop" .Interrupt, "stop"⟩ .SystemExit
      || rb_obj_is_kind_of ⟨.user "Stop" .Interrupt, "stop"⟩ .Interrupt) = true ∧
    ruby_callback_proc (stubEnv (.raised ⟨.user "Stop" .Interrupt, "stop"⟩)) 0 1
        ["ruby_callback", "cb1"] demo_registered
      = .raise ⟨.user "Stop" .Interrupt, "stop"⟩
          { demo_registered with
            ext := ((stubEnv (.raised ⟨.user "Stop" .Interrupt, "stop"⟩)).rb_proc_call 11
                      (["ruby_callback", "cb1"].drop 2) demo_registered.ext).2,
            trace := demo_registered.trace ++
              [.rb_proc_call 11 (["ruby_callback", "cb1"].drop 2)] } :=
  ⟨by decide,
   (fatal_signal_reraised (stubEnv (.raised ⟨.user "Stop" .Interrupt, "stop"⟩)) demo_registered
      ⟨.user "Stop" .Interrupt, "stop"⟩ (by decide)).1 0 1 ["ruby_callback", "cb1"] 11
      (by decide) (by decide) rfl⟩

/-- C7 (the code at the failing input). Tcl runs `ruby code` on the live handle
0 and the code raises `TkCallbackBreak` with message `stop`: `ruby_eval_proc`
returns `TCL_ERROR` and sets the interpreter result to `stop`, where
`ruby_callback` returns `TCL_BREAK` for the same exception. -/
theorem ruby_eval_proc_break_is_error :
    (ruby_eval_proc (stubEnv (.raised ⟨.TkCallbackBreak, "stop"⟩)) 0 1
        ["ruby", "raise TkCallbackBreak, :stop"] demo_live).value? = some TCL_ERROR ∧
    (ruby_eval_proc (stubEnv (.raised ⟨.TkCallbackBreak, "stop"⟩)) 0 1
        ["ruby", "raise TkCallbackBreak, :stop"] demo_live).state.trace
      = demo_live.trace ++
          [.rb_eval_string "raise TkCallbackBreak, :stop", .Tcl_SetResult 1 "stop"] ∧
    (ruby_callback_proc (stubEnv (.raised ⟨.TkCallbackBreak, "stop"⟩)) 0 1
        ["ruby_callback", "cb1"] demo_registered).value? = some TCL_BREAK := by
  refine ⟨by decide, by decide, by decide⟩

/-- C8 (divergence). Once `register_callback` has returned id `i` for closure
`c`, and more generally whenever `i` maps to `c` in the registry, the command
`ruby_callback i args...` calls `c` exactly once, with exactly `args`: the only
calls it makes are that `rb_proc_call` followed by at most one
`Tcl_SetResult`. When `c` returns a value other than `nil` whose text has no
NUL byte the command returns `TCL_OK` with the textual form of the value as
result; when `c` returns `nil` it returns `TCL_OK` and sets no result. When `c`
returns a value whose text contains a NUL byte the command returns no code and
sets no result: `ArgumentError` unwinds out of it. -/
theorem dispatch_calls_closure (w : World ε) (clientData : VALUE) (interp : Ptr)
    (i : String) (args : List String) (c : ProcId)
    (hreg : rb_hash_aref (w.objs clientData).callbacks i = some c) :
    (∃ rest, (ruby_callback_proc E clientData interp ("ruby_callback" :: i :: args) w).state.trace
        = w.trace ++ .rb_proc_call c args :: rest ∧
      rest.length ≤ 1 ∧ ∀ x ∈ rest, ∃ t, x = .Tcl_SetResult interp t) ∧
    (∀ v, (E.rb_proc_call c args w.ext).1 = .value v → v ≠ .nil →
      contains_nul (rb_String v) = false →
      ruby_callback_proc E clientData interp ("ruby_callback" :: i :: args) w
        = .ok TCL_OK
            { w with ext := (E.Tcl_SetResult interp (rb_String v) (E.rb_proc_call c args w.ext).2).2,
                     trace := w.trace ++ [.rb_proc_call c args,
                                          .Tcl_SetResult interp (rb_String v)] }) ∧
    ((E.rb_proc_call c args w.ext).1 = .value .nil →
      ruby_callback_proc E clientData interp ("ruby_callback" :: i :: args) w
        = .ok TCL_OK { w with ext := (E.rb_proc_call c args w.ext).2,
                              trace := w.trace ++ [.rb_proc_call c args] }) ∧
    (∀ (w0 : World ε) (self : VALUE),
      interp_register_callback self c w0 = .ok (.str i) w →
        rb_hash_aref (w.objs self).callbacks i = some c) ∧
    (∀ v, (E.rb_proc_call c args w.ext).1 = .value v → v ≠ .nil →
      contains_nul (rb_String v) = true →
      ruby_callback_proc E clientData interp ("ruby_callback" :: i :: args) w
        = .raise ⟨.ArgumentError, "string contains null byte"⟩
            { w with ext := (E.rb_proc_call c args w.ext).2,
                     trace := w.trace ++ [.rb_proc_call c args] }) := by
  have hr := ruby_callback_proc_registered E w clientData interp ("ruby_callback" :: i :: args) c
    (by simp) (by simpa using hreg)
  simp only [List.drop_succ_cons, List.drop_zero] at hr
  refine ⟨ruby_callback_proc_calls E w clientData interp i args c hreg, ?_, ?_, ?_, ?_⟩
  · intro v hv hnil hz
    have hn : NIL_P v = false := by
      cases v <;> simp_all [NIL_P]
    rw [hr, hv]
    simp [hn, hz]
  · intro hv
    rw [hr, hv]
    simp [NIL_P]
  · intro w0 self h
    exact (interp_register_callback_ok w0 w self c i h).2.2
  · intro v hv hnil hz
    have hn : NIL_P v = false := by
      cases v <;> simp_all [NIL_P]
    rw [hr, hv]
    simp [hn, hz]

/-- C8 witness (the failing input): on handle 0, `register_callback` gave `cb1`
for closure 11; `ruby_callback cb1 a b` with the closure returning a string
with a NUL byte in it. The closure is called once with `a`, `b`; then the
command raises `ArgumentError` instead of returning `TCL_OK` with the text. -/
theorem dispatch_calls_closure_witness :
    rb_hash_aref (demo_registered.objs 0).callbacks "cb1" = some 11 ∧
    ruby_callback_proc (stubEnv (.value (.str "a\x00b"))) 0 1 ["ruby_callback", "cb1", "a", "b"]
        demo_registered
      = .raise ⟨.ArgumentError, "string contains null byte"⟩
          { demo_registered with
            ext := ((stubEnv (.value (.str "a\x00b"))).rb_proc_call 11 ["a", "b"]
                      demo_registered.ext).2,
            trace := demo_registered.trace ++ [.rb_proc_call 11 ["a", "b"]] } :=
  ⟨by decide,
   (dispatch_calls_closure (stubEnv (.value (.str "a\x00b"))) demo_registered 0 1 "cb1"
      ["a", "b"] 11 (by decide)).2.2.2.2 (.str "a\x00b") rfl (by decide) (by decide)⟩

/-- C9. After `unregister_callback(id)` for an id that `register_callback`
returned, `ruby_callback id args...` returns `TCL_ERROR` with the result
`unknown callback id: <id>` and calls no closure (its only call is that
`Tcl_SetResult`). In any state, `ruby_callback id args...` ends this way
exactly when `id` is not a key of the registry. -/
theorem dispatch_unknown_callback (w : World ε) (clientData : VALUE) (interp : Ptr)
    (id : String) (args : List String) :
    (∀ (w0 : World ε) (proc : ProcId),
      interp_register_callback clientData proc w0 = .ok (.str id) w →
      ∃ w2, interp_unregister_callback clientData (.str id) w = .ok .nil w2 ∧
        ruby_callback_proc E clientData interp ("ruby_callback" :: id :: args) w2
          = .ok TCL_ERROR
              { w2 with ext := (E.Tcl_SetResult interp ("unknown callback id: " ++ id) w2.ext).2,
                        trace := w2.trace ++
                          [.Tcl_SetResult interp ("unknown callback id: " ++ id)] }) ∧
    (ruby_callback_proc E clientData interp ("ruby_callback" :: id :: args) w
        = .ok TCL_ERROR
            { w with ext := (E.Tcl_SetResult interp ("unknown callback id: " ++ id) w.ext).2,
                     trace := w.trace ++ [.Tcl_SetResult interp ("unknown callback id: " ++ id)] }
      ↔ id ∉ (w.objs clientData).callbacks.map Prod.fst) := by
  refine ⟨?_, ?_⟩
  · intro w0 proc h
    obtain ⟨hd, hi, _⟩ := interp_register_callback_ok w0 w clientData proc id h
    refine ⟨_, interp_unregister_callback_live w clientData id hd hi, ?_⟩
    have hu := ruby_callback_proc_unknown E
      (w.store clientData
        { w.objs clientData with callbacks := rb_hash_delete (w.objs clientData).callbacks id })
      clientData interp ("ruby_callback" :: id :: args) (by simp)
      (by simpa using rb_hash_aref_delete_self (w.objs clientData).callbacks id)
    simpa using hu
  · constructor
    · intro h
      rw [← rb_hash_aref_none_iff]
      cases hl : rb_hash_aref (w.objs clientData).callbacks id with
      | none => rfl
      | some c =>
        exfalso
        obtain ⟨rest, htr, _, _⟩ := ruby_callback_proc_calls E w clientData interp id args c hl
        rw [h] at htr
        simp [Res.state] at htr
    · intro h
      have hl := (rb_hash_aref_none_iff (w.objs clientData).callbacks id).mpr h
      have hu := ruby_callback_proc_unknown E w clientData interp ("ruby_callback" :: id :: args)
        (by simp) (by simpa using hl)
      simpa using hu

/-- C9 witness: `cb1` was returned by `register_callback` on handle 0 and is
then unregistered; `ruby_callback cb1 a` reports an unknown callback. -/
theorem dispatch_unknown_callback_witness :
    interp_register_callback 0 11 demo_live = .ok (.str "cb1") demo_registered ∧
    ∃ w2, interp_unregister_callback 0 (.str "cb1") demo_registered = .ok .nil w2 ∧
      ruby_callback_proc (stubEnv (.value .nil)) 0 1 ["ruby_callback", "cb1", "a"] w2
        = .ok TCL_ERROR
            { w2 with
              ext := ((stubEnv (.value .nil)).Tcl_SetResult 1 ("unknown callback id: " ++ "cb1")
                        w2.ext).2,
              trace := w2.trace ++ [.Tcl_SetResult 1 ("unknown callback id: " ++ "cb1")] } :=
  ⟨rfl,
   (dispatch_unknown_callback (stubEnv (.value .nil)) demo_registered 0 1 "cb1" ["a"]).1
      demo_live 11 rfl⟩

/-- C10. On a live handle `unregister_callback(id)` returns `nil` and changes
nothing but the registry of that handle, which loses exactly the entry for
`id`: looking up `id` afterwards finds nothing, every other key maps to what it
mapped to, and the counter, the queue and all other handles are as before.
When `id` is not a key, the whole process state is unchanged. -/
theorem unregister_callback_frame (w : World ε) (self : VALUE) (id : String)
    (hd : (w.objs self).deleted = false) (hi : (w.objs self).interp ≠ 0) :
    ∃ w1, interp_unregister_callback self (.str id) w = .ok .nil w1 ∧
      w1 = w.store self
        { w.objs self with
          callbacks := (w.objs self).callbacks.filter fun kv => !(kv.1 == id) } ∧
      rb_hash_aref (w1.objs self).callbacks id = none ∧
      (∀ k, k ≠ id →
        rb_hash_aref (w1.objs self).callbacks k = rb_hash_aref (w.objs self).callbacks k) ∧
      (w1.objs self).next_id = (w.objs self).next_id ∧
      (w1.objs self).thread_queue = (w.objs self).thread_queue ∧
      (∀ v, v ≠ self → w1.objs v = w.objs v) ∧
      (id ∉ (w.objs self).callbacks.map Prod.fst → w1 = w) := by
  refine ⟨_, interp_unregister_callback_live w self id hd hi, rfl, ?_, ?_, by simp, by simp,
    ?_, ?_⟩
  · simpa using rb_hash_aref_delete_self (w.objs self).callbacks id
  · intro k hk
    simpa using rb_hash_aref_delete_other (w.objs self).callbacks id k hk
  · intro v hv
    exact store_objs_other _ _ _ _ hv
  · intro habs
    rw [rb_hash_delete_absent _ _ habs]
    exact store_self w self

/-- C10 witness: handle 0 is live and `cb1` is its only registered id. -/
theorem unregister_callback_frame_witness :
    (demo_registered.objs 0).deleted = false ∧ (demo_registered.objs 0).interp ≠ 0 ∧
    ∃ w1, interp_unregister_callback 0 (.str "cb1") demo_registered = .ok .nil w1 ∧
      w1 = demo_registered.store 0
        { demo_registered.objs 0 with
          callbacks := (demo_registered.objs 0).callbacks.filter fun kv => !(kv.1 == "cb1") } ∧
      rb_hash_aref (w1.objs 0).callbacks "cb1" = none ∧
      (∀ k, k ≠ "cb1" →
        rb_hash_aref (w1.objs 0).callbacks k
          = rb_hash_aref (demo_registered.objs 0).callbacks k) ∧
      (w1.objs 0).next_id = (demo_registered.objs 0).next_id ∧
      (w1.objs 0).thread_queue = (demo_registered.objs 0).thread_queue ∧
      (∀ v, v ≠ 0 → w1.objs v = demo_registered.objs v) ∧
      ("cb1" ∉ (demo_registered.objs 0).callbacks.map Prod.fst → w1 = demo_registered) :=
  ⟨by decide, by decide,
   unregister_callback_frame demo_registered 0 "cb1" (by decide) (by decide)⟩

/-- C11 counterexample: on the fresh live handle 0 the first registration
returns `cb1`, and after `2 ^ 64` registrations the counter, an
`unsigned long`, is back at 1: the next registration returns `cb1` again. -/
theorem callback_id_reissued_after_wrap :
    (interp_register_callback 0 11 demo_live).value? = some (.str "cb1") ∧
    (interp_register_callback 0 11
        (run_reg_ops 0 (List.replicate (2 ^ 64) (.register 11)) demo_live).2).value?
      = some (.str "cb1") := by
  refine ⟨by decide, ?_⟩
  obtain ⟨hd, hi, hn⟩ := run_reg_ops_counter 0 (List.replicate (2 ^ 64) (.register 11)) demo_live
    (by decide) (by decide) (by decide)
  rw [registrations_replicate] at hn
  have h1 : (demo_live.objs 0).next_id = 1 := by decide
  rw [h1, Nat.add_mod_right] at hn
  rw [interp_register_callback_live _ 0 11 hd hi, hn]
  decide

/-- C11 (as amended). On a live handle with a fresh registry (counter 1, no
entries), for every sequence of `register_callback` and `unregister_callback`
calls that leaves the `unsigned long` counter below its wrap-around at
`2 ^ 64`: the ids returned are `cb1`, `cb2`, ... in order, so they are
pairwise distinct; the next registration returns an id that was never returned
before and is not a key of the registry, and it appends its entry to the
registry, leaving every existing entry in place; an unregistration removes the
entry of its id and nothing else. -/
theorem callback_ids_fresh (w : World ε) (self : VALUE) (ops : List RegOp) (proc : ProcId)
    (hd : (w.objs self).deleted = false) (hi : (w.objs self).interp ≠ 0)
    (hn : (w.objs self).next_id = 1) (hcb : (w.objs self).callbacks = [])
    (hbound : registrations ops + 2 < 2 ^ 64) :
    (run_reg_ops self ops w).1
      = (List.range (registrations ops)).map (fun k => RValue.str ("cb" ++ toString (1 + k))) ∧
    (run_reg_ops self ops w).1.Nodup ∧
    RValue.str ("cb" ++ toString (1 + registrations ops)) ∉ (run_reg_ops self ops w).1 ∧
    "cb" ++ toString (1 + registrations ops)
      ∉ ((run_reg_ops self ops w).2.objs self).callbacks.map Prod.fst ∧
    interp_register_callback self proc (run_reg_ops self ops w).2
      = .ok (.str ("cb" ++ toString (1 + registrations ops)))
          ((run_reg_ops self ops w).2.store self
            { (run_reg_ops self ops w).2.objs self with
              next_id := 1 + registrations ops + 1,
              callbacks := ((run_reg_ops self ops w).2.objs self).callbacks
                ++ [("cb" ++ toString (1 + registrations ops), proc)] }) ∧
    (∀ id, interp_unregister_callback self (.str id) (run_reg_ops self ops w).2
      = .ok .nil
          ((run_reg_ops self ops w).2.store self
            { (run_reg_ops self ops w).2.objs self with
              callbacks := ((run_reg_ops self ops w).2.objs self).callbacks.filter
                fun kv => !(kv.1 == id) })) := by
  have hinv : RegistryBelow w self 1 := ⟨hd, hi, hn, by simp [hcb]⟩
  obtain ⟨hids, hfin⟩ := run_reg_ops_ids self ops w 1 hinv (by omega)
  obtain ⟨hfresh, hreg, _⟩ := register_step _ self proc _ hfin (by omega)
  have hinj : Function.Injective (fun k => RValue.str ("cb" ++ toString (1 + k))) := by
    intro a b hab
    simp only [RValue.str.injEq] at hab
    have := callback_id_injective _ _ hab
    omega
  refine ⟨hids, ?_, ?_, hfresh, hreg, ?_⟩
  · rw [hids]
    exact List.Nodup.map hinj (List.nodup_range _)
  · rw [hids]
    intro hmem
    obtain ⟨k, hk, he⟩ := List.mem_map.mp hmem
    simp only [RValue.str.injEq] at he
    have := callback_id_injective _ _ he
    have := List.mem_range.mp hk
    omega
  · intro id
    exact interp_unregister_callback_live _ self id hfin.1 hfin.2.1

/-- C11 witness: on the fresh live handle 0, register, unregister `cb1`,
register again. -/
theorem callback_ids_fresh_witness :
    (demo_live.objs 0).deleted = false ∧ (demo_live.objs 0).interp ≠ 0 ∧
    (demo_live.objs 0).next_id = 1 ∧ (demo_live.objs 0).callbacks = [] ∧
    registrations [.register 11, .unregister (.str "cb1"), .register 12] + 2 < 2 ^ 64 ∧
    (run_reg_ops 0 [.register 11, .unregister (.str "cb1"), .register 12] demo_live).1
      = (List.range (registrations [.register 11, .unregister (.str "cb1"), .register 12])).map
          (fun k => RValue.str ("cb" ++ toString (1 + k))) :=
  ⟨by decide, by decide, by decide, by decide, by decide,
   (callback_ids_fresh demo_live 0 [.register 11, .unregister (.str "cb1"), .register 12] 13
      (by decide) (by decide) (by decide) (by decide) (by decide)).1⟩

/-- C14. The queue of a handle is first in, first out. `queue_command_internal`
appends the command behind those already queued, and a handler run takes the
command at the head. From an empty queue, n enqueues followed by n handler
runs execute exactly the enqueued commands, the k-th run the k-th of them, and
leave the queue empty; and in every interleaving of enqueues and handler runs
the commands executed are, in order, the first of the commands enqueued. -/
theorem thread_queue_fifo (w : World ε) (tip : VALUE)
    (cmds : List (CmdKind × Bool × ThreadId)) (steps : List QStep)
    (hq : (w.objs tip).thread_queue = []) :
    (∀ (w0 : World ε) (kind : CmdKind) (wait : Bool) (cur : ThreadId),
      ((queue_command_internal E tip kind wait cur w0).state.objs tip).thread_queue
        = (w0.objs tip).thread_queue ++ [⟨kind, if wait then some w0.n_queues else none⟩]) ∧
    (∀ (w0 : World ε) (cmd : Cmd) (rest : List Cmd),
      (w0.objs tip).thread_queue = cmd :: rest →
      ruby_thread_event_handler E tip w0
        = run_queued_command E tip cmd (w0.store tip { w0.objs tip with thread_queue := rest })) ∧
    (run_schedule E tip
        ((cmds.map fun c => .enqueue c.1 c.2.1 c.2.2) ++ List.replicate cmds.length .run)
        w).executed
      = (run_schedule E tip
          ((cmds.map fun c => .enqueue c.1 c.2.1 c.2.2) ++ List.replicate cmds.length .run)
          w).enqueued ∧
    (run_schedule E tip
        ((cmds.map fun c => .enqueue c.1 c.2.1 c.2.2) ++ List.replicate cmds.length .run)
        w).executed.map Cmd.kind = cmds.map Prod.fst ∧
    ((run_schedule E tip
        ((cmds.map fun c => .enqueue c.1 c.2.1 c.2.2) ++ List.replicate cmds.length .run)
        w).final.objs tip).thread_queue = [] ∧
    (run_schedule E tip steps w).executed <+: (run_schedule E tip steps w).enqueued := by
  have h := run_schedule_enqueues_then_runs E tip cmds w hq
  have hinv := run_schedule_invariant E tip steps w
  rw [hq, List.nil_append] at hinv
  exact ⟨fun w0 kind wait cur => enqueue_thread_queue E w0 tip kind wait cur,
    fun w0 cmd rest h0 => ruby_thread_event_handler_cons E w0 tip cmd rest h0,
    h.1, h.2.1, h.2.2, ⟨_, hinv⟩⟩

/-- C14 witness: on the live handle 0, thread 2 submits a script and a closure,
then the owning thread runs the handler twice. -/
theorem thread_queue_fifo_witness :
    (demo_live.objs 0).thread_queue = [] ∧
    (run_schedule (stubEnv (.value .nil)) 0
        (([(.eval "a", false, 2), (.proc 11, false, 2)].map
            fun c => QStep.enqueue c.1 c.2.1 c.2.2)
          ++ List.replicate [(CmdKind.eval "a", false, 2), (CmdKind.proc 11, false, 2)].length .run)
        demo_live).executed.map Cmd.kind
      = [(CmdKind.eval "a", false, 2), (CmdKind.proc 11, false, 2)].map Prod.fst :=
  ⟨by decide,
   (thread_queue_fifo (stubEnv (.value .nil)) demo_live 0
      [(.eval "a", false, 2), (.proc 11, false, 2)] [] (by decide)).2.2.2.1⟩

/-- C15. A command is removed from the queue before it is executed, whatever
its execution does. With the execution left open (`body`, which may read the
queue, submit commands or run the handler again): on an empty queue the handler
returns without running `body` and leaves the whole process unchanged; on a
queue `cmd :: rest` it runs `body` once, for `cmd`, from the state in which the
queue of the handle is already `rest`, and then only publishes the response or
re-raises a fatal exception. `ruby_thread_event_handler` is that code with
`execute_queued` for `body`: the queue is `rest` when it ends, and for a closure
command the run makes exactly one foreign call, the one call of the closure.
When the execution of a closure command processes events first (a nested
handler run), the nested run takes the next command, not the one being
executed: the next closure is called once, then the first one once (not at all
if the nested run was unwound), and both are gone from the queue. In every
interleaving of enqueues and handler runs the commands executed followed by the
commands still queued are exactly the commands that were queued at the start
followed by the commands enqueued, each occurrence once. -/
theorem command_executed_once (w : World ε) (tip : VALUE) (cmd : Cmd) (rest : List Cmd)
    (steps : List QStep) (hq : (w.objs tip).thread_queue = cmd :: rest) :
    (∀ (body : VALUE → CmdKind → M ε RValue) (w0 : World ε), (w0.objs tip).thread_queue = [] →
      ruby_thread_event_handler_around body tip w0 = .ok 1 w0) ∧
    (∀ body : VALUE → CmdKind → M ε RValue,
      ruby_thread_event_handler_around body tip w
        = match body tip cmd.kind (w.store tip { w.objs tip with thread_queue := rest }) with
          | .ok v w2 => .ok 1 (w2.publish cmd.queue ⟨v, none⟩)
          | .raise e w2 =>
            if rb_obj_is_kind_of e .SystemExit || rb_obj_is_kind_of e .Interrupt then
              .raise e w2
            else
              .ok 1 (w2.publish cmd.queue ⟨.nil, some e⟩)
          | .blocked q w2 => .blocked q w2
          | .out_of_fuel w2 => .out_of_fuel w2
          | .crashed w2 => .crashed w2) ∧
    (∀ w0 : World ε, ruby_thread_event_handler E tip w0
      = ruby_thread_event_handler_around (execute_queued E) tip w0) ∧
    ((ruby_thread_event_handler E tip w).state.objs tip).thread_queue = rest ∧
    (∀ p, cmd.kind = .proc p →
      (ruby_thread_event_handler E tip w).state.trace = w.trace ++ [.rb_proc_call p []]) ∧
    (∀ (p1 p2 : ProcId) (q1 q2 : Option QueueId) (rest2 : List Cmd),
      cmd = ⟨.proc p1, q1⟩ → rest = ⟨.proc p2, q2⟩ :: rest2 →
      ((ruby_thread_event_handler_around (execute_after_events E) tip w).state.objs
        tip).thread_queue = rest2 ∧
      ((ruby_thread_event_handler_around (execute_after_events E) tip w).state.trace
          = w.trace ++ [.rb_proc_call p2 [], .rb_proc_call p1 []] ∨
       (ruby_thread_event_handler_around (execute_after_events E) tip w).state.trace
          = w.trace ++ [.rb_proc_call p2 []])) ∧
    (run_schedule E tip steps w).executed
        ++ ((run_schedule E tip steps w).final.objs tip).thread_queue
      = (cmd :: rest) ++ (run_schedule E tip steps w).enqueued ∧
    (run_schedule E tip (.run :: steps) w).executed
      = cmd :: (run_schedule E tip steps (ruby_thread_event_handler E tip w).state).executed := by
  refine ⟨fun body w0 h0 => ruby_thread_event_handler_around_empty body w0 tip h0,
    fun body => ruby_thread_event_handler_around_cons body w tip cmd rest hq,
    fun _ => rfl, ?_, ?_, ?_, ?_, ?_⟩
  · rw [handler_thread_queue, hq]
    rfl
  · intro p hp
    rw [ruby_thread_event_handler_cons E w tip cmd rest hq]
    cases cmd with
    | mk kind queue =>
      simp only at hp
      subst hp
      rw [run_queued_proc_trace]
      rfl
  · intro p1 p2 q1 q2 rest2 hc hr
    subst hc hr
    exact nested_handler_run E w tip p1 p2 q1 q2 rest2 hq
  · rw [run_schedule_invariant, hq]
  · simp [run_schedule, hq]

/-- C15 witness: thread 2 has queued the closures 11 and 12 on the live handle
0, and the execution of a command processes events first. The handler run for
closure 11 runs the nested handler, which takes closure 12; afterwards the
queue is empty, and each closure was called once. -/
theorem command_executed_once_witness :
    ((interp_queue_for_main (stubEnv (.value .nil)) 0 12 2 demo_queued).state.objs
      0).thread_queue = [⟨.proc 11, none⟩, ⟨.proc 12, none⟩] ∧
    ((ruby_thread_event_handler_around (execute_after_events (stubEnv (.value .nil))) 0
        (interp_queue_for_main (stubEnv (.value .nil)) 0 12 2 demo_queued).state).state.objs
      0).thread_queue = [] ∧
    (ruby_thread_event_handler_around (execute_after_events (stubEnv (.value .nil))) 0
        (interp_queue_for_main (stubEnv (.value .nil)) 0 12 2 demo_queued).state).state.trace
      = (interp_queue_for_main (stubEnv (.value .nil)) 0 12 2 demo_queued).state.trace
          ++ [.rb_proc_call 12 [], .rb_proc_call 11 []] :=
  ⟨by decide,
   ((command_executed_once (stubEnv (.value .nil))
      (interp_queue_for_main (stubEnv (.value .nil)) 0 12 2 demo_queued).state
      0 ⟨.proc 11, none⟩ [⟨.proc 12, none⟩] [] (by decide)).2.2.2.2.2.1
      11 12 none none [] rfl rfl).1,
   by decide⟩

/-- C16. A blocking submission creates a fresh, empty result queue, attaches it
to the command it appends, and waits on it. When the handler takes a command
with result queue `q`: if the execution returns `v`, the handler pushes the one
response `[v, nil]` on `q` and on no other queue, and the caller waiting on `q`
returns `v`; if the execution raises a non-fatal exception `e`, the handler
pushes the one response `[nil, e]` on `q` and on no other queue, and the caller
waiting on `q` re-raises `e` itself. -/
theorem blocking_command_response (w : World ε) (tip : VALUE) (cmd : Cmd) (rest : List Cmd)
    (q : QueueId)
    (hq : (w.objs tip).thread_queue = cmd :: rest) (hcq : cmd.queue = some q) :
    (∀ (w0 : World ε) (kind : CmdKind) (cur : ThreadId),
      ∃ w1, queue_command_internal E tip kind true cur w0 = .blocked w0.n_queues w1 ∧
        w1.queues w0.n_queues = [] ∧
        (w1.objs tip).thread_queue
          = (w0.objs tip).thread_queue ++ [⟨kind, some w0.n_queues⟩]) ∧
    (∀ v w2,
      execute_queued E tip cmd.kind (w.store tip { w.objs tip with thread_queue := rest })
        = .ok v w2 →
      ruby_thread_event_handler E tip w = .ok 1 (w2.publish (some q) ⟨v, none⟩) ∧
      (ruby_thread_event_handler E tip w).state.queues q = w.queues q ++ [⟨v, none⟩] ∧
      (∀ k, k ≠ q → (ruby_thread_event_handler E tip w).state.queues k = w.queues k) ∧
      (w.queues q = [] →
        queue_command_wait q (ruby_thread_event_handler E tip w).state = .ok v w2)) ∧
    (∀ e w2,
      execute_queued E tip cmd.kind (w.store tip { w.objs tip with thread_queue := rest })
        = .raise e w2 →
      (rb_obj_is_kind_of e .SystemExit || rb_obj_is_kind_of e .Interrupt) = false →
      ruby_thread_event_handler E tip w = .ok 1 (w2.publish (some q) ⟨.nil, some e⟩) ∧
      (ruby_thread_event_handler E tip w).state.queues q = w.queues q ++ [⟨.nil, some e⟩] ∧
      (∀ k, k ≠ q → (ruby_thread_event_handler E tip w).state.queues k = w.queues k) ∧
      (w.queues q = [] →
        queue_command_wait q (ruby_thread_event_handler E tip w).state = .raise e w2)) := by
  refine ⟨?_, ?_, ?_⟩
  · intro w0 kind cur
    refine ⟨_, queue_command_internal_blocks E w0 tip kind cur, ?_, ?_⟩ <;> simp
  · intro v w2 hexec
    have hqs : w2.queues = w.queues :=
      execute_queued_queues E (w.store tip { w.objs tip with thread_queue := rest }) w2 tip
        cmd.kind (by rw [hexec]; rfl)
    have hh : ruby_thread_event_handler E tip w = .ok 1 (w2.publish (some q) ⟨v, none⟩) := by
      rw [ruby_thread_event_handler_cons E w tip cmd rest hq,
        run_queued_command_ok E _ w2 tip cmd v hexec, hcq]
    refine ⟨hh, ?_, ?_, ?_⟩
    · rw [hh]
      simp [Res.state, publish_queues_self, hqs]
    · intro k hk
      rw [hh]
      simp [Res.state, publish_queues_other _ q k _ hk, hqs]
    · intro hempty
      have h0 : w2.queues q = [] := by rw [hqs]; exact hempty
      rw [hh]
      simp only [Res.state]
      rw [queue_command_wait_value _ q v [] (by rw [publish_queues_self, h0]; rfl),
        publish_pop w2 q _ h0]
  · intro e w2 hexec hnf
    have hqs : w2.queues = w.queues :=
      execute_queued_queues E (w.store tip { w.objs tip with thread_queue := rest }) w2 tip
        cmd.kind (by rw [hexec]; rfl)
    have hh : ruby_thread_event_handler E tip w
        = .ok 1 (w2.publish (some q) ⟨.nil, some e⟩) := by
      rw [ruby_thread_event_handler_cons E w tip cmd rest hq,
        run_queued_command_error E _ w2 tip cmd e hexec hnf, hcq]
    refine ⟨hh, ?_, ?_, ?_⟩
    · rw [hh]
      simp [Res.state, publish_queues_self, hqs]
    · intro k hk
      rw [hh]
      simp [Res.state, publish_queues_other _ q k _ hk, hqs]
    · intro hempty
      have h0 : w2.queues q = [] := by rw [hqs]; exact hempty
      rw [hh]
      simp only [Res.state]
      rw [queue_command_wait_exception _ q .nil e [] (by rw [publish_queues_self, h0]; rfl),
        publish_pop w2 q _ h0]

/-- C16 witness: thread 2 has submitted `tcl_eval("set x 1")` on the live
handle 0 and waits on result queue 0; the handler pushes the one response. -/
theorem blocking_command_response_witness :
    ((interp_tcl_eval (stubEnv (.value .nil)) 0 (.str "set x 1") 2 demo_live).state.objs
      0).thread_queue = [⟨.eval "set x 1", some 0⟩] ∧
    (ruby_thread_event_handler (stubEnv (.value .nil)) 0
        (interp_tcl_eval (stubEnv (.value .nil)) 0 (.str "set x 1") 2 demo_live).state).state.queues
      0
      = (interp_tcl_eval (stubEnv (.value .nil)) 0 (.str "set x 1") 2 demo_live).state.queues 0
          ++ [⟨.str "", none⟩] :=
  ⟨by decide,
   ((blocking_command_response (stubEnv (.value .nil))
      (interp_tcl_eval (stubEnv (.value .nil)) 0 (.str "set x 1") 2 demo_live).state
      0 ⟨.eval "set x 1", some 0⟩ [] 0 (by decide) rfl).2.1 (.str "") _ rfl).2.1⟩

/-- C17 counterexample: thread 2 queues closure 11 on the live handle 0 with
`queue_for_main`; the closure raises `RuntimeError`. The handler run returns 1,
no response is pushed on any result queue, the only foreign call is the call
of the closure, and value and trace are the same as when the closure
returns: the exception is dropped. -/
theorem queue_for_main_exception_dropped :
    ((interp_queue_for_main (stubEnv (.raised ⟨.RuntimeError, "boom"⟩)) 0 11 2
        demo_live).state.objs 0).thread_queue = [⟨.proc 11, none⟩] ∧
    (execute_queued (stubEnv (.raised ⟨.RuntimeError, "boom"⟩)) 0 (.proc 11)
        (interp_queue_for_main (stubEnv (.raised ⟨.RuntimeError, "boom"⟩)) 0 11 2
          demo_live).state).error? = some ⟨.RuntimeError, "boom"⟩ ∧
    (ruby_thread_event_handler (stubEnv (.raised ⟨.RuntimeError, "boom"⟩)) 0
        (interp_queue_for_main (stubEnv (.raised ⟨.RuntimeError, "boom"⟩)) 0 11 2
          demo_live).state).value? = some 1 ∧
    (∀ k, (ruby_thread_event_handler (stubEnv (.raised ⟨.RuntimeError, "boom"⟩)) 0
        (interp_queue_for_main (stubEnv (.raised ⟨.RuntimeError, "boom"⟩)) 0 11 2
          demo_live).state).state.queues k = []) ∧
    (ruby_thread_event_handler (stubEnv (.raised ⟨.RuntimeError, "boom"⟩)) 0
        (interp_queue_for_main (stubEnv (.raised ⟨.RuntimeError, "boom"⟩)) 0 11 2
          demo_live).state).state.trace
      = (interp_queue_for_main (stubEnv (.raised ⟨.RuntimeError, "boom"⟩)) 0 11 2
          demo_live).state.trace ++ [.rb_proc_call 11 []] ∧
    (ruby_thread_event_handler (stubEnv (.raised ⟨.RuntimeError, "boom"⟩)) 0
        (interp_queue_for_main (stubEnv (.raised ⟨.RuntimeError, "boom"⟩)) 0 11 2
          demo_live).state).value?
      = (ruby_thread_event_handler (stubEnv (.value .nil)) 0
          (interp_queue_for_main (stubEnv (.value .nil)) 0 11 2 demo_live).state).value? ∧
    (ruby_thread_event_handler (stubEnv (.raised ⟨.RuntimeError, "boom"⟩)) 0
        (interp_queue_for_main (stubEnv (.raised ⟨.RuntimeError, "boom"⟩)) 0 11 2
          demo_live).state).state.trace
      = (ruby_thread_event_handler (stubEnv (.value .nil)) 0
          (interp_queue_for_main (stubEnv (.value .nil)) 0 11 2 demo_live).state).state.trace := by
  refine ⟨by decide, by decide, by decide, fun k => rfl, by decide, by decide, by decide⟩

/-- C17 (amended). A handler run whose command raises a non-fatal exception
`e` always returns 1, so the event loop goes on. When the command is blocking
(it has a result queue) the exception is reported: the response `[nil, e]` is
pushed on that queue. When the command is fire-and-forget, as every command
queued by `queue_for_main` is, the exception is dropped: the handler ends in
the state the execution left, in which nothing the extension owns differs from
the state before the execution, and no response is pushed on any queue. -/
theorem queued_exception_reporting (w w2 : World ε) (tip : VALUE) (cmd : Cmd)
    (rest : List Cmd) (e : RException)
    (hq : (w.objs tip).thread_queue = cmd :: rest)
    (hexec : execute_queued E tip cmd.kind (w.store tip { w.objs tip with thread_queue := rest })
      = .raise e w2)
    (hnf : (rb_obj_is_kind_of e .SystemExit || rb_obj_is_kind_of e .Interrupt) = false) :
    (ruby_thread_event_handler E tip w).value? = some 1 ∧
    (∀ q, cmd.queue = some q →
      ruby_thread_event_handler E tip w = .ok 1 (w2.publish (some q) ⟨.nil, some e⟩) ∧
      (ruby_thread_event_handler E tip w).state.queues q = w.queues q ++ [⟨.nil, some e⟩]) ∧
    (cmd.queue = none →
      ruby_thread_event_handler E tip w = .ok 1 w2 ∧
      w2.bridge = (w.store tip { w.objs tip with thread_queue := rest }).bridge ∧
      (ruby_thread_event_handler E tip w).state.queues = w.queues) ∧
    (∀ (w0 : World ε) (proc : ProcId) (cur : ThreadId),
      (w0.objs tip).deleted = false → (w0.objs tip).interp ≠ 0 →
      ((interp_queue_for_main E tip proc cur w0).state.objs tip).thread_queue
        = (w0.objs tip).thread_queue ++ [⟨.proc proc, none⟩]) := by
  have hh := run_queued_command_error E _ w2 tip cmd e hexec hnf
  have hc := ruby_thread_event_handler_cons E w tip cmd rest hq
  have hb : w2.bridge = (w.store tip { w.objs tip with thread_queue := rest }).bridge := by
    have := (fo_execute_queued E tip cmd.kind).keep
      (w.store tip { w.objs tip with thread_queue := rest })
    rw [hexec] at this
    exact this
  have hqs : w2.queues = w.queues :=
    bridge_queues (w.store tip { w.objs tip with thread_queue := rest }) w2 hb
  refine ⟨?_, ?_, ?_, ?_⟩
  · rw [hc, hh]
    rfl
  · intro q hcq
    rw [hc, hh, hcq]
    refine ⟨rfl, ?_⟩
    simp [Res.state, publish_queues_self, hqs]
  · intro hnone
    rw [hc, hh, hnone]
    exact ⟨rfl, hb, hqs⟩
  · intro w0 proc cur hd hi
    simp [interp_queue_for_main, hd, hi, queue_command_internal_post, Res.state]

/-- C17 witness: the closure queued by `queue_for_main` on the live handle 0
raises `RuntimeError`; the handler returns 1 and pushes nothing. -/
theorem queued_exception_reporting_witness :
    ((interp_queue_for_main (stubEnv (.raised ⟨.RuntimeError, "boom"⟩)) 0 11 2
        demo_live).state.objs 0).thread_queue = [⟨.proc 11, none⟩] ∧
    (rb_obj_is_kind_of ⟨.RuntimeError, "boom"⟩ .SystemExit ||
      rb_obj_is_kind_of ⟨.RuntimeError, "boom"⟩ .Interrupt) = false ∧
    (ruby_thread_event_handler (stubEnv (.raised ⟨.RuntimeError, "boom"⟩)) 0
        (interp_queue_for_main (stubEnv (.raised ⟨.RuntimeError, "boom"⟩)) 0 11 2
          demo_live).state).value? = some 1 :=
  ⟨by decide, by decide,
   (queued_exception_reporting (stubEnv (.raised ⟨.RuntimeError, "boom"⟩))
      (interp_queue_for_main (stubEnv (.raised ⟨.RuntimeError, "boom"⟩)) 0 11 2 demo_live).state
      _ 0 ⟨.proc 11, none⟩ [] ⟨.RuntimeError, "boom"⟩ (by decide) rfl (by decide)).1⟩

/-- C19 (divergence). When Tcl deletes the interpreter of a registered handle
and runs `interp_deleted_callback`, the handle becomes deleted but stays in
`live_instances`: `TclTkIp.instances` still lists it and
`TclTkIp.instance_count` still counts it. A later `Interp#delete` on the handle
does nothing, so the handle is never removed. -/
theorem deleted_handle_stays_registered (w : World ε) (v : VALUE)
    (hv : v ∈ w.live_instances) :
    interp_deleted_p v (interp_deleted_callback v w).state
      = .ok (.bool true) (interp_deleted_callback v w).state ∧
    tcltkip_instances (interp_deleted_callback v w).state
      = .ok w.live_instances (interp_deleted_callback v w).state ∧
    tcltkip_instance_count (interp_deleted_callback v w).state
      = .ok w.live_instances.length (interp_deleted_callback v w).state ∧
    v ∈ (interp_deleted_callback v w).state.live_instances ∧
    interp_delete E v (interp_deleted_callback v w).state
      = .ok .nil (interp_deleted_callback v w).state ∧
    v ∈ (interp_delete E v (interp_deleted_callback v w).state).state.live_instances := by
  have hdel : interp_delete E v (interp_deleted_callback v w).state
      = .ok .nil (interp_deleted_callback v w).state :=
    interp_delete_dead E _ v (Or.inl (by simp [interp_deleted_callback, Res.state, World.store]))
  refine ⟨?_, ?_, ?_, ?_, hdel, ?_⟩
  · simp [interp_deleted_p_eq, interp_deleted_callback, Res.state, World.store]
  · simp [tcltkip_instances, interp_deleted_callback, Res.state, World.store]
  · simp [tcltkip_instance_count, interp_deleted_callback, Res.state, World.store]
  · simpa [interp_deleted_callback, Res.state, World.store] using hv
  · rw [hdel]
    simpa [interp_deleted_callback, Res.state, World.store] using hv

/-- C19 witness: the live handle 0 is registered; Tcl deletes its interpreter. -/
theorem deleted_handle_stays_registered_witness :
    0 ∈ demo_live.live_instances ∧
    (demo_live.objs 0).deleted = false ∧
    interp_deleted_p 0 (interp_deleted_callback 0 demo_live).state
      = .ok (.bool true) (interp_deleted_callback 0 demo_live).state ∧
    tcltkip_instance_count (interp_deleted_callback 0 demo_live).state
      = .ok demo_live.live_instances.length (interp_deleted_callback 0 demo_live).state ∧
    demo_live.live_instances.length = 1 :=
  ⟨by decide, by decide,
   (deleted_handle_stays_registered (stubEnv (.value .nil)) demo_live 0 (by decide)).1,
   (deleted_handle_stays_registered (stubEnv (.value .nil)) demo_live 0 (by decide)).2.2.1,
   by decide⟩

/-- C21 (divergence). On a live handle, from any thread, `tcl_invoke` without
arguments raises `ArgumentError`; all it has done by then is ask for the
current thread: no call is made with the interpreter of the handle, no event is
posted and nothing the extension owns, the queue of the handle included, has
changed. With one or more arguments an exception raised by `tcl_invoke` is a
`TclError` (Tcl reported an error), a `TypeError` (an argument is not a
string), or the exception that unwound `Tcl_EvalObjv`; and on the owning thread
whatever unwinds `Tcl_EvalObjv` is raised by `tcl_invoke` as it is. That can be
an `ArgumentError`: the command `ruby_callback` raises one, outside
`rb_protect`, when the closure returns a value whose text has a NUL byte. -/
theorem invoke_arity (w : World ε) (self : VALUE) (cur : ThreadId)
    (hd : (w.objs self).deleted = false) (hi : (w.objs self).interp ≠ 0) :
    (∃ w1, interp_tcl_invoke E [] self cur w
        = .raise ⟨.ArgumentError, "wrong number of arguments (given 0, expected 1+)"⟩ w1 ∧
      w1.trace = w.trace ++ [.Tcl_GetCurrentThread] ∧
      w1.ext = w.ext ∧
      w1.bridge = w.bridge) ∧
    (∀ argv e w2, argv ≠ [] → interp_tcl_invoke E argv self cur w = .raise e w2 →
      e.klass = .TclError ∨ e.klass = .TypeError ∨
      ∃ ws, words_of argv = .ok ws ∧
        (E.Tcl_EvalObjv (w.objs self).interp ws w.ext).1 = .unwound e) ∧
    (∀ argv ws e, argv ≠ [] → words_of argv = .ok ws → cur = (w.objs self).main_thread_id →
      (E.Tcl_EvalObjv (w.objs self).interp ws w.ext).1 = .unwound e →
      ∃ w2, interp_tcl_invoke E argv self cur w = .raise e w2) ∧
    (∀ (w0 : World ε) (clientData : VALUE) (interp : Ptr) (i : String) (args : List String)
        (c : ProcId) (v : RValue),
      rb_hash_aref (w0.objs clientData).callbacks i = some c →
      (E.rb_proc_call c args w0.ext).1 = .value v → NIL_P v = false →
      contains_nul (rb_String v) = true →
      ∃ w1, ruby_callback_proc E clientData interp ("ruby_callback" :: i :: args) w0
        = .raise ⟨.ArgumentError, "string contains null byte"⟩ w1) := by
  refine ⟨⟨w.asked, interp_tcl_invoke_no_args E w self cur hd hi, rfl, rfl, rfl⟩, ?_, ?_, ?_⟩
  · intro argv e w2 hargv h
    by_cases hcur : cur = (w.objs self).main_thread_id
    · subst hcur
      rw [interp_tcl_invoke_direct E w self argv hd hi hargv] at h
      exact execute_queued_invoke_raise E w.asked w2 self argv e h
    · rw [interp_tcl_invoke_queued E w self argv cur hd hi hargv hcur,
        queue_command_internal_blocks] at h
      cases h
  · intro argv ws e hargv hw hcur hu
    subst hcur
    exact interp_tcl_invoke_unwound E w self argv ws e hd hi hargv hw hu
  · intro w0 clientData interp i args c v hreg hv hn hz
    have hr := ruby_callback_proc_registered E w0 clientData interp
      ("ruby_callback" :: i :: args) c (by simp) (by simpa using hreg)
    simp only [List.drop_succ_cons, List.drop_zero] at hr
    rw [hr, hv]
    simp [hn, hz]

/-- C21 witness (the failing input): on the live handle 0, whose closure `cb1`
returns the string `a\0b`, the owning thread 1 calls
`tcl_invoke("ruby_callback", "cb1")`. The call has two arguments and raises
`ArgumentError`. -/
theorem invoke_arity_witness :
    (demo_registered.objs 0).deleted = false ∧ (demo_registered.objs 0).interp ≠ 0 ∧
    (interp_tcl_invoke nulEnv [.str "ruby_callback", .str "cb1"] 0 1 demo_registered).error?
      = some ⟨.ArgumentError, "string contains null byte"⟩ :=
  ⟨by decide, by decide,
   by
    obtain ⟨w2, h⟩ := (invoke_arity nulEnv demo_registered 0 1 (by decide) (by decide)).2.2.1
      [.str "ruby_callback", .str "cb1"] ["ruby_callback", "cb1"]
      ⟨.ArgumentError, "string contains null byte"⟩ (by decide) rfl (by decide) (by rfl)
    rw [h]
    rfl⟩

/-- C22 counterexample: on the live handle 0, whose interval is the default 5,
the setter called with 2147483648, which is `>= 0`, raises `RangeError` and
stores nothing, and so does the global setter; called with -2147483649 both
raise `RangeError`, not `ArgumentError`. -/
theorem timer_setter_out_of_range :
    (demo_live.objs 0).timer_interval_ms = 5 ∧
    ((interp_set_thread_timer_ms 0 (.int 2147483648) demo_live).error?.map RException.klass)
      = some .RangeError ∧
    ((interp_set_thread_timer_ms 0 (.int 2147483648) demo_live).state.objs 0).timer_interval_ms
      = 5 ∧
    ((lib_set_thread_timer_ms (.int 2147483648) demo_live).error?.map RException.klass)
      = some .RangeError ∧
    (lib_set_thread_timer_ms (.int 2147483648) demo_live).state.g_thread_timer_ms = 5 ∧
    ((interp_set_thread_timer_ms 0 (.int (-2147483649)) demo_live).error?.map RException.klass)
      = some .RangeError ∧
    ((lib_set_thread_timer_ms (.int (-2147483649)) demo_live).error?.map RException.klass)
      = some .RangeError := by
  refine ⟨by decide, by decide, by decide, by decide, by decide, by decide, by decide⟩

/-- C22 (amended). The timer intervals default to 5 ms: the global one, that
of a new handle and that of a new child. Creating a handle with a
`thread_timer_ms` that is negative, and calling either setter with a negative
value, raises `ArgumentError` when the value fits a C `int`, and leaves the
whole process as it was (so a rejected create makes no interpreter); a value
that does not fit a C `int` raises `RangeError` and leaves the whole process as
it was. For every `ms` from 0 to 2147483647 the setter stores `ms` and returns
it, and the getter then returns `ms`. Every operation keeps every interval
`>= 0`. -/
theorem timer_intervals (w : World ε) (self : VALUE)
    (hd : (w.objs self).deleted = false) (hi : (w.objs self).interp ≠ 0) :
    (∀ x : ε, (World.init x).g_thread_timer_ms = 5 ∧ TimersNonneg (World.init x)) ∧
    ((interp_alloc w).state.objs w.n_objs).timer_interval_ms = 5 ∧
    (∀ name safemode cur child w1,
      interp_create_slave E self name safemode cur w = .ok child w1 →
      (w1.objs child).timer_interval_ms = 5) ∧
    (∀ (v : VALUE) name h cur ms, rb_hash_aref h "thread_timer_ms" = some (.int ms) →
      ms < 0 → -2147483648 ≤ ms →
      interp_initialize E v name (some h) cur w
        = .raise ⟨.ArgumentError, "thread_timer_ms must be >= 0 (got " ++ toString ms ++ ")"⟩
            w) ∧
    (∀ ms : Int, ms < 0 → -2147483648 ≤ ms →
      interp_set_thread_timer_ms self (.int ms) w
        = .raise ⟨.ArgumentError, "thread_timer_ms must be >= 0 (got " ++ toString ms ++ ")"⟩
            w ∧
      lib_set_thread_timer_ms (.int ms) w
        = .raise ⟨.ArgumentError, "thread_timer_ms must be >= 0 (got " ++ toString ms ++ ")"⟩
            w) ∧
    (∀ ms : Int, ms < -2147483648 ∨ 2147483647 < ms →
      (∀ (v : VALUE) name h cur, rb_hash_aref h "thread_timer_ms" = some (.int ms) →
        ∃ e, e.klass = .RangeError ∧ interp_initialize E v name (some h) cur w = .raise e w) ∧
      (∃ e, e.klass = .RangeError ∧ interp_set_thread_timer_ms self (.int ms) w = .raise e w) ∧
      (∃ e, e.klass = .RangeError ∧ lib_set_thread_timer_ms (.int ms) w = .raise e w)) ∧
    (∀ ms : Int, 0 ≤ ms → ms ≤ 2147483647 →
      interp_set_thread_timer_ms self (.int ms) w
        = .ok (.int ms) (w.store self { w.objs self with timer_interval_ms := ms }) ∧
      interp_get_thread_timer_ms self (w.store self { w.objs self with timer_interval_ms := ms })
        = .ok (.int ms) (w.store self { w.objs self with timer_interval_ms := ms }) ∧
      lib_set_thread_timer_ms (.int ms) w = .ok (.int ms) { w with g_thread_timer_ms := ms } ∧
      lib_get_thread_timer_ms ({ w with g_thread_timer_ms := ms } : World ε)
        = .ok (.int ms) { w with g_thread_timer_ms := ms }) ∧
    KeepsTimers (interp_alloc : M ε VALUE) ∧
    (∀ name opts cur, KeepsTimers ( interp_initialize E self name opts cur)) ∧
    (∀ name safemode cur, KeepsTimers (interp_create_slave E self name safemode cur)) ∧
    KeepsTimers (interp_delete E self) ∧
    KeepsTimers (interp_free E self) ∧
    KeepsTimers (interp_deleted_callback self : M ε Unit) ∧
    (∀ val, KeepsTimers (interp_set_thread_timer_ms self val : M ε RValue)) ∧
    (∀ val, KeepsTimers (lib_set_thread_timer_ms val : M ε RValue)) ∧
    (∀ script cur, KeepsTimers (interp_tcl_eval E self script cur)) ∧
    (∀ argv cur, KeepsTimers (interp_tcl_invoke E argv self cur)) ∧
    (∀ name, KeepsTimers (interp_tcl_get_var E self name)) ∧
    (∀ name value, KeepsTimers (interp_tcl_set_var E self name value)) ∧
    (∀ proc, KeepsTimers (interp_register_callback self proc : M ε RValue)) ∧
    (∀ id, KeepsTimers (interp_unregister_callback self id : M ε RValue)) ∧
    (∀ proc cur, KeepsTimers (interp_queue_for_main E self proc cur)) ∧
    (∀ fuel, KeepsTimers (interp_mainloop E self fuel)) ∧
    (∀ argv fuel, KeepsTimers (lib_mainloop E argv fuel)) ∧
    (∀ argv, KeepsTimers (interp_do_one_event E argv self)) ∧
    (∀ list_str, KeepsTimers (interp_tcl_split_list E self list_str)) ∧
    (∀ interp objv, KeepsTimers (ruby_callback_proc E self interp objv)) ∧
    (∀ interp objv, KeepsTimers (ruby_eval_proc E self interp objv)) ∧
    KeepsTimers (ruby_thread_event_handler E self) ∧
    KeepsTimers (keepalive_timer_proc E self) ∧
    KeepsTimers (global_keepalive_timer_proc E) := by
  refine ⟨fun x => ⟨rfl, timers_init x⟩, ?_, ?_, ?_, ?_, ?_, ?_, ?_⟩
  · simp [interp_alloc, Res.state, World.store, DEFAULT_TIMER_INTERVAL_MS]
  · intro name safemode cur child w1 h
    exact interp_create_slave_timer E w w1 self child name safemode cur h
  · intro v name h cur ms hopt hneg hmin
    simp [ interp_initialize, initialize_options, hopt, NIL_P,
      NUM2INT_in_range w ms hmin (by omega), hneg, rb_raise]
  · intro ms hneg hmin
    constructor
    · simp [interp_set_thread_timer_ms, get_interp_live w self hd hi,
        NUM2INT_in_range w ms hmin (by omega), hneg, rb_raise]
    · simp [lib_set_thread_timer_ms, NUM2INT_in_range w ms hmin (by omega), hneg, rb_raise]
  · intro ms hout
    refine ⟨?_, ?_, ?_⟩
    · intro v name h cur hopt
      exact ⟨⟨.RangeError, "integer " ++ toString ms ++ " too big to convert to int"⟩, rfl, by
        simp [ interp_initialize, initialize_options, hopt, NIL_P, NUM2INT_out_of_range w ms hout]⟩
    · exact ⟨⟨.RangeError, "integer " ++ toString ms ++ " too big to convert to int"⟩, rfl, by
        simp [interp_set_thread_timer_ms, get_interp_live w self hd hi,
          NUM2INT_out_of_range w ms hout]⟩
    · exact ⟨⟨.RangeError, "integer " ++ toString ms ++ " too big to convert to int"⟩, rfl, by simp [lib_set_thread_timer_ms, NUM2INT_out_of_range w ms hout]⟩
  · intro ms hpos hmax
    have hnn : ¬ ms < 0 := by omega
    refine ⟨?_, ?_, ?_, ?_⟩
    · simp [interp_set_thread_timer_ms, get_interp_live w self hd hi,
        NUM2INT_in_range w ms (by omega) hmax, hnn]
    · simp [interp_get_thread_timer_ms, get_interp, World.store, hd, hi]
    · simp [lib_set_thread_timer_ms, NUM2INT_in_range w ms (by omega) hmax, hnn]
    · simp [lib_get_thread_timer_ms]
  · exact ⟨timers_interp_alloc,
      fun _ _ _ => timers_interp_initialize E _ _ _ _,
      fun _ _ _ => timers_interp_create_slave E _ _ _ _,
      timers_interp_delete E _,
      timers_interp_free E _,
      timers_interp_deleted_callback _,
      fun _ => timers_interp_set_thread_timer_ms _ _,
      fun _ => timers_lib_set_thread_timer_ms _,
      fun _ _ => timers_interp_tcl_eval E _ _ _,
      fun _ _ => timers_interp_tcl_invoke E _ _ _,
      fun _ => timers_interp_tcl_get_var E _ _,
      fun _ _ => timers_interp_tcl_set_var E _ _ _,
      fun _ => timers_interp_register_callback _ _,
      fun _ => timers_interp_unregister_callback _ _,
      fun _ _ => timers_interp_queue_for_main E _ _ _,
      fun _ => timers_interp_mainloop E _ _,
      fun _ _ => timers_lib_mainloop E _ _,
      fun _ => timers_interp_do_one_event E _ _,
      fun _ => timers_interp_tcl_split_list E _ _,
      fun _ _ => timers_ruby_callback_proc E _ _ _,
      fun _ _ => timers_ruby_eval_proc E _ _ _,
      timers_ruby_thread_event_handler E _,
      timers_keepalive_timer_proc E _,
      timers_global_keepalive_timer_proc E⟩

/-- C22 witness: on the live handle 0 the setter stores 20. -/
theorem timer_intervals_witness :
    (demo_live.objs 0).deleted = false ∧ (demo_live.objs 0).interp ≠ 0 ∧
    (0 : Int) ≤ 20 ∧ (20 : Int) ≤ 2147483647 ∧
    interp_set_thread_timer_ms 0 (.int 20) demo_live
      = .ok (.int 20) (demo_live.store 0 { demo_live.objs 0 with timer_interval_ms := 20 }) :=
  ⟨by decide, by decide, by decide, by decide,
   ((timer_intervals (stubEnv (.value .nil)) demo_live 0 (by decide) (by decide)).2.2.2.2.2.2.1
      20 (by decide) (by decide)).1⟩

/-- C23. `Interp#mainloop` on a live handle and `TclTkLib.mainloop` create
the keep-alive timer when the interval is positive, run their loop and return
`nil`; `TclTkLib.mainloop` tests the number of main windows unless its argument
is `false`. Both loops test the number of main windows before each iteration:
when it is not positive the loop returns after that one test, without
processing an event; when it is positive the loop runs one iteration and then
the rest of the loop. An iteration processes one event; whatever the event did
(`event`, which stands for `Tcl_DoOneEvent` and may run code of the bridge),
if it returns the iteration then yields once when the interval (of the handle,
or the global one) is positive at that point and not at all otherwise, makes
one interrupt check, and ends; if it is unwound, so is the iteration. An
iteration that raises ends the loop. A call that returns has made, after the
timer, the calls of some tested iterations and one last test. The global loop
called with `check_root` false makes no test and never returns: it ends by an
exception only. -/
theorem main_loops (w : World ε) (self : VALUE) (fuel : Nat) :
    (∀ i : Int, (i > 0 → iteration_calls i = [.Tcl_DoOneEvent TCL_ALL_EVENTS,
        .rb_thread_call_without_gvl, .rb_thread_check_ints]) ∧
      (i ≤ 0 → iteration_calls i = [.Tcl_DoOneEvent TCL_ALL_EVENTS, .rb_thread_check_ints])) ∧
    ((w.objs self).deleted = false → (w.objs self).interp ≠ 0 →
      interp_mainloop E self fuel w
        = (interp_mainloop_loop E self fuel >>= fun _ => pure .nil)
            (World.armed E w (w.objs self).timer_interval_ms (some self))) ∧
    (∀ argv : List RValue, lib_mainloop E argv fuel w
      = (lib_mainloop_loop E
            (match argv with
             | [] => true
             | a :: _ => if a ≠ .nil then RTEST a else true) fuel >>= fun _ => pure .nil)
          (World.armed E w w.g_thread_timer_ms none)) ∧
    ((E.Tk_GetNumMainWindows w.ext).1 ≤ 0 →
      interp_mainloop_loop E self fuel w
        = .ok () { w with ext := (E.Tk_GetNumMainWindows w.ext).2,
                          trace := w.trace ++ [.Tk_GetNumMainWindows] } ∧
      lib_mainloop_loop E true fuel w
        = .ok () { w with ext := (E.Tk_GetNumMainWindows w.ext).2,
                          trace := w.trace ++ [.Tk_GetNumMainWindows] }) ∧
    ((E.Tk_GetNumMainWindows w.ext).1 > 0 →
      interp_mainloop_loop E self (fuel + 1) w
        = (interp_mainloop_iteration E self >>= fun _ => interp_mainloop_loop E self fuel)
            { w with ext := (E.Tk_GetNumMainWindows w.ext).2,
                     trace := w.trace ++ [.Tk_GetNumMainWindows] } ∧
      lib_mainloop_loop E true (fuel + 1) w
        = (lib_mainloop_iteration E >>= fun _ => lib_mainloop_loop E true fuel)
            { w with ext := (E.Tk_GetNumMainWindows w.ext).2,
                     trace := w.trace ++ [.Tk_GetNumMainWindows] }) ∧
    (interp_mainloop_iteration E self
        = interp_mainloop_iteration_around E
            (foreign_code (.Tcl_DoOneEvent TCL_ALL_EVENTS) (E.Tcl_DoOneEvent TCL_ALL_EVENTS))
            self ∧
      lib_mainloop_iteration E
        = lib_mainloop_iteration_around E
            (foreign_code (.Tcl_DoOneEvent TCL_ALL_EVENTS) (E.Tcl_DoOneEvent TCL_ALL_EVENTS))) ∧
    (∀ (event : M ε Int) (c : Int) (wE : World ε), event w = .ok c wE →
      ((interp_mainloop_iteration_around E event self w).outcome ≠ none ∧
        (interp_mainloop_iteration_around E event self w).state.trace
          = wE.trace ++ (if (wE.objs self).timer_interval_ms > 0
              then [.rb_thread_call_without_gvl] else []) ++ [.rb_thread_check_ints]) ∧
      ((lib_mainloop_iteration_around E event w).outcome ≠ none ∧
        (lib_mainloop_iteration_around E event w).state.trace
          = wE.trace ++ (if wE.g_thread_timer_ms > 0
              then [.rb_thread_call_without_gvl] else []) ++ [.rb_thread_check_ints])) ∧
    (∀ (event : M ε Int) (e : RException) (wE : World ε), event w = .raise e wE →
      interp_mainloop_iteration_around E event self w = .raise e wE ∧
      lib_mainloop_iteration_around E event w = .raise e wE) ∧
    (∀ w1, interp_mainloop_iteration E self w = .ok () w1 →
      w1.trace = w.trace ++ iteration_calls (w.objs self).timer_interval_ms) ∧
    (∀ w1, lib_mainloop_iteration E w = .ok () w1 →
      w1.trace = w.trace ++ iteration_calls w.g_thread_timer_ms) ∧
    (∀ e w1, interp_mainloop_iteration E self w = .raise e w1 →
      (interp_mainloop_iteration E self >>= fun _ => interp_mainloop_loop E self fuel) w
        = .raise e w1) ∧
    (∀ e w1, lib_mainloop_iteration E w = .raise e w1 →
      ∀ check_root,
        (lib_mainloop_iteration E >>= fun _ => lib_mainloop_loop E check_root fuel) w
          = .raise e w1) ∧
    (∀ r w1, (w.objs self).deleted = false → (w.objs self).interp ≠ 0 →
      interp_mainloop E self fuel w = .ok r w1 →
      r = .nil ∧ ∃ ivs : List Int, ivs.length ≤ fuel ∧
        w1.trace = (World.armed E w (w.objs self).timer_interval_ms (some self)).trace
          ++ tested_run ivs ++ [.Tk_GetNumMainWindows]) ∧
    (∀ r w1, lib_mainloop E [] fuel w = .ok r w1 →
      r = .nil ∧ ∃ ivs : List Int, ivs.length ≤ fuel ∧
        w1.trace = (World.armed E w w.g_thread_timer_ms none).trace
          ++ tested_run ivs ++ [.Tk_GetNumMainWindows]) ∧
    (∀ w1, lib_mainloop_loop E false fuel w ≠ .ok () w1) ∧
    (∀ w1 r, lib_mainloop E [.bool false] fuel w ≠ .ok r w1) ∧
    lib_mainloop_loop E false (fuel + 1) w
      = (lib_mainloop_iteration E >>= fun _ => lib_mainloop_loop E false fuel) w := by
  refine ⟨?_, ?_, ?_, ?_, ?_, ⟨rfl, rfl⟩, ?_, ?_, ?_, ?_, ?_, ?_, ?_, ?_, ?_, ?_, ?_⟩
  · intro i
    constructor
    · intro hi
      simp [iteration_calls, hi]
    · intro hi
      have : ¬ i > 0 := by omega
      simp [iteration_calls, this]
  · intro hd hi
    exact interp_mainloop_live E w self fuel hd hi
  · intro argv
    exact lib_mainloop_eq E w argv fuel
  · intro hn
    exact ⟨interp_mainloop_loop_exit E w self fuel hn, lib_mainloop_loop_exit E w fuel hn⟩
  · intro hn
    exact ⟨interp_mainloop_loop_step E w self fuel hn, lib_mainloop_loop_step E w fuel hn⟩
  · intro event c wE h
    exact ⟨interp_mainloop_iteration_around_ok E event self w wE c h,
      lib_mainloop_iteration_around_ok E event w wE c h⟩
  · intro event e wE h
    constructor
    · simp only [interp_mainloop_iteration_around, bind_apply, h]
    · simp only [lib_mainloop_iteration_around, bind_apply, h]
  · intro w1 h
    exact (interp_mainloop_iteration_trace E w self).1 w1 h
  · intro w1 h
    exact (lib_mainloop_iteration_trace E w).1 w1 h
  · intro e w1 h
    rw [bind_apply, h]
  · intro e w1 h check_root
    rw [bind_apply, h]
  · intro r w1 hd hi h
    exact interp_mainloop_completed E w w1 self fuel r hd hi h
  · intro r w1 h
    exact lib_mainloop_completed E w w1 fuel r h
  · intro w1
    exact lib_mainloop_loop_free_never_returns E fuel w w1
  · intro w1 r
    exact lib_mainloop_free_never_returns E (.bool false) (by decide) rfl fuel w w1 r
  · exact lib_mainloop_loop_free_step E w fuel

/-- C23 witness: `Interp#mainloop` on the live handle 0 with one main window,
which the first event closes. The call creates the timer (interval 5), tests,
runs one iteration (event, yield, interrupt check), tests again and returns
`nil`. -/
theorem main_loops_witness :
    (demo_live.objs 0).deleted = false ∧ (demo_live.objs 0).interp ≠ 0 ∧
    (interp_mainloop windowEnv 0 3 demo_live).value? = some .nil ∧
    (interp_mainloop windowEnv 0 3 demo_live).state.trace
      = demo_live.trace ++ [.Tcl_CreateTimerHandler 5 (some 0), .Tk_GetNumMainWindows,
          .Tcl_DoOneEvent TCL_ALL_EVENTS, .rb_thread_call_without_gvl, .rb_thread_check_ints,
          .Tk_GetNumMainWindows] ∧
    (∃ ivs : List Int, ivs.length ≤ 3 ∧
      (interp_mainloop windowEnv 0 3 demo_live).state.trace
        = (World.armed windowEnv demo_live (demo_live.objs 0).timer_interval_ms (some 0)).trace
          ++ tested_run ivs ++ [.Tk_GetNumMainWindows]) :=
  ⟨by decide, by decide, by decide, by decide,
   ((main_loops windowEnv demo_live 0 3).2.2.2.2.2.2.2.2.2.2.2.2.1 .nil
      (interp_mainloop windowEnv 0 3 demo_live).state (by decide) (by decide) (by rfl)).2⟩

/-- C24. The callback depth is balanced. However a dispatch by
`ruby_callback_proc` ends (the closure returns, raises `TkCallbackBreak`,
`TkCallbackContinue` or `TkCallbackReturn`, raises another exception, raises a
fatal one that is re-raised, or the dispatch is rejected), the depth after it
is the depth before it. A dispatch of a registered id runs the closure in a
state whose depth is one more, and takes the one off again before it looks at
the outcome; a rejected dispatch changes nothing the extension owns. The same
holds when the closure enters the bridge again: a dispatch whose closure is
balanced is balanced, to any depth of nesting. No other operation changes the
depth, which starts at 0, so `in_callback?` is false after a dispatch that
started at depth 0 and true while its closure runs. -/
theorem callback_depth_balanced (w : World ε) (clientData : VALUE) (interp : Ptr)
    (objv : List String) :
    KeepsDepth (ruby_callback_proc E clientData interp objv) ∧
    ruby_callback_proc E clientData interp objv
      = ruby_callback_proc_around E (callback_invoke E) clientData interp objv ∧
    (∀ (body : ProcId → List String → M ε RValue) (proc : ProcId), 2 ≤ objv.length →
      rb_hash_aref (w.objs clientData).callbacks (objv.getD 1 "") = some proc →
      ruby_callback_proc_around E body clientData interp objv w
        = match body proc (objv.drop 2)
              { w with rbtk_callback_depth := w.rbtk_callback_depth + 1 } with
          | .ok v w2 =>
            callback_result E interp (.ok v)
              { w2 with rbtk_callback_depth := w2.rbtk_callback_depth - 1 }
          | .raise e w2 =>
            callback_result E interp (.error e)
              { w2 with rbtk_callback_depth := w2.rbtk_callback_depth - 1 }
          | .blocked q w2 => .blocked q w2
          | .out_of_fuel w2 => .out_of_fuel w2
          | .crashed w2 => .crashed w2) ∧
    (∀ result, KeepsDepth (callback_result E interp result)) ∧
    (∀ body : ProcId → List String → M ε RValue,
      objv.length < 2 ∨ rb_hash_aref (w.objs clientData).callbacks (objv.getD 1 "") = none →
      ∃ w1, ruby_callback_proc_around E body clientData interp objv w = .ok TCL_ERROR w1 ∧
        w1.bridge = w.bridge) ∧
    (∀ body : ProcId → List String → M ε RValue, (∀ p a, Balanced (body p a)) →
      Balanced (ruby_callback_proc_around E body clientData interp objv)) ∧
    (∀ inner n p a, Balanced (nested_callback E clientData interp inner n p a)) ∧
    (∀ x : ε, (World.init x).rbtk_callback_depth = 0) ∧
    (w.rbtk_callback_depth = 0 →
      lib_in_callback_p (ruby_callback_proc E clientData interp objv w).state
        = .ok (.bool false) (ruby_callback_proc E clientData interp objv w).state ∧
      lib_in_callback_p ({ w with rbtk_callback_depth := w.rbtk_callback_depth + 1 } : World ε)
        = .ok (.bool true) { w with rbtk_callback_depth := w.rbtk_callback_depth + 1 }) ∧
    (∀ interp2 objv2, KeepsDepth (ruby_eval_proc E clientData interp2 objv2)) ∧
    KeepsDepth (interp_alloc : M ε VALUE) ∧
    (∀ name opts cur, KeepsDepth ( interp_initialize E clientData name opts cur)) ∧
    (∀ name safemode cur, KeepsDepth (interp_create_slave E clientData name safemode cur)) ∧
    KeepsDepth (interp_delete E clientData) ∧
    KeepsDepth (interp_free E clientData) ∧
    KeepsDepth (interp_deleted_callback clientData : M ε Unit) ∧
    (∀ script cur, KeepsDepth (interp_tcl_eval E clientData script cur)) ∧
    (∀ argv cur, KeepsDepth (interp_tcl_invoke E argv clientData cur)) ∧
    (∀ name, KeepsDepth (interp_tcl_get_var E clientData name)) ∧
    (∀ name value, KeepsDepth (interp_tcl_set_var E clientData name value)) ∧
    (∀ proc, KeepsDepth (interp_register_callback clientData proc : M ε RValue)) ∧
    (∀ id, KeepsDepth (interp_unregister_callback clientData id : M ε RValue)) ∧
    (∀ proc cur, KeepsDepth (interp_queue_for_main E clientData proc cur)) ∧
    KeepsDepth (ruby_thread_event_handler E clientData) ∧
    (∀ fuel, KeepsDepth (interp_mainloop E clientData fuel)) ∧
    (∀ argv fuel, KeepsDepth (lib_mainloop E argv fuel)) ∧
    (∀ argv, KeepsDepth (interp_do_one_event E argv clientData)) ∧
    (∀ val, KeepsDepth (interp_set_thread_timer_ms clientData val : M ε RValue)) ∧
    (∀ val, KeepsDepth (lib_set_thread_timer_ms val : M ε RValue)) ∧
    (∀ list_str, KeepsDepth (interp_tcl_split_list E clientData list_str)) ∧
    KeepsDepth (keepalive_timer_proc E clientData) ∧
    KeepsDepth (global_keepalive_timer_proc E) := by
  refine ⟨depth_ruby_callback_proc E _ _ _, ruby_callback_proc_eq_around E _ _ _, ?_,
    fun r => depth_callback_result E interp r, ?_,
    fun body hb => balanced_around E body hb clientData interp objv,
    fun inner n p a => balanced_nested_callback E clientData interp inner n p a,
    fun _ => rfl, ?_, ?_⟩
  · intro body proc hlen hreg
    exact ruby_callback_proc_around_registered E body w clientData interp objv proc hlen hreg
  · intro body hrej
    obtain ⟨w1, h1, hb, _⟩ :=
      ruby_callback_proc_around_rejected E body w clientData interp objv hrej
    exact ⟨w1, h1, hb⟩
  · intro h0
    constructor
    · have hk := (depth_ruby_callback_proc E clientData interp objv).keep w
      simp [lib_in_callback_p, hk, h0]
    · simp [lib_in_callback_p, h0]
  · exact ⟨fun _ _ => depth_ruby_eval_proc E _ _ _,
      depth_interp_alloc,
      fun _ _ _ => depth_interp_initialize E _ _ _ _,
      fun _ _ _ => depth_interp_create_slave E _ _ _ _,
      depth_interp_delete E _,
      depth_interp_free E _,
      depth_interp_deleted_callback _,
      fun _ _ => depth_interp_tcl_eval E _ _ _,
      fun _ _ => depth_interp_tcl_invoke E _ _ _,
      fun _ => depth_interp_tcl_get_var E _ _,
      fun _ _ => depth_interp_tcl_set_var E _ _ _,
      fun _ => depth_interp_register_callback _ _,
      fun _ => depth_interp_unregister_callback _ _,
      fun _ _ => depth_interp_queue_for_main E _ _ _,
      depth_ruby_thread_event_handler E _,
      fun _ => depth_interp_mainloop E _ _,
      fun _ _ => depth_lib_mainloop E _ _,
      fun _ => depth_interp_do_one_event E _ _,
      fun _ => depth_interp_set_thread_timer_ms _ _,
      fun _ => depth_lib_set_thread_timer_ms _,
      fun _ => depth_interp_tcl_split_list E _ _,
      depth_keepalive_timer_proc E _,
      depth_global_keepalive_timer_proc E⟩

/-- C24 witness: on handle 0 with `cb1` registered and depth 0, the dispatch
of `ruby_callback cb1` whose closure raises `SystemExit` leaves `in_callback?`
false. -/
theorem callback_depth_balanced_witness :
    demo_registered.rbtk_callback_depth = 0 ∧
    (ruby_callback_proc (stubEnv (.raised ⟨.SystemExit, "exit"⟩)) 0 1 ["ruby_callback", "cb1"]
      demo_registered).error? = some ⟨.SystemExit, "exit"⟩ ∧
    lib_in_callback_p
        (ruby_callback_proc (stubEnv (.raised ⟨.SystemExit, "exit"⟩)) 0 1
          ["ruby_callback", "cb1"] demo_registered).state
      = .ok (.bool false)
          (ruby_callback_proc (stubEnv (.raised ⟨.SystemExit, "exit"⟩)) 0 1
            ["ruby_callback", "cb1"] demo_registered).state :=
  ⟨by decide, by decide,
   ((callback_depth_balanced (stubEnv (.raised ⟨.SystemExit, "exit"⟩)) demo_registered 0 1
      ["ruby_callback", "cb1"]).2.2.2.2.2.2.2.2.1 (by decide)).1⟩

/-- C25. When the command a handler run took from the queue raises
`SystemExit` or `Interrupt`, the handler re-raises it at once: the run ends
with that exception in the state the execution left, the command is no longer
in the queue, and no response has been pushed on any result queue. A caller
waiting on the result queue of that command stays suspended: it gets neither
a value nor an exception. Later handler runs take the remaining commands only,
so the command is not executed again and nothing is pushed for it later. -/
theorem fatal_signal_no_response (w w2 : World ε) (tip : VALUE) (cmd : Cmd) (rest : List Cmd)
    (e : RException) (steps : List QStep)
    (hq : (w.objs tip).thread_queue = cmd :: rest)
    (hexec : execute_queued E tip cmd.kind (w.store tip { w.objs tip with thread_queue := rest })
      = .raise e w2)
    (hfatal : (rb_obj_is_kind_of e .SystemExit || rb_obj_is_kind_of e .Interrupt) = true) :
    ruby_thread_event_handler E tip w = .raise e w2 ∧
    (w2.objs tip).thread_queue = rest ∧
    w2.queues = w.queues ∧
    (∀ q, cmd.queue = some q → w.queues q = [] →
      queue_command_wait q w2 = .blocked q w2) ∧
    (∀ (m : M ε RValue) (w0 : World ε) (q : QueueId), m w0 = .blocked q w →
      served E tip m w0 = .blocked q w2) ∧
    (run_schedule E tip steps w2).executed
        ++ ((run_schedule E tip steps w2).final.objs tip).thread_queue
      = rest ++ (run_schedule E tip steps w2).enqueued := by
  have hobjs : w2.objs = (w.store tip { w.objs tip with thread_queue := rest }).objs :=
    execute_queued_objs E (w.store tip { w.objs tip with thread_queue := rest }) w2 tip cmd.kind
      (by rw [hexec]; rfl)
  have hqs : w2.queues = w.queues :=
    execute_queued_queues E (w.store tip { w.objs tip with thread_queue := rest }) w2 tip
      cmd.kind (by rw [hexec]; rfl)
  have hrest : (w2.objs tip).thread_queue = rest := by
    rw [hobjs]
    simp [World.store]
  refine ⟨?_, hrest, hqs, ?_, ?_, ?_⟩
  · rw [ruby_thread_event_handler_cons E w tip cmd rest hq,
      run_queued_command_fatal E _ w2 tip cmd e hexec hfatal]
  · intro q _ hempty
    have h0 : w2.queues q = [] := by rw [hqs]; exact hempty
    simp [queue_command_wait, Queue_pop, h0]
  · intro m w0 q hm
    exact served_fatal E w0 w w2 tip m q cmd rest e hm hq hexec hfatal
  · rw [run_schedule_invariant, hrest]

/-- C25 witness: thread 2 has submitted the script `exit` on the live handle 0
and waits on result queue 0; the script is unwound by `SystemExit`. -/
theorem fatal_signal_no_response_witness :
    ((interp_tcl_eval exitEnv 0 (.str "exit") 2 demo_live).state.objs 0).thread_queue
      = [⟨.eval "exit", some 0⟩] ∧
    (rb_obj_is_kind_of ⟨.SystemExit, "exit"⟩ .SystemExit ||
      rb_obj_is_kind_of ⟨.SystemExit, "exit"⟩ .Interrupt) = true ∧
    (ruby_thread_event_handler exitEnv 0
      (interp_tcl_eval exitEnv 0 (.str "exit") 2 demo_live).state).error?
        = some ⟨.SystemExit, "exit"⟩ :=
  ⟨by decide, by decide,
   by
    rw [(fatal_signal_no_response exitEnv
      (interp_tcl_eval exitEnv 0 (.str "exit") 2 demo_live).state _ 0
      ⟨.eval "exit", some 0⟩ [] ⟨.SystemExit, "exit"⟩ [] (by decide) rfl (by decide)).1]
    rfl⟩

/-- C26 (divergence). `Interp#initialize` on a fresh handle (no interpreter, no
owning thread, not in `live_instances`) raises, returns, or ends the process.
When it raises, the handle has no interpreter, is not in `live_instances`,
which is as it was, has no owning thread, and `deleted?` is true; either no
interpreter was initialised and none deleted (the options were rejected, which
leaves the whole process as it was, or no interpreter could be created), or one
interpreter was initialised and that same interpreter was deleted, once. When
it returns, the handle holds the interpreter that was initialised, none was
deleted, the handle is the one entry appended to `live_instances`, the owning
thread is the caller and `deleted?` is false. When the process dies, the stubs
table is unset, an interpreter was created and initialised but not deleted,
and the handle still points to it: `deleted?` is false. That happens whenever
the stubs table stays unset, `dlsym` finds `Tcl_CreateInterp`, which hands out
an interpreter, and `Tcl_InitStubs` fails. -/
theorem create_all_or_nothing (w : World ε) (self : VALUE) (name : RValue)
    (opts : Option (List (String × RValue))) (cur : ThreadId)
    (hi : (w.objs self).interp = 0) (hd : (w.objs self).deleted = false)
    (hm : (w.objs self).main_thread_id = 0) (hl : self ∉ w.live_instances) :
    ((∃ e w1, interp_initialize E self name opts cur w = .raise e w1) ∨
      (∃ w1, interp_initialize E self name opts cur w = .ok self w1) ∨
      (∃ w1, interp_initialize E self name opts cur w = .crashed w1)) ∧
    (∀ e, initialize_options self opts w = .raise e w →
      interp_initialize E self name opts cur w = .raise e w) ∧
    (∀ e w1, interp_initialize E self name opts cur w = .raise e w1 →
      (w1.objs self).interp = 0 ∧
      w1.live_instances = w.live_instances ∧
      self ∉ w1.live_instances ∧
      (w1.objs self).main_thread_id = 0 ∧
      interp_deleted_p self w1 = .ok (.bool true) w1 ∧
      ∃ tr, w1.trace = w.trace ++ tr ∧
        ((deletions tr = [] ∧ stub_inits tr = []) ∨
          ∃ p, p ≠ 0 ∧ deletions tr = [p] ∧ stub_inits tr = [p])) ∧
    (∀ v w1, interp_initialize E self name opts cur w = .ok v w1 →
      v = self ∧
      (w1.objs self).interp ≠ 0 ∧
      w1.live_instances = w.live_instances ++ [self] ∧
      (w1.objs self).main_thread_id = cur ∧
      interp_deleted_p self w1 = .ok (.bool false) w1 ∧
      ∃ tr, w1.trace = w.trace ++ tr ∧ deletions tr = [] ∧
        stub_inits tr = [(w1.objs self).interp]) ∧
    (∀ w1, interp_initialize E self name opts cur w = .crashed w1 →
      E.tclStubsPtr w1.ext = false ∧
      (w1.objs self).interp ≠ 0 ∧
      w1.live_instances = w.live_instances ∧
      (w1.objs self).main_thread_id = 0 ∧
      interp_deleted_p self w1 = .ok (.bool false) w1 ∧
      ∃ tr, w1.trace = w.trace ++ tr ∧ deletions tr = [] ∧
        stub_inits tr = [(w1.objs self).interp]) ∧
    ((∀ x, E.tclStubsPtr x = false) → (∀ x, E.dlsym "Tcl_CreateInterp" x = true) →
      (∀ x, (E.Tcl_CreateInterp x).1 ≠ 0) → (∀ p x, (E.Tcl_InitStubs p x).1 = none) →
      (∀ e, initialize_options self opts w ≠ .raise e w) →
      ∃ w1, interp_initialize E self name opts cur w = .crashed w1) := by
  have key : ∀ r, r = interp_initialize E self name opts cur w →
      ((∃ e w1, r = .raise e w1) ∨ (∃ w1, r = .ok self w1) ∨ (∃ w1, r = .crashed w1)) ∧
      (∀ e w1, r = .raise e w1 →
        (w1.objs self).interp = 0 ∧
        w1.live_instances = w.live_instances ∧
        self ∉ w1.live_instances ∧
        (w1.objs self).main_thread_id = 0 ∧
        interp_deleted_p self w1 = .ok (.bool true) w1 ∧
        ∃ tr, w1.trace = w.trace ++ tr ∧
          ((deletions tr = [] ∧ stub_inits tr = []) ∨
            ∃ p, p ≠ 0 ∧ deletions tr = [p] ∧ stub_inits tr = [p])) ∧
      (∀ v w1, r = .ok v w1 →
        v = self ∧
        (w1.objs self).interp ≠ 0 ∧
        w1.live_instances = w.live_instances ++ [self] ∧
        (w1.objs self).main_thread_id = cur ∧
        interp_deleted_p self w1 = .ok (.bool false) w1 ∧
        ∃ tr, w1.trace = w.trace ++ tr ∧ deletions tr = [] ∧
          stub_inits tr = [(w1.objs self).interp]) ∧
      (∀ w1, r = .crashed w1 →
        E.tclStubsPtr w1.ext = false ∧
        (w1.objs self).interp ≠ 0 ∧
        w1.live_instances = w.live_instances ∧
        (w1.objs self).main_thread_id = 0 ∧
        interp_deleted_p self w1 = .ok (.bool false) w1 ∧
        ∃ tr, w1.trace = w.trace ++ tr ∧ deletions tr = [] ∧
          stub_inits tr = [(w1.objs self).interp]) := by
    intro r hr
    rcases initialize_options_outcome w self opts with ⟨e0, he⟩ | ⟨ms, hms⟩
    · have hr2 : r = .raise e0 w := by
        rw [hr]
        simp [ interp_initialize, he]
      subst hr2
      refine ⟨Or.inl ⟨e0, w, rfl⟩, ?_, ?_, ?_⟩
      · intro e w1 h
        simp only [Res.raise.injEq] at h
        obtain ⟨_, h2⟩ := h
        subst h2
        refine ⟨hi, rfl, hl, hm, ?_, [], by simp, Or.inl ⟨rfl, rfl⟩⟩
        simp [interp_deleted_p_eq, hi]
      · intro v w1 h
        cases h
      · intro w1 h
        cases h
    · have hbind : interp_initialize E self name opts cur w
          = initialize_runtime E self cur
              (w.store self { w.objs self with timer_interval_ms := ms }) := by
        simp only [ interp_initialize, bind_apply, hms]
      rw [hbind] at hr
      rcases initialize_runtime_paths E
          (w.store self { w.objs self with timer_interval_ms := ms }) self cur with
        ⟨x, tr, h, hdel, hst⟩ | ⟨p, e0, x, tr, hp, h, hdel, hst, _⟩ |
        ⟨p, x, tr, hp, h, hdel, hst, _⟩ | ⟨p, x, tr, hp, h, hs, hdel, hst⟩
      · rw [h] at hr
        subst hr
        refine ⟨Or.inl ⟨_, _, rfl⟩, ?_, ?_, ?_⟩
        · intro e w1 h1
          simp only [Res.raise.injEq] at h1
          obtain ⟨_, h2⟩ := h1
          subst h2
          refine ⟨by simp [World.store], by simp [World.store],
            by simpa [World.store] using hl, by simp [World.store, hm], ?_,
            tr, by simp [World.store], Or.inl ⟨hdel, hst⟩⟩
          simp [interp_deleted_p_eq, World.store]
        · intro v w1 h1
          cases h1
        · intro w1 h1
          cases h1
      · rw [h] at hr
        subst hr
        refine ⟨Or.inl ⟨_, _, rfl⟩, ?_, ?_, ?_⟩
        · intro e w1 h1
          simp only [Res.raise.injEq] at h1
          obtain ⟨_, h2⟩ := h1
          subst h2
          refine ⟨by simp [World.store], by simp [World.store],
            by simpa [World.store] using hl, by simp [World.store, hm], ?_,
            tr, by simp [World.store], Or.inr ⟨p, hp, hdel, hst⟩⟩
          simp [interp_deleted_p_eq, World.store]
        · intro v w1 h1
          cases h1
        · intro w1 h1
          cases h1
      · rw [h] at hr
        subst hr
        refine ⟨Or.inr (Or.inl ⟨_, rfl⟩), ?_, ?_, ?_⟩
        · intro e w1 h1
          cases h1
        · intro v w1 h1
          simp only [Res.ok.injEq] at h1
          obtain ⟨h0, h2⟩ := h1
          subst h2
          refine ⟨h0.symm, by simpa [World.store] using hp, by simp [World.store],
            by simp [World.store], ?_, tr, by simp [World.store], hdel, ?_⟩
          · simp [interp_deleted_p_eq, World.store, hd, hp]
          · simpa [World.store] using hst
        · intro w1 h1
          cases h1
      · rw [h] at hr
        subst hr
        refine ⟨Or.inr (Or.inr ⟨_, rfl⟩), ?_, ?_, ?_⟩
        · intro e w1 h1
          cases h1
        · intro v w1 h1
          cases h1
        · intro w1 h1
          simp only [Res.crashed.injEq] at h1
          subst h1
          refine ⟨by simpa [World.store] using hs, by simpa [World.store] using hp,
            by simp [World.store], by simp [World.store, hm], ?_, tr, by simp [World.store],
            hdel, ?_⟩
          · simp [interp_deleted_p_eq, World.store, hd, hp]
          · simpa [World.store] using hst
  obtain ⟨h1, h2, h3, h4⟩ := key _ rfl
  refine ⟨h1, ?_, h2, h3, h4, ?_⟩
  · intro e he
    simp [ interp_initialize, he]
  · intro hstubs hsym hnew hfail hopt
    rcases initialize_options_outcome w self opts with ⟨e0, he⟩ | ⟨ms, hms⟩
    · exact absurd he (hopt e0)
    · obtain ⟨w1, hw1⟩ := initialize_runtime_stubs_unset E
        (w.store self { w.objs self with timer_interval_ms := ms }) self cur
        hstubs hsym hnew hfail
      exact ⟨w1, by simp only [ interp_initialize, bind_apply, hms, hw1]⟩

/-- C26 witness: the fresh handle 0 is created on a Tcl 8.6 whose
`Tcl_InitStubs` fails. The process dies in the cleanup: interpreter 1 was
created and initialised, it is not deleted, and the handle still points to
it. -/
theorem create_all_or_nothing_witness :
    (demo_alloc.objs 0).interp = 0 ∧ (demo_alloc.objs 0).deleted = false ∧
    (demo_alloc.objs 0).main_thread_id = 0 ∧ 0 ∉ demo_alloc.live_instances ∧
    (∃ w1, interp_initialize tcl86Env 0 .nil none 1 demo_alloc = .crashed w1 ∧
      w1.trace = [.Tcl_FindExecutable, .Tcl_CreateInterp, .Tcl_InitStubs 1] ∧
      (w1.objs 0).interp = 1 ∧
      tcl86Env.tclStubsPtr w1.ext = false ∧
      interp_deleted_p 0 w1 = .ok (.bool false) w1) :=
  ⟨by decide, by decide, by decide, by decide,
   ( interp_initialize tcl86Env 0 .nil none 1 demo_alloc).state, rfl, by decide, by decide,
   ((create_all_or_nothing tcl86Env demo_alloc 0 .nil none 1 (by decide) (by decide) (by decide)
      (by decide)).2.2.2.2.1 _ rfl).1,
   ((create_all_or_nothing tcl86Env demo_alloc 0 .nil none 1 (by decide) (by decide) (by decide)
      (by decide)).2.2.2.2.1 _ rfl).2.2.2.2.1⟩

end

end TkBridge
